import Mathlib

/-!
# AESOPLite main DAQ firmware (`al-main-daq.cydsn/main.c`)

A shallow embedding of the main-loop "check" operations of the firmware and
the properties proved about them.  Every C global the modelled functions touch
is a field of the state record of its component; unsigned machine integers are natural numbers reduced
modulo their storage width where the C code can wrap; fixed-size C arrays are
total functions from the index.
-/

namespace MainDaq

/-! ## Ring-buffer macros (main.c lines 72-80) -/

/-- `#define MIN(a,b) (((a)<(b))?(a):(b))` -/
def MIN (a b : Nat) : Nat := if a < b then a else b

/-- `#define WRAPINC(a,b) ((a + 1) % (b))` -/
def WRAPINC (a b : Nat) : Nat := (a + 1) % b

/-- `#define WRAP3INC(a,b) ((a + 3) % (b))` -/
def WRAP3INC (a b : Nat) : Nat := (a + 3) % b

/-- `#define WRAPDEC(a,b) ((a + ((b) - 1)) % (b))` -/
def WRAPDEC (a b : Nat) : Nat := (a + (b - 1)) % b

/-- `#define WRAP(a,b) ((a) % (b))` -/
def WRAP (a b : Nat) : Nat := a % b

/-- `#define ISELEMENTDONE(a,b,c) ((b <= c) ? ((a < b) || (a >= c)) : ((a < b) && (a >= c)))`
with `a` the index, `b` the read cursor and `c` the write cursor. -/
def ISELEMENTDONE (a b c : Nat) : Bool :=
  if b ≤ c then (decide (a < b) || decide (a ≥ c)) else (decide (a < b) && decide (a ≥ c))

/-- `#define ACTIVELEN(a,b,c) ((((c) - (a)) + (b)) % (c))` with `a` the read
cursor, `b` the write cursor and `c` the capacity.  Every call site passes
cursors below the capacity, so `c - a` never goes negative. -/
def ACTIVELEN (a b c : Nat) : Nat := ((c - a) + b) % c

/-- Reference for the active span of a ring, in the words of the specification:
the indices visited walking from the read cursor up to, not including, the
write cursor. -/
def activeSpan (C read write : Nat) : List Nat :=
  (List.range (ACTIVELEN read write C)).map (fun k => (read + k) % C)

/-! ## Constants -/

def DLE : Nat := 0x10
def ETX : Nat := 0x03
def CMD_ID : Nat := 0x14
def REQ_ID : Nat := 0x13
def COMMAND_SOURCES : Nat := 3
def CMD_BUFFER_SIZE : Nat := 256

/-- The `errno.h` codes the firmware returns negated; kept symbolic because
their numeric values belong to the C library. -/
inductive Errno
  | EFAULT | EBUSY | ENOMEM | EIDRM | E2BIG | EILSEQ
  deriving DecidableEq, Repr

deriving instance DecidableEq for Except

/-- `enum commandStatus {WAIT_DLE, CHECK_ID, CHECK_LEN, READ_CMD, CHECK_ETX_CMD, CHECK_ETX_REQ}` -/
inductive commandStatus
  | WAIT_DLE | CHECK_ID | CHECK_LEN | READ_CMD | CHECK_ETX_CMD | CHECK_ETX_REQ
  deriving DecidableEq, Repr

/-- Globals of the command protocol engine.  A two-byte array `uint8 x[2]` is
the pair `(x[0], x[1])`. -/
structure CmdState where
  /-- `enum commandStatus commandStatusC[COMMAND_SOURCES]` -/
  commandStatusC : Nat → commandStatus
  /-- `uint8 commandLenC[COMMAND_SOURCES]` -/
  commandLenC : Nat → Nat
  /-- `uint8 cmdRxC[COMMAND_SOURCES][2]` -/
  cmdRxC : Nat → Nat × Nat
  /-- `uint8 curCmd[COMMAND_CHARS+1]` -/
  curCmd : List Nat
  /-- `uint8 buffCmd[COMMAND_SOURCES][CMD_BUFFER_SIZE][2]` -/
  buffCmd : Nat → Nat → Nat × Nat
  /-- `uint8 readBuffCmd[COMMAND_SOURCES]` -/
  readBuffCmd : Nat → Nat
  /-- `volatile uint8 writeBuffCmd[COMMAND_SOURCES]` -/
  writeBuffCmd : Nat → Nat
  /-- `uint8 orderBuffCmd[COMMAND_SOURCES]` -/
  orderBuffCmd : Nat → Nat
  /-- `uint8 headerBuffCmd[COMMAND_SOURCES]` -/
  headerBuffCmd : Nat → Nat
  /-- `uint8 interpretBuffCmd[COMMAND_SOURCES]` -/
  interpretBuffCmd : Nat → Nat
  /-- `uint8 lastCmdSource` -/
  lastCmdSource : Nat
  /-- `volatile uint16 cntCmd` -/
  cntCmd : Nat
  /-- `uint8 cntCmdError` -/
  cntCmdError : Nat
  /-- `uint8 cntError` -/
  cntError : Nat
  /-- `volatile uint8 lowRateReq` -/
  lowRateReq : Bool

/-- The command engine after the zero initialisation of the C globals. -/
def CmdState.init : CmdState where
  commandStatusC := fun _ => .WAIT_DLE
  commandLenC := fun _ => 0
  cmdRxC := fun _ => (0, 0)
  curCmd := [0, 0, 0, 0, 0]
  buffCmd := fun _ _ => (0, 0)
  readBuffCmd := fun _ => 0
  writeBuffCmd := fun _ => 0
  orderBuffCmd := fun _ => 0
  headerBuffCmd := fun _ => 0
  interpretBuffCmd := fun _ => 0
  lastCmdSource := 0
  cntCmd := 0
  cntCmdError := 0
  cntError := 0
  lowRateReq := false

/-- One upper-case hexadecimal digit as an ASCII code, as printed by `%X`. -/
def hexDigit (n : Nat) : Nat := if n < 10 then 48 + n else 55 + n

/-- `CmdBytes2String` (main.c 725-733): `sprintf(out, "%02X%02X", in[0], in[1])`.
Returns the five bytes written (four characters and the NUL) and the character
count.  The NULL-pointer branch is unreachable for the callers modelled here,
which pass addresses of global arrays. -/
def CmdBytes2String (cmd : Nat × Nat) : List Nat × Nat :=
  ([hexDigit (cmd.1 / 16 % 16), hexDigit (cmd.1 % 16),
    hexDigit (cmd.2 / 16 % 16), hexDigit (cmd.2 % 16), 0], 4)

/-- `ParseCmdInputByte(tempRx, i)` (main.c 831-918).  The result is the C return
value (`.error e` for `-e`) and the globals afterwards. -/
def ParseCmdInputByte (tempRx i : Nat) (s : CmdState) : Except Errno Nat × CmdState :=
  match s.commandStatusC i with
  | .WAIT_DLE =>
    if DLE = tempRx then
      (.ok 0, { s with commandStatusC := Function.update s.commandStatusC i .CHECK_ID })
    else (.ok 0, s)
  | .CHECK_ID =>
    if CMD_ID = tempRx then
      (.ok 0, { s with commandStatusC := Function.update s.commandStatusC i .CHECK_LEN })
    else if REQ_ID = tempRx then
      (.ok 0, { s with commandStatusC := Function.update s.commandStatusC i .CHECK_ETX_REQ })
    else
      (.error .EIDRM,
        { s with commandStatusC := Function.update s.commandStatusC i .WAIT_DLE
                 cntCmdError := (s.cntCmdError + 1) % 256 })
  | .CHECK_LEN =>
    if 2 = tempRx then
      (.ok 0,
        { s with commandLenC := Function.update s.commandLenC i tempRx
                 commandStatusC := Function.update s.commandStatusC i .READ_CMD })
    else
      (.error .E2BIG,
        { s with commandStatusC := Function.update s.commandStatusC i .WAIT_DLE
                 cntCmdError := (s.cntCmdError + 1) % 256 })
  | .READ_CMD =>
    if s.commandLenC i > 0 then
      let rx := s.cmdRxC i
      let rx1 := if s.commandLenC i % 2 = 0 then (tempRx, rx.2) else (rx.1, tempRx)
      let len1 := s.commandLenC i - 1
      let s1 := { s with cmdRxC := Function.update s.cmdRxC i rx1
                         commandLenC := Function.update s.commandLenC i len1 }
      if 0 = len1 then
        (.ok 0, { s1 with commandStatusC := Function.update s1.commandStatusC i .CHECK_ETX_CMD })
      else (.ok 0, s1)
    else (.ok 0, s)
  | .CHECK_ETX_CMD =>
    if ETX = tempRx then
      let res := CmdBytes2String (s.cmdRxC i)
      let s1 := { s with curCmd := res.1 }
      let s2 :=
        if res.2 ≥ 0 then
          let tempWrite := s1.writeBuffCmd i
          { s1 with
              writeBuffCmd := Function.update s1.writeBuffCmd i (WRAPINC (s1.writeBuffCmd i) CMD_BUFFER_SIZE)
              buffCmd := Function.update s1.buffCmd i (Function.update (s1.buffCmd i) tempWrite (s1.cmdRxC i))
              cntCmd := (s1.cntCmd + 1) % 65536
              lastCmdSource := i }
        else s1
      (.ok 0, { s2 with commandStatusC := Function.update s2.commandStatusC i .WAIT_DLE })
    else
      (.error .EILSEQ, { s with cntCmdError := (s.cntCmdError + 1) % 256 })
  | .CHECK_ETX_REQ =>
    if ETX = tempRx then
      let s1 := { s with lowRateReq := true }
      (.ok 0, { s1 with commandStatusC := Function.update s1.commandStatusC i .WAIT_DLE })
    else
      (.error .EILSEQ, { s with cntCmdError := (s.cntCmdError + 1) % 256 })

/-- Feed a sequence of received bytes of source `i` to the parser, one call of
`ParseCmdInputByte` per byte, as `ISRCheckCmd` does. -/
def feedBytes (i : Nat) : List Nat → CmdState → CmdState
  | [], s => s
  | b :: bs, s => feedBytes i bs (ParseCmdInputByte b i s).2

/-- The six bytes of a command frame carrying the data bytes `a`, `b`. -/
def cmdFrame (a b : Nat) : List Nat := [0x10, 0x14, 0x02, a, b, 0x03]

/-- The five bytes `10 14 02 AB 03`: a command frame cut one data byte short. -/
def shortFrame : List Nat := [0x10, 0x14, 0x02, 0xAB, 0x03]

/-- A command queue of source 0 holding 255 entries (read cursor 1, write
cursor 0). -/
def fullQueueState : CmdState := { CmdState.init with readBuffCmd := fun _ => 1 }

/-! ## Event ring, packet queues and frame ring -/

def EV_BUFFER_SIZE : Nat := 1024
def SPI_BUFFER_SIZE : Nat := 512
def PACKET_EVENT_SIZE : Nat := 16
def NUM_SPI_DEV : Nat := 1
def PACKET_FIFO_SIZE : Nat := 16 * NUM_SPI_DEV
def FRAME_DATA_BYTES : Nat := 27
def FRAME_BUFFER_BLOCKS : Nat := 6
def FRAME_BUFFER_BLOCK_SIZE : Nat := 256
def FRAME_BUFFER_SIZE : Nat := FRAME_BUFFER_BLOCKS * FRAME_BUFFER_BLOCK_SIZE
def HK_BUFFER_PACKETS : Nat := 2
def NULL_HEAD : Nat := 0xF9
def EOR_HEAD : Nat := 0xFF
def EVFIX_HEAD : Nat := 0xDB
def EVVAR_HEAD : Nat := 0xDC
def EVHK_ID : Nat := 0xDE

/-- `const uint8 frame00FF[2] = {0x00u, 0xFFu}` -/
def frame00FF (k : Nat) : Nat := if k = 0 then 0x00 else 0xFF

/-- `#define EV_DUMP_SIZE (EV_BUFFER_SIZE - WRAP(EV_BUFFER_SIZE, FRAME_DATA_BYTES))` -/
def EV_DUMP_SIZE : Nat := EV_BUFFER_SIZE - WRAP EV_BUFFER_SIZE FRAME_DATA_BYTES
def EV_MIN_SIZE : Nat := 9
def EV_MAX_SIZE : Nat := 255 + 9

/-- `sizeof(HousekeepingPeriodic)`: the byte fields of the record add up to 72. -/
def SIZEOF_HK : Nat := 72

/-- `sizeof(lowRateHK.eventHK)` -/
def SIZEOF_EVENT_HK : Nat := 75

/-- `enum eventLowRateCopyState {NO_EVENT_LR_COPY, COPY_EVENT_HK, COPY_LAST_EVENT}` -/
inductive eventLowRateCopyState
  | NO_EVENT_LR_COPY | COPY_EVENT_HK | COPY_LAST_EVENT
  deriving DecidableEq, Repr

/-- `struct PacketEvent { EvBufferIndex header; EvBufferIndex EOR; }` -/
structure PacketEvent where
  header : Nat
  EOR : Nat
  deriving DecidableEq, Repr

/-- `struct PacketLocation { SPIBufferIndex index, header, EOR; }` -/
structure PacketLocation where
  index : Nat
  header : Nat
  EOR : Nat
  deriving DecidableEq, Repr

/-- `struct FrameOutput { uint8 seqH, seqM, seqL; uint8 sync[4]; uint8 data[27]; }` -/
structure FrameOutput where
  seqH : Nat
  seqM : Nat
  seqL : Nat
  sync : Nat → Nat
  data : Nat → Nat

/-- Globals of the event receiver, the packet queues and the frame output
multiplexer. -/
structure DaqState where
  /-- `uint8 buffEv[EV_BUFFER_SIZE]` -/
  buffEv : Nat → Nat
  /-- `EvBufferIndex buffEvRead` (uint16) -/
  buffEvRead : Nat
  /-- `EvBufferIndex buffEvWrite` -/
  buffEvWrite : Nat
  /-- `EvBufferIndex buffEvWriteLast` -/
  buffEvWriteLast : Nat
  /-- `PacketEvent packetEv[PACKET_EVENT_SIZE]` -/
  packetEv : Nat → PacketEvent
  /-- `uint8 packetEvHead` -/
  packetEvHead : Nat
  /-- `uint8 packetEvTail` -/
  packetEvTail : Nat
  /-- `uint8 buffSPI[NUM_SPI_DEV][SPI_BUFFER_SIZE]` -/
  buffSPI : Nat → Nat → Nat
  /-- `SPIBufferIndex buffSPIRead[NUM_SPI_DEV]` -/
  buffSPIRead : Nat → Nat
  /-- `PacketLocation packetFIFO[PACKET_FIFO_SIZE]` -/
  packetFIFO : Nat → PacketLocation
  /-- `uint8 packetFIFOHead` -/
  packetFIFOHead : Nat
  /-- `uint8 packetFIFOTail` -/
  packetFIFOTail : Nat
  /-- `FrameOutput buffFrameData[FRAME_BUFFER_SIZE]` -/
  buffFrameData : Nat → FrameOutput
  /-- `FmBufferIndex buffFrameDataRead` (uint16) -/
  buffFrameDataRead : Nat
  /-- `FmBufferIndex buffFrameDataReadUSB` -/
  buffFrameDataReadUSB : Nat
  /-- `FmBufferIndex buffFrameDataWrite` -/
  buffFrameDataWrite : Nat
  /-- `uint16 seqFrame2HB` -/
  seqFrame2HB : Nat
  /-- `uint16 cntFramesDropped` -/
  cntFramesDropped : Nat
  /-- `uint16 cntFramesDroppedUSB` -/
  cntFramesDroppedUSB : Nat
  /-- `HousekeepingPeriodic buffHK[HK_BUFFER_PACKETS]`, each record as its 72 bytes -/
  buffHK : Nat → Nat → Nat
  /-- `uint8 buffHKRead` -/
  buffHKRead : Nat
  /-- `uint8 buffHKWrite` -/
  buffHKWrite : Nat
  /-- The memory from `lowRateHK.eventHK` on, indexed from the start of the
  array: cells 0..74 are `eventHK`, cell 75 is the member `etx` that follows it,
  and the cells from 76 on are the bytes behind `lowRateHK`, which the linker
  gives to other globals. -/
  lowRateEventHK : Nat → Nat
  /-- `enum eventLowRateCopyState eventLRCopy` -/
  eventLRCopy : eventLowRateCopyState
  /-- `uint8 DMAHRDataActive` -/
  DMAHRDataActive : Nat
  /-- `uint8 DMAHRDataTd` -/
  DMAHRDataTd : Nat
  /-- Not a C variable: the mark that a `memcpy` of the modelled code has
  written outside its destination array.  C leaves the behaviour of the
  program undefined from that call on (the bytes land in whatever the linker
  placed behind the array), so the other fields of a marked state say nothing
  about the program; the mark is never cleared. -/
  memFault : Bool

/-- The globals after the C static initialisation: everything zero except
`eventLRCopy = COPY_EVENT_HK` and `DMAHRDataTd = CY_DMA_INVALID_TD` (a constant
of the DMA component, taken as 0xFE here; nothing modelled depends on it). -/
def DaqState.init : DaqState where
  buffEv := fun _ => 0
  buffEvRead := 0
  buffEvWrite := 0
  buffEvWriteLast := 0
  packetEv := fun _ => ⟨0, 0⟩
  packetEvHead := 0
  packetEvTail := 0
  buffSPI := fun _ _ => 0
  buffSPIRead := fun _ => 0
  packetFIFO := fun _ => ⟨0, 0, 0⟩
  packetFIFOHead := 0
  packetFIFOTail := 0
  buffFrameData := fun _ => ⟨0, 0, 0, fun _ => 0, fun _ => 0⟩
  buffFrameDataRead := 0
  buffFrameDataReadUSB := 0
  buffFrameDataWrite := 0
  seqFrame2HB := 0
  cntFramesDropped := 0
  cntFramesDroppedUSB := 0
  buffHK := fun _ _ => 0
  buffHKRead := 0
  buffHKWrite := 0
  lowRateEventHK := fun _ => 0
  eventLRCopy := .COPY_EVENT_HK
  DMAHRDataActive := 0
  DMAHRDataTd := 0xFE
  memFault := false

/-! ### `CheckEventPackets` (main.c 1604-1716) -/

/-- Append one `PacketEvent` at the tail of the packet queue:
`tmp = packetEvTail; packetEvTail = WRAPINC(packetEvTail, 16); packetEv[tmp] = {header, EOR}`. -/
def enqueuePacketEv (s : DaqState) (header EOR : Nat) : DaqState :=
  { s with
      packetEvTail := WRAPINC s.packetEvTail PACKET_EVENT_SIZE
      packetEv := Function.update s.packetEv s.packetEvTail ⟨header, EOR⟩ }

/-- The body reached when a candidate header passed the length and sync-pair
tests (main.c 1674-1693): queue the bytes before the header as a dump, then the
packet itself if a slot is left; returns `numPkts`. -/
def acceptHeader (s : DaqState) (startRead curRead curEOR : Nat) : Nat × DaqState :=
  let r1 : Nat × DaqState :=
    if curRead ≠ startRead then
      (1, enqueuePacketEv s startRead (WRAPDEC curRead EV_BUFFER_SIZE))
    else (0, s)
  if WRAPINC r1.2.packetEvTail PACKET_EVENT_SIZE ≠ r1.2.packetEvHead then
    (r1.1 + 1, enqueuePacketEv r1.2 curRead curEOR)
  else r1

/-- The length a candidate header implies (main.c 1661-1665): 9 for a
fixed-type header, the length byte three positions on plus 9 for a
variable-type header. -/
def calcBytes (s : DaqState) (curRead : Nat) : Nat :=
  if s.buffEv curRead = EVVAR_HEAD then s.buffEv (WRAP3INC curRead EV_BUFFER_SIZE) + 9
  else EV_MIN_SIZE

/-- The tests a candidate header at `curRead` must pass (main.c 1662-1672): the
byte is a variable-type or fixed-type header, the implied length is within
`expBytes - 2 .. expBytes`, and the next two bytes are `00 FF`. -/
def headerMatches (s : DaqState) (expBytes curRead : Nat) : Prop :=
  (s.buffEv curRead = EVVAR_HEAD ∨ s.buffEv curRead = EVFIX_HEAD) ∧
  (expBytes - 2 ≤ calcBytes s curRead ∧ expBytes ≥ calcBytes s curRead) ∧
  frame00FF 0 = s.buffEv (WRAPINC curRead EV_BUFFER_SIZE) ∧
  frame00FF 1 = s.buffEv (WRAPINC (WRAPINC curRead EV_BUFFER_SIZE) EV_BUFFER_SIZE)

instance (s : DaqState) (expBytes curRead : Nat) : Decidable (headerMatches s expBytes curRead) := by
  unfold headerMatches
  infer_instance

/-- The header probe loop `while (EV_MIN_SIZE <= expBytes)` (main.c 1659-1701).
Each pass lowers `expBytes` by 3, so a fuel of `expBytes` is never used up
before the loop condition fails. -/
def probeHeaders (s : DaqState) (startRead curEOR : Nat) :
    Nat → Nat → Nat → Nat × DaqState
  | 0, _, _ => (0, s)
  | fuel + 1, expBytes, curRead =>
    if EV_MIN_SIZE ≤ expBytes then
      if headerMatches s expBytes curRead then
        acceptHeader s startRead curRead curEOR
      else
        probeHeaders s startRead curEOR fuel (expBytes - 3) (WRAP3INC curRead EV_BUFFER_SIZE)
    else (0, s)

/-- The body reached when the three bytes ending at `curEOR` are `FF 00 FF`
(main.c 1641-1702): align the search span to 3 bytes, cap it at `EV_MAX_SIZE`,
then probe for a header. -/
def trailerFound (s : DaqState) (startRead curRead curEOR : Nat) : Nat × DaqState :=
  let expBytes := ACTIVELEN curRead curEOR EV_BUFFER_SIZE + 1
  let iterRev := WRAP expBytes 3
  let aligned : Nat × Nat :=
    if 0 ≠ iterRev ∧ iterRev < expBytes then
      (expBytes - iterRev, WRAP (curRead + iterRev) EV_BUFFER_SIZE)
    else (expBytes, curRead)
  let capped : Nat × Nat :=
    if EV_MAX_SIZE < aligned.1 then
      (EV_MAX_SIZE, WRAP ((EV_BUFFER_SIZE - EV_MAX_SIZE) + 1 + curEOR) EV_BUFFER_SIZE)
    else aligned
  probeHeaders s startRead curEOR capped.1 capped.1 capped.2

/-- The three bytes ending at `curEOR` are the end-of-record marker `FF 00 FF`
(main.c 1632-1638). -/
def trailerAt (s : DaqState) (curEOR : Nat) : Prop :=
  frame00FF 1 = s.buffEv curEOR ∧
  frame00FF 0 = s.buffEv (WRAPDEC curEOR EV_BUFFER_SIZE) ∧
  EOR_HEAD = s.buffEv (WRAPDEC (WRAPDEC curEOR EV_BUFFER_SIZE) EV_BUFFER_SIZE)

instance (s : DaqState) (curEOR : Nat) : Decidable (trailerAt s curEOR) := by
  unfold trailerAt
  infer_instance

/-- The trailer search loop `while (EV_MIN_SIZE <= nBytes)` (main.c 1630-1711),
by recursion on `nBytes`, which the loop decrements. -/
def scanTrailer (s : DaqState) (startRead curRead : Nat) : Nat → Nat → Nat × DaqState
  | 0, _ => (0, s)
  | n + 1, curEOR =>
    if EV_MIN_SIZE ≤ n + 1 then
      if trailerAt s curEOR then trailerFound s startRead curRead curEOR
      else scanTrailer s startRead curRead n (WRAPDEC curEOR EV_BUFFER_SIZE)
    else (0, s)

/-- The scan start: the read cursor, or one past the EOR of the last queued
packet when the packet queue is not empty (main.c 1611-1617). -/
def scanStart (s : DaqState) : Nat :=
  if s.packetEvHead ≠ s.packetEvTail then
    WRAPINC (s.packetEv (WRAPDEC s.packetEvTail PACKET_EVENT_SIZE)).EOR EV_BUFFER_SIZE
  else s.buffEvRead

/-- `CheckEventPackets()` (main.c 1607-1716): the return value and the globals
afterwards. -/
def CheckEventPackets (s : DaqState) : Nat × DaqState :=
  if s.buffEvWriteLast ≠ s.buffEvWrite ∧ s.buffEvRead ≠ s.buffEvWrite ∧
      WRAPINC s.packetEvTail PACKET_EVENT_SIZE ≠ s.packetEvHead then
    let curRead := scanStart s
    let s1 := { s with buffEvWriteLast := s.buffEvWrite }
    let startRead := curRead
    let nBytes := ACTIVELEN curRead s1.buffEvWrite EV_BUFFER_SIZE
    if EV_DUMP_SIZE ≤ nBytes then
      (1, enqueuePacketEv s1 curRead (WRAP (curRead + (EV_DUMP_SIZE - 1)) EV_BUFFER_SIZE))
    else
      scanTrailer s1 startRead curRead nBytes (WRAPDEC s1.buffEvWrite EV_BUFFER_SIZE)
  else (0, s)

/-- The bytes of a fixed-type event packet with the given payload: header
`0xDB`, sync pair `00 FF`, the payload, trailer `FF 00 FF`. -/
def fixedPacket (payload : List Nat) : List Nat :=
  [0xDB, 0x00, 0xFF] ++ payload ++ [0xFF, 0x00, 0xFF]

/-- The ring `buf` holds the bytes `pkt` from index `start` on, wrapping at the
end of the ring. -/
def holdsAt (buf : Nat → Nat) (start : Nat) (pkt : List Nat) : Prop :=
  ∀ k, k < pkt.length → buf ((start + k) % EV_BUFFER_SIZE) = pkt.getD k 0

/-- An event ring whose unread span is exactly the bytes `pkt`, starting at
index `start`; the packet queue is empty and the bytes are new. -/
def ringWith (start : Nat) (pkt : List Nat) : DaqState :=
  { DaqState.init with
      buffEv := fun j => pkt.getD ((j + EV_BUFFER_SIZE - start) % EV_BUFFER_SIZE) 0
      buffEvRead := start
      buffEvWrite := (start + pkt.length) % EV_BUFFER_SIZE
      buffEvWriteLast := start }

/-- An event ring with 999 unread bytes, from index 5 up to the write cursor
1004, an empty packet queue and `buffEvWriteLast` still 0. -/
def dumpState : DaqState := { DaqState.init with buffEvRead := 5, buffEvWrite := 1004 }

/-! ### `CheckFrameBuffer` (main.c 1718-2108) -/

/-- What the hardware answers during one call of `CheckFrameBuffer`. -/
structure FrameHw where
  /-- `Status_Reg_UART_DMA_Read()` -/
  dmaStatus : Nat
  /-- `CyDmaTdAllocate()` -/
  tdAllocated : Nat
  /-- `USBUART_CD_GetConfiguration()` -/
  usbConfiguration : Nat
  /-- `USBUART_CD_CDCIsReady()` -/
  usbReady : Nat

/-- `case FALSE:` of the DMA switch (main.c 1736-1754): mark the DMA active and
take a new transfer descriptor; the transfer itself is hardware output. -/
def startDma (hw : FrameHw) (s : DaqState) : DaqState :=
  { s with DMAHRDataActive := 1, DMAHRDataTd := hw.tdAllocated }

/-- The RS232 consumer (main.c 1721-1765), `case TRUE` falling through to
`case FALSE` when a finished frame leaves more to send. -/
def serviceUart (hw : FrameHw) (s : DaqState) : DaqState :=
  if s.buffFrameDataWrite ≠ s.buffFrameDataRead then
    if s.DMAHRDataActive = 1 then
      if hw.dmaStatus % 2 = 0 then s
      else
        let s1 := { s with buffFrameDataRead := WRAPINC s.buffFrameDataRead FRAME_BUFFER_SIZE }
        if s1.buffFrameDataWrite = s1.buffFrameDataRead then { s1 with DMAHRDataActive := 0 }
        else startDma hw s1
    else if s.DMAHRDataActive = 0 then startDma hw s
    else s
  else s

/-- The USB consumer (main.c 1767-1781). -/
def serviceUsb (hw : FrameHw) (s : DaqState) : DaqState :=
  if s.buffFrameDataWrite ≠ s.buffFrameDataReadUSB then
    if 0 ≠ hw.usbConfiguration then
      if hw.usbReady ≠ 0 then
        { s with buffFrameDataReadUSB := WRAPINC s.buffFrameDataReadUSB FRAME_BUFFER_SIZE }
      else s
    else s
  else s

/-- `buffFrameData[buffFrameDataWrite].seqM = seqFrame2HB & 0xFF;`
`buffFrameData[buffFrameDataWrite].seqH = seqFrame2HB >> 8;` -/
def stampSeq (s : DaqState) : DaqState :=
  { s with
      buffFrameData := Function.update s.buffFrameData s.buffFrameDataWrite
        { s.buffFrameData s.buffFrameDataWrite with
            seqM := s.seqFrame2HB % 256
            seqH := s.seqFrame2HB / 256 % 256 } }

/-- `memcpy(&buffFrameData[buffFrameDataWrite].data[tmpWrite], src, nBytes)` -/
def writeFrameData (s : DaqState) (tmpWrite : Nat) (src : Nat → Nat) (nBytes : Nat) :
    DaqState :=
  { s with
      buffFrameData := Function.update s.buffFrameData s.buffFrameDataWrite
        { s.buffFrameData s.buffFrameDataWrite with
            data := fun j =>
              if tmpWrite ≤ j ∧ j < tmpWrite + nBytes then src (j - tmpWrite)
              else (s.buffFrameData s.buffFrameDataWrite).data j } }

/-- `buffFrameData[buffFrameDataWrite].data[j] = v` -/
def setFrameByte (s : DaqState) (j v : Nat) : DaqState :=
  { s with
      buffFrameData := Function.update s.buffFrameData s.buffFrameDataWrite
        { s.buffFrameData s.buffFrameDataWrite with
            data := Function.update (s.buffFrameData s.buffFrameDataWrite).data j v } }

/-- The two overwrite checks after the write cursor moved (e.g. main.c
1863-1872): a consumer cursor the write cursor landed on is pushed one slot on
and its dropped-frame counter incremented. -/
def dropCheck (s : DaqState) : DaqState :=
  let s1 :=
    if s.buffFrameDataWrite = s.buffFrameDataRead then
      { s with buffFrameDataRead := WRAPINC s.buffFrameDataRead FRAME_BUFFER_SIZE
               cntFramesDropped := (s.cntFramesDropped + 1) % 65536 }
    else s
  if s1.buffFrameDataWrite = s1.buffFrameDataReadUSB then
    { s1 with buffFrameDataReadUSB := WRAPINC s1.buffFrameDataReadUSB FRAME_BUFFER_SIZE
              cntFramesDroppedUSB := (s1.cntFramesDroppedUSB + 1) % 65536 }
  else s1

/-- Slot advancement (e.g. main.c 1858-1872): bump `seqFrame2HB` when the slot
just written has `seqL = 255`, advance the write cursor, run the overwrite
checks. -/
def closeSlot (s : DaqState) : DaqState :=
  let s0 :=
    if 255 = (s.buffFrameData s.buffFrameDataWrite).seqL then
      { s with seqFrame2HB := (s.seqFrame2HB + 1) % 65536 }
    else s
  dropCheck { s0 with buffFrameDataWrite := WRAPINC s0.buffFrameDataWrite FRAME_BUFFER_SIZE }

/-- The zero padding to 3-byte alignment (e.g. main.c 1882-1890); returns the
new `tmpWrite`. -/
def padAlign (s : DaqState) (tmpWrite : Nat) : DaqState × Nat :=
  let bytesAlign := WRAP tmpWrite 3
  if 0 ≠ bytesAlign then
    let s1 := setFrameByte s tmpWrite 0x00
    if 1 = bytesAlign then (setFrameByte s1 (tmpWrite + 1) 0x00, tmpWrite + 2)
    else (s1, tmpWrite + 1)
  else (s, tmpWrite)

/-- The filler loop `while (FRAME_DATA_BYTES > tmpWrite)` (e.g. main.c
1891-1896), three bytes a pass. -/
def fillLoop : Nat → DaqState → Nat → DaqState × Nat
  | 0, s, tmpWrite => (s, tmpWrite)
  | fuel + 1, s, tmpWrite =>
    if FRAME_DATA_BYTES > tmpWrite then
      fillLoop fuel
        (writeFrameData (setFrameByte s tmpWrite NULL_HEAD) (tmpWrite + 1) frame00FF 2)
        (tmpWrite + 3)
    else (s, tmpWrite)

/-- The block closing a partly filled slot (e.g. main.c 1880-1912): pad, fill
with filler triples, advance the slot.  The filler loop adds 3 bytes a pass to
a `tmpWrite` of at least 1, so 9 passes always reach 27. -/
def padFrame (s : DaqState) (tmpWrite : Nat) : DaqState :=
  if FRAME_DATA_BYTES > tmpWrite ∧ 0 < tmpWrite then
    let p := padAlign s tmpWrite
    closeSlot (fillLoop 9 p.1 p.2).1
  else s

/-- Locals of the copy loop of the event branch. -/
structure CopyLocals where
  curRead : Nat
  nDataBytesLeft : Nat
  nDataBytesLeftLR : Nat
  tmpWrite : Nat
  tmpWriteLR : Nat

/-- The low-rate side copy inside the event copy loop (main.c 1812-1833);
returns the state, `nDataBytesLeftLR` and `tmpWriteLR`.  `lowRateOffset`,
`nBytesLR` and `tmpWriteLR` are `uint8`.  The destination of the `memcpy` is
the 75-byte array `lowRateHK.eventHK`: a copy that ends past it sets
`memFault`.  Cell 75 of `lowRateEventHK` is the member `etx` that follows the
array in the struct; the cells from 76 on stand for the bytes behind
`lowRateHK`, which belong to other globals in the linked program and are only
meaningful for saying where the copy went. -/
def lowRateCopy (s : DaqState) (l : CopyLocals) (nBytes : Nat) : DaqState × Nat × Nat :=
  if 0 < l.nDataBytesLeftLR ∧ s.eventLRCopy = .COPY_EVENT_HK then
    let lowRateOffset :=
      if SIZEOF_EVENT_HK < l.nDataBytesLeftLR then (l.nDataBytesLeftLR - SIZEOF_EVENT_HK) % 256
      else 0
    if nBytes > lowRateOffset then
      let nBytesLR := MIN nBytes l.nDataBytesLeftLR % 256
      let len := nBytesLR - lowRateOffset
      ({ s with
          lowRateEventHK := fun j =>
            if l.tmpWriteLR ≤ j ∧ j < l.tmpWriteLR + len then
              s.buffEv (l.curRead + lowRateOffset + (j - l.tmpWriteLR))
            else s.lowRateEventHK j
          memFault := s.memFault || decide (SIZEOF_EVENT_HK < l.tmpWriteLR + len) },
        (l.nDataBytesLeftLR + 65536 - nBytesLR) % 65536,
        (l.tmpWriteLR + len) % 256)
    else (s, (l.nDataBytesLeftLR + 65536 - nBytes) % 65536, l.tmpWriteLR)
  else (s, l.nDataBytesLeftLR, l.tmpWriteLR)

/-- The `nBytes` of one pass of the event copy loop (main.c 1804-1808): what
fits in the slot, cut at the end of the ring while the packet still wraps. -/
def evStepBytes (curEOR : Nat) (l : CopyLocals) : Nat :=
  if curEOR < l.curRead then
    MIN (EV_BUFFER_SIZE - l.curRead) (MIN (FRAME_DATA_BYTES - l.tmpWrite) l.nDataBytesLeft)
  else MIN (FRAME_DATA_BYTES - l.tmpWrite) l.nDataBytesLeft

/-- The read position after a pass that copied `nBytes` (main.c 1837-1853):
`curRead += (nBytes - 1)`, then 0 at the end of the ring, else one further.
`nBytes` is at least 1 on every pass (`evStepBytes_bounds`). -/
def evNextRead (curRead nBytes : Nat) : Nat :=
  if curRead + nBytes - 1 ≥ EV_BUFFER_SIZE - 1 then 0
  else WRAPINC (curRead + nBytes - 1) EV_BUFFER_SIZE

/-- One pass of `while (0 < nDataBytesLeft)` in the event branch (main.c
1802-1878). -/
def evCopyStep (curEOR : Nat) (s : DaqState) (l : CopyLocals) : DaqState × CopyLocals :=
  let nBytes := evStepBytes curEOR l
  let s1 := writeFrameData s l.tmpWrite (fun k => s.buffEv (l.curRead + k)) nBytes
  let lr := lowRateCopy s1 l nBytes
  let left := l.nDataBytesLeft - nBytes
  let cr1 := evNextRead l.curRead nBytes
  let s3 := { lr.1 with buffEvRead := cr1 }
  let tw := l.tmpWrite + nBytes
  if FRAME_DATA_BYTES ≤ tw then
    (stampSeq (closeSlot s3), ⟨cr1, left, lr.2.1, 0, lr.2.2⟩)
  else (s3, ⟨cr1, left, lr.2.1, tw, lr.2.2⟩)

/-- The copy loop of the event branch.  Every pass copies at least one byte, so
a fuel of `nDataBytesLeft` is never used up before the loop condition fails. -/
def evCopyLoop (curEOR : Nat) : Nat → DaqState → CopyLocals → DaqState × CopyLocals
  | 0, s, l => (s, l)
  | fuel + 1, s, l =>
    if 0 < l.nDataBytesLeft then
      evCopyLoop curEOR fuel (evCopyStep curEOR s l).1 (evCopyStep curEOR s l).2
    else (s, l)

/-- The event-packet branch of `CheckFrameBuffer` (main.c 1782-1913). -/
def muxEvent (s : DaqState) : DaqState :=
  let curRead := (s.packetEv s.packetEvHead).header
  let curEOR := (s.packetEv s.packetEvHead).EOR
  let nDataBytesLeft := ACTIVELEN curRead curEOR EV_BUFFER_SIZE + 1
  let s1 := stampSeq { s with packetEvHead := WRAPINC s.packetEvHead PACKET_EVENT_SIZE }
  let nDataBytesLeftLR :=
    if s1.eventLRCopy = .COPY_EVENT_HK ∧
        EVHK_ID = s1.buffEv (WRAP (curRead + 4) EV_BUFFER_SIZE) then
      (nDataBytesLeft + 65536 - 3) % 65536
    else 0
  let r := evCopyLoop curEOR nDataBytesLeft s1 ⟨curRead, nDataBytesLeft, nDataBytesLeftLR, 0, 0⟩
  padFrame r.1 r.2.tmpWrite

/-- The `nBytes` of one pass of the bus-poller copy loop (main.c 1928-1932), for
the locals `(curRead, nDataBytesLeft, tmpWrite)`. -/
def spiStepBytes (curEOR : Nat) (l : Nat × Nat × Nat) : Nat :=
  if curEOR < l.1 then
    MIN (SPI_BUFFER_SIZE - l.1) (MIN (FRAME_DATA_BYTES - l.2.2) l.2.1)
  else MIN (FRAME_DATA_BYTES - l.2.2) l.2.1

/-- The read position after a bus-poller pass that copied `nBytes` (main.c
1947-1962). -/
def spiNextRead (curRead nBytes : Nat) : Nat :=
  if curRead + nBytes - 1 ≥ SPI_BUFFER_SIZE - 1 then 0
  else WRAPINC (curRead + nBytes - 1) SPI_BUFFER_SIZE

/-- One pass of `while (nDataBytesLeft > 0)` in the bus-poller branch (main.c
1926-1987); the locals are `(curRead, nDataBytesLeft, tmpWrite)`. -/
def spiCopyStep (curSPIDev curEOR : Nat) (s : DaqState) (l : Nat × Nat × Nat) :
    DaqState × Nat × Nat × Nat :=
  let nBytes := spiStepBytes curEOR l
  let s1 := writeFrameData s l.2.2 (fun k => s.buffSPI curSPIDev (l.1 + k)) nBytes
  let left := l.2.1 - nBytes
  let cr1 := spiNextRead l.1 nBytes
  let s3 := { s1 with buffSPIRead := Function.update s1.buffSPIRead curSPIDev cr1 }
  let tw := l.2.2 + nBytes
  if FRAME_DATA_BYTES ≤ tw then (stampSeq (closeSlot s3), cr1, left, 0)
  else (s3, cr1, left, tw)

/-- The copy loop of the bus-poller branch, with fuel `nDataBytesLeft`. -/
def spiCopyLoop (curSPIDev curEOR : Nat) :
    Nat → DaqState → Nat × Nat × Nat → DaqState × Nat × Nat × Nat
  | 0, s, l => (s, l)
  | fuel + 1, s, l =>
    if l.2.1 > 0 then
      spiCopyLoop curSPIDev curEOR fuel (spiCopyStep curSPIDev curEOR s l).1
        (spiCopyStep curSPIDev curEOR s l).2
    else (s, l)

/-- The bus-poller branch of `CheckFrameBuffer` (main.c 1914-2022). -/
def muxSPI (s : DaqState) : DaqState :=
  let curSPIDev := (s.packetFIFO s.packetFIFOHead).index % 256
  let curRead := (s.packetFIFO s.packetFIFOHead).header
  let curEOR := (s.packetFIFO s.packetFIFOHead).EOR
  let nDataBytesLeft := ACTIVELEN curRead curEOR SPI_BUFFER_SIZE + 1
  let s1 := stampSeq { s with packetFIFOHead := WRAPINC s.packetFIFOHead PACKET_FIFO_SIZE }
  let r := spiCopyLoop curSPIDev curEOR nDataBytesLeft s1 (curRead, nDataBytesLeft, 0)
  padFrame r.1 r.2.2.2

/-- One pass of `while (nDataBytesLeft > 0)` in the housekeeping branch (main.c
2032-2068); the locals are `(curRead, nDataBytesLeft, tmpWrite)`. -/
def hkCopyStep (s : DaqState) (l : Nat × Nat × Nat) : DaqState × Nat × Nat × Nat :=
  let nBytes := MIN (FRAME_DATA_BYTES - l.2.2) l.2.1
  let s1 := writeFrameData s l.2.2 (fun k => s.buffHK s.buffHKRead (l.1 + k)) nBytes
  let left := l.2.1 - nBytes
  let cr1 := (l.1 + nBytes) % 256
  let tw := l.2.2 + nBytes
  if FRAME_DATA_BYTES ≤ tw then (stampSeq (closeSlot s1), cr1, left, 0)
  else (s1, cr1, left, tw)

/-- The copy loop of the housekeeping branch, with fuel `nDataBytesLeft`. -/
def hkCopyLoop : Nat → DaqState → Nat × Nat × Nat → DaqState × Nat × Nat × Nat
  | 0, s, l => (s, l)
  | fuel + 1, s, l =>
    if l.2.1 > 0 then hkCopyLoop fuel (hkCopyStep s l).1 (hkCopyStep s l).2
    else (s, l)

/-- The housekeeping branch of `CheckFrameBuffer` (main.c 2023-2104); the read
cursor of the record queue moves inside the block that closes the last slot. -/
def muxHK (s : DaqState) : DaqState :=
  let s1 := stampSeq s
  let r := hkCopyLoop SIZEOF_HK s1 (0, SIZEOF_HK, 0)
  if FRAME_DATA_BYTES > r.2.2.2 ∧ 0 < r.2.2.2 then
    let s2 := padFrame r.1 r.2.2.2
    { s2 with buffHKRead := WRAPINC s2.buffHKRead HK_BUFFER_PACKETS }
  else r.1

/-- `CheckFrameBuffer()` (main.c 1718-2108): serve the two consumers, then drain
one packet from the first non-empty queue in the order event, bus poller,
housekeeping.  The C function always returns 0. -/
def CheckFrameBuffer (hw : FrameHw) (s : DaqState) : Nat × DaqState :=
  let s1 := serviceUsb hw (serviceUart hw s)
  if s1.packetEvHead ≠ s1.packetEvTail then (0, muxEvent s1)
  else if s1.packetFIFOHead ≠ s1.packetFIFOTail then (0, muxSPI s1)
  else if s1.buffHKRead ≠ s1.buffHKWrite then (0, muxHK s1)
  else (0, s1)

/-- The payload the specification prescribes for a frame holding one packet of
`n` bytes `pkt 0 .. pkt (n-1)`: the packet bytes, zero bytes up to 3-byte
alignment, then the triple `F9 00 FF` repeated. -/
def paddedPayload (n : Nat) (pkt : Nat → Nat) (j : Nat) : Nat :=
  if j < n then pkt j
  else if j < n + (3 - n % 3) % 3 then 0x00
  else [0xF9, 0x00, 0xFF].getD ((j - (n + (3 - n % 3) % 3)) % 3) 0

/-- A multiplexer state whose event-packet queue holds one packet `header..EOR`
over a ring whose byte at index `j` is `j % 251`. -/
def muxWith (header EOR : Nat) : DaqState :=
  { DaqState.init with
      buffEv := fun j => j % 251
      buffEvRead := header
      buffEvWrite := (EOR + 1) % EV_BUFFER_SIZE
      buffEvWriteLast := (EOR + 1) % EV_BUFFER_SIZE
      packetEv := fun _ => ⟨header, EOR⟩
      packetEvTail := 1 }

/-- Hardware that reports nothing to do: no DMA completion, USB not configured. -/
def idleHw : FrameHw := ⟨0, 0, 0, 0⟩

/-! ## I2C transaction scheduler -/

def I2C_BUFFER_SIZE : Nat := 64
def I2C_READ : Nat := 1
def I2C_WRITE : Nat := 0
def I2C_MAX_RETRIES : Nat := 1

/-- `struct I2CTrans { uint8 type, slaveAddress; uint8 *data; uint8 cnt, mode, error; }`;
the `data` pointer is kept as a number naming the buffer. -/
structure I2CTrans where
  type : Nat
  slaveAddress : Nat
  data : Nat
  cnt : Nat
  mode : Nat
  error : Nat
  deriving DecidableEq, Repr

/-- The status bit masks of the generated I2C master component
(`I2C_RTC_MSTAT_*`), which are not part of `main.c`. -/
structure I2CMasks where
  MSTAT_XFER_INP : Nat
  MSTAT_ERR_MASK : Nat
  MSTAT_RD_CMPLT : Nat
  MSTAT_WR_CMPLT : Nat

/-- The mask values of the PSoC I2C master component. -/
def psocMasks : I2CMasks := ⟨0x04, 0xF0, 0x01, 0x02⟩

/-- What the bus answers during one call of `CheckI2C`. -/
structure I2CHw where
  /-- `I2C_RTC_MasterStatus()` -/
  status : Nat
  /-- the return value of `I2C_RTC_MasterWriteBuf` / `I2C_RTC_MasterReadBuf`
  if the call issues a transaction -/
  issueResult : Nat

/-- Globals of the I2C scheduler. -/
structure I2CState where
  /-- `I2CTrans buffI2C[I2C_BUFFER_SIZE]` -/
  buffI2C : Nat → I2CTrans
  /-- `uint8 buffI2CRead` -/
  buffI2CRead : Nat
  /-- `uint8 buffI2CWrite` -/
  buffI2CWrite : Nat
  /-- `uint8 numI2CRetry` -/
  numI2CRetry : Nat
  /-- `uint8 cntError` -/
  cntError : Nat

/-- `buffI2C[buffI2CRead].error = err; buffI2CRead = WRAPINC(buffI2CRead, I2C_BUFFER_SIZE);`
`numI2CRetry = 0;` -/
def dequeueI2C (s : I2CState) (err : Nat) : I2CState :=
  { s with
      buffI2C := Function.update s.buffI2C s.buffI2CRead { s.buffI2C s.buffI2CRead with error := err }
      buffI2CRead := WRAPINC s.buffI2CRead I2C_BUFFER_SIZE
      numI2CRetry := 0 }

/-- The branch `else //execute new transaction` of `CheckI2C` (main.c
1198-1226): hand the head descriptor to the bus; a nonzero return counts an
error and a retry; the descriptor is dequeued once `I2C_MAX_RETRIES <= numI2CRetry`.
`errors` enters as `status & ERR_MASK`, which is 0 in this branch. -/
def issueI2C (hw : I2CHw) (s : I2CState) (errors : Nat) : I2CState :=
  let ty := (s.buffI2C s.buffI2CRead).type
  let r : Nat × I2CState :=
    if I2C_WRITE = ty ∨ I2C_READ = ty then
      if 0 ≠ hw.issueResult % 256 then
        (hw.issueResult % 256,
          { s with cntError := (s.cntError + 1) % 256
                   numI2CRetry := (s.numI2CRetry + 1) % 256 })
      else (hw.issueResult % 256, s)
    else (errors, s)
  if I2C_MAX_RETRIES ≤ r.2.numI2CRetry then dequeueI2C r.2 r.1 else r.2

/-- `CheckI2C()` (main.c 1149-1232).  The C function always returns 0; the first
component of the result is the queue index of the descriptor handed to the bus
in this call, if any. -/
def CheckI2C (m : I2CMasks) (hw : I2CHw) (s : I2CState) : Option Nat × I2CState :=
  if s.buffI2CRead ≠ s.buffI2CWrite then
    if 0 = hw.status &&& m.MSTAT_XFER_INP then
      let errors := hw.status &&& m.MSTAT_ERR_MASK
      if errors ≠ 0 then
        (none, { dequeueI2C s errors with cntError := (s.cntError + 1) % 256 })
      else if 0 ≠ hw.status &&& m.MSTAT_RD_CMPLT then
        if I2C_READ = (s.buffI2C s.buffI2CRead).type then (none, dequeueI2C s 0)
        else (none, dequeueI2C { s with cntError := (s.cntError + 1) % 256 } m.MSTAT_ERR_MASK)
      else if 0 ≠ hw.status &&& m.MSTAT_WR_CMPLT then
        if I2C_WRITE = (s.buffI2C s.buffI2CRead).type then (none, dequeueI2C s 0)
        else (none, dequeueI2C { s with cntError := (s.cntError + 1) % 256 } m.MSTAT_ERR_MASK)
      else
        (if I2C_WRITE = (s.buffI2C s.buffI2CRead).type ∨
            I2C_READ = (s.buffI2C s.buffI2CRead).type then some s.buffI2CRead else none,
          issueI2C hw s errors)
    else (none, s)
  else (none, s)

/-- Run `CheckI2C` once per bus answer in the list; returns the indexes handed
to the bus, pass by pass, and the final globals. -/
def runI2C (m : I2CMasks) : List I2CHw → I2CState → List (Option Nat) × I2CState
  | [], s => ([], s)
  | hw :: hws, s =>
    ((CheckI2C m hw s).1 :: (runI2C m hws (CheckI2C m hw s).2).1,
      (runI2C m hws (CheckI2C m hw s).2).2)

/-- A queue of three write descriptors (indexes 0, 1, 2), nothing in flight. -/
def threeQueued : I2CState where
  buffI2C := fun k => ⟨I2C_WRITE, 0x40 + k, k, 1, 0, 0⟩
  buffI2CRead := 0
  buffI2CWrite := 3
  numI2CRetry := 0
  cntError := 0

/-- Bus answers for four passes over `threeQueued`: descriptor 0 is issued and
completes as a write; issuing descriptor 1 fails (return value 2); descriptor 2
is issued. -/
def secondFails : List I2CHw := [⟨0x00, 0⟩, ⟨0x02, 0⟩, ⟨0x00, 2⟩, ⟨0x00, 0⟩]

/-! ## Command forwarding (main.c 746-767, 1003-1019) -/

/-- `#define START_COMMAND (uint8*)("S")`, `START_COMMAND_SIZE 1u` -/
def START_COMMAND : List Nat := [0x53]

/-- `#define END_COMMAND (uint8*)(" 01W")`, `END_COMMAND_SIZE 4u` -/
def END_COMMAND : List Nat := [0x20, 0x30, 0x31, 0x57]

def CR : Nat := 0x0D
def LF : Nat := 0x0A
def COMMAND_CHARS : Nat := 4

/-- The body of `for (uint8 x=0; x<3; x++)` in `SendCmdString`, by recursion on
the passes left: the bytes handed to `UART_Cmd_PutArray`, in order. -/
def sendCmdLoop (inp : List Nat) : Nat → List Nat
  | 0 => []
  | n + 1 => START_COMMAND ++ inp.take COMMAND_CHARS ++ END_COMMAND ++ sendCmdLoop inp n

/-- `SendCmdString(in)` (main.c 746-767).  `txBufferSize` is what
`UART_Cmd_GetTxBufferSize()` returns; the result is the C return value and the
bytes handed to the command UART, in order. -/
def SendCmdString (txBufferSize : Nat) (inp : List Nat) : Except Errno Nat × List Nat :=
  if 0 ≠ txBufferSize then (.error .EBUSY, [])
  else (.ok 0, sendCmdLoop inp 3 ++ [CR, LF])

/-- The loop `for (uint8 i = 0; i < COMMAND_SOURCES; i++)` of `CheckCmdBuffers`,
by recursion on the passes left, from index `i` on. -/
def cmdDrainLoop (txBufferSize : Nat) (s : CmdState) :
    Nat → Nat → Except Errno Nat × CmdState × List Nat
  | 0, _ => (.ok 0, s, [])
  | n + 1, i =>
    let curChan := s.orderBuffCmd i
    if s.readBuffCmd curChan ≠ s.writeBuffCmd curChan then
      let s1 := { s with curCmd := (CmdBytes2String (s.buffCmd curChan (s.readBuffCmd curChan))).1 }
      let sent := SendCmdString txBufferSize s1.curCmd
      (.ok 1,
        { s1 with readBuffCmd :=
            Function.update s1.readBuffCmd curChan (WRAPINC (s1.readBuffCmd curChan) CMD_BUFFER_SIZE) },
        sent.2)
    else cmdDrainLoop txBufferSize s n (i + 1)

/-- `CheckCmdBuffers()` (main.c 1003-1019): the C return value, the globals
afterwards and the bytes handed to the command UART.  The transmit buffer is
filled only by this code and only drains otherwise, so the second reading of
its size, inside `SendCmdString`, is 0 whenever the first one was. -/
def CheckCmdBuffers (txBufferSize : Nat) (s : CmdState) : Except Errno Nat × CmdState × List Nat :=
  if 0 ≠ txBufferSize then (.error .EBUSY, s, [])
  else cmdDrainLoop txBufferSize s COMMAND_SOURCES 0

/-- The 29 bytes of the legacy envelope for the four characters `c0 .. c3`, in
the words of the specification: `S`, the characters and ` 01W`, three times,
then CR LF. -/
def envelope (c0 c1 c2 c3 : Nat) : List Nat :=
  [0x53, c0, c1, c2, c3, 0x20, 0x30, 0x31, 0x57,
   0x53, c0, c1, c2, c3, 0x20, 0x30, 0x31, 0x57,
   0x53, c0, c1, c2, c3, 0x20, 0x30, 0x31, 0x57, 0x0D, 0x0A]

/-- The value of an upper-case hexadecimal digit given as an ASCII code. -/
def hexVal (c : Nat) : Nat := if c < 58 then c - 48 else c - 55

/-- Decode four hexadecimal characters into two bytes. -/
def decodeHex4 (l : List Nat) : Nat × Nat :=
  (hexVal (l.getD 0 0) * 16 + hexVal (l.getD 1 0), hexVal (l.getD 2 0) * 16 + hexVal (l.getD 3 0))

/-- An ASCII code in `'0'..'9'` or `'A'..'F'`. -/
def isUpperHex (c : Nat) : Prop := (48 ≤ c ∧ c ≤ 57) ∨ (65 ≤ c ∧ c ≤ 70)

/-- A command engine with commands queued on sources 1 and 2 and the priority
order 2, 0, 1. -/
def drainState : CmdState :=
  { CmdState.init with
      orderBuffCmd := fun i => if i = 0 then 2 else if i = 1 then 0 else 1
      buffCmd := fun c k => (0xA0 + c, k)
      readBuffCmd := fun c => if c = 2 then 255 else 0
      writeBuffCmd := fun c => if c = 0 then 0 else if c = 1 then 3 else 1 }

/-- No three consecutive bytes `FF 00 FF` lie inside the `n` bytes of the ring
`buf` that start at index `start` (wrapping at the end of the ring). -/
def noTrailerIn (buf : Nat → Nat) (start n : Nat) : Prop :=
  ∀ p, p + 2 < n →
    ¬ (buf ((start + p) % EV_BUFFER_SIZE) = 0xFF ∧
       buf ((start + p + 1) % EV_BUFFER_SIZE) = 0x00 ∧
       buf ((start + p + 2) % EV_BUFFER_SIZE) = 0xFF)

/-- An event ring with 14 unread bytes, all zero, from index 1020 over the end
of the ring up to the write cursor 10, and an empty packet queue. -/
def quietState : DaqState :=
  { DaqState.init with buffEvRead := 1020, buffEvWrite := 10, buffEvWriteLast := 1 }

def TRUE : Nat := 1
def FALSE : Nat := 0
def MAIN_HK_I2C_BUFFER_SIZE : Nat := 14
def NO_WRITE_REG_ADDRESS : Nat := 255
def I2C_ADDRESS_BAROMETER : Nat := 0x70

/-- Constants of the generated components that `main.c` uses but does not
define. -/
structure CyConsts where
  /-- `CYRET_SUCCESS` -/
  CYRET_SUCCESS : Nat
  /-- `I2C_RTC_MODE_COMPLETE_XFER` -/
  MODE_COMPLETE_XFER : Nat

/-- The values the PSoC components give these constants. -/
def psocConsts : CyConsts := ⟨0, 0⟩

/-- `struct HousekeepingTrackI2C { uint8 slaveAddress, regAddress, cnt; uint8 *data;`
`uint8 writeTrans, readTrans; }` -/
structure HousekeepingTrackI2C where
  slaveAddress : Nat
  regAddress : Nat
  cnt : Nat
  data : Nat
  writeTrans : Nat
  readTrans : Nat
  deriving DecidableEq, Repr

/-- The initialiser of `mainHKI2C[MAIN_HK_I2C_BUFFER_SIZE]` (main.c 592-606). -/
def mainHKI2CTable : List HousekeepingTrackI2C :=
  [⟨0x70, 0xF7, 6, 0, 0, 0⟩, ⟨0x48, NO_WRITE_REG_ADDRESS, 2, 0, 0, 0⟩,
   ⟨0x44, 0x02, 2, 0, 0, 0⟩, ⟨0x44, 0x01, 2, 0, 0, 0⟩,
   ⟨0x43, 0x02, 2, 0, 0, 0⟩, ⟨0x43, 0x01, 2, 0, 0, 0⟩,
   ⟨0x41, 0x02, 2, 0, 0, 0⟩, ⟨0x41, 0x01, 2, 0, 0, 0⟩,
   ⟨0x45, 0x02, 2, 0, 0, 0⟩, ⟨0x45, 0x01, 2, 0, 0, 0⟩,
   ⟨0x42, 0x02, 2, 0, 0, 0⟩, ⟨0x40, 0x02, 2, 0, 0, 0⟩,
   ⟨0x40, 0x01, 2, 0, 0, 0⟩, ⟨0x46, 0x02, 2, 0, 0, 0⟩]

/-- Pointers are kept as numbers: byte `off` of record `w` of `buffHK` is
`0x1000 + 72 * w + off`, `&mainHKI2C[c].regAddress` is `0x2000 + c`, and
`ForcedSampleBaroI2CBytes` is `0x3000`; `NULL` is 0. -/
def hkPtr (w off : Nat) : Nat := 0x1000 + SIZEOF_HK * w + off
def regAddressPtr (c : Nat) : Nat := 0x2000 + c
def ForcedSampleBaroI2CBytes : Nat := 0x3000

/-- Byte offsets of the fields of `HousekeepingPeriodic` (main.c 256-288). -/
def OFF_commandLast : Nat := 7
def OFF_commandCount : Nat := 9
def OFF_commandErrors : Nat := 11
def OFF_generalErrors : Nat := 12
def OFF_missingValuesThisPacket : Nat := 13
def OFF_fifoPercentFull : Nat := 14
def OFF_framesDroppedRS232 : Nat := 15
def OFF_framesDroppedUSB : Nat := 17
def OFF_coreDieTemp : Nat := 43

/-- The offsets of the fields the 14 table entries read into (main.c
1471-1484): `baroPres3`, `boardTemperature`, then the voltage and amperage
fields from `digital3VVoltage` to `trackerBiasVoltage`. -/
def hkDataOffset (k : Nat) : Nat :=
  [35, 41, 45, 47, 49, 51, 53, 55, 57, 59, 61, 63, 65, 67].getD k 0

/-- What the hardware answers during one call of `CheckHKBuffer`. -/
structure HkHw where
  /-- the return value of `DieTemp_Main_Query(&dieTemp)` -/
  dieTempStatus : Nat
  /-- `dieTemp` after that call, as a 16-bit pattern -/
  dieTemp : Nat

/-- Globals of the housekeeping collector.  `daq` holds `buffHK`, `buffHKWrite`
and the frame-ring cursors and counters copied into the record; `i2c` holds the
I2C queue and the global `cntError`. -/
structure HkState where
  daq : DaqState
  i2c : I2CState
  /-- `HousekeepingTrackI2C mainHKI2C[MAIN_HK_I2C_BUFFER_SIZE]` -/
  mainHKI2C : Nat → HousekeepingTrackI2C
  /-- `uint8 mainHKI2CRead` -/
  mainHKI2CRead : Nat
  /-- `volatile uint8 hkReq` -/
  hkReq : Nat
  /-- `uint8 hkCollecting` -/
  hkCollecting : Nat
  /-- `uint8 outputBusy` -/
  outputBusy : Nat
  /-- `uint8 outputBusyHighThres` -/
  outputBusyHighThres : Nat
  /-- `uint8 outputBusyLowThres` -/
  outputBusyLowThres : Nat
  /-- `int16 dieTemp`, as a 16-bit pattern -/
  dieTemp : Nat

/-- `buffHK[buffHKWrite].<field at off> = v` -/
def setHK (s : HkState) (off v : Nat) : HkState :=
  { s with
      daq := { s.daq with
        buffHK := fun w o =>
          if w = s.daq.buffHKWrite ∧ o = off then v else s.daq.buffHK w o } }

/-- `buffHK[buffHKWrite].missingValuesThisPacket++` -/
def missInc (s : HkState) : HkState :=
  setHK s OFF_missingValuesThisPacket
    ((s.daq.buffHK s.daq.buffHKWrite OFF_missingValuesThisPacket + 1) % 256)

/-- `memset(ptr, 0, cnt)` for a pointer into `buffHK`. -/
def zeroHK (s : HkState) (ptr cnt : Nat) : HkState :=
  { s with
      daq := { s.daq with
        buffHK := fun w o =>
          if o < SIZEOF_HK ∧ ptr ≤ hkPtr w o ∧ hkPtr w o < ptr + cnt then 0
          else s.daq.buffHK w o } }

/-- Append one descriptor at the tail of the I2C queue; the `error` field is
not written. -/
def enqueueI2C (q : I2CState) (type slaveAddress cnt data mode : Nat) : I2CState :=
  { q with
      buffI2C := Function.update q.buffI2C q.buffI2CWrite
        { q.buffI2C q.buffI2CWrite with
            type := type
            slaveAddress := slaveAddress
            cnt := cnt
            data := data
            mode := mode }
      buffI2CWrite := WRAPINC q.buffI2CWrite I2C_BUFFER_SIZE }

/-- `ForcedSampleBaroI2C()` (main.c 1250-1267). -/
def ForcedSampleBaroI2C (c : CyConsts) (q : I2CState) : Except Errno Nat × I2CState :=
  if I2C_BUFFER_SIZE > 2 + ACTIVELEN q.buffI2CRead q.buffI2CWrite I2C_BUFFER_SIZE then
    (.ok 1, enqueueI2C q I2C_WRITE I2C_ADDRESS_BAROMETER 2 ForcedSampleBaroI2CBytes
      c.MODE_COMPLETE_XFER)
  else (.error .EBUSY, q)

/-- The first part of one pass of the `do ... while (continueCheck)` loop (main.c
1356-1384): look at the table entry under `mainHKI2CRead`; returns the globals
and `continueCheck`. -/
def hkCheckEntry (s : HkState) : HkState × Bool :=
  let e := s.mainHKI2C s.mainHKI2CRead
  if I2C_BUFFER_SIZE = e.readTrans then
    ({ s with mainHKI2CRead := MAIN_HK_I2C_BUFFER_SIZE }, false)
  else if ISELEMENTDONE e.readTrans s.i2c.buffI2CRead s.i2c.buffI2CWrite then
    let s1 :=
      if (s.i2c.buffI2C e.readTrans).error ≠ 0 then missInc (zeroHK s e.data e.cnt)
      else if I2C_BUFFER_SIZE ≠ e.writeTrans then
        if (s.i2c.buffI2C e.writeTrans).error ≠ 0 then missInc (zeroHK s e.data e.cnt)
        else s
      else s
    ({ s1 with mainHKI2CRead := (s1.mainHKI2CRead + 1) % 256 }, true)
  else (s, false)

/-- The command and ring statistics copied into the record (main.c 1387-1398):
last command, command count, command errors, general errors, and the fill of
the frame ring in percent. -/
def hkStatistics (cmd : CmdState) (s : HkState) : HkState :=
  let last := cmd.buffCmd cmd.lastCmdSource
    (WRAPDEC (cmd.writeBuffCmd cmd.lastCmdSource) CMD_BUFFER_SIZE)
  let s1 := setHK (setHK s OFF_commandLast last.1) (OFF_commandLast + 1) last.2
  let s2 := setHK (setHK s1 (OFF_commandCount + 1) (cmd.cntCmd % 256)) OFF_commandCount
    (cmd.cntCmd / 256 % 256)
  let s3 := setHK (setHK s2 OFF_commandErrors cmd.cntCmdError) OFF_generalErrors s2.i2c.cntError
  setHK s3 OFF_fifoPercentFull
    ((ACTIVELEN s3.daq.buffFrameDataRead s3.daq.buffFrameDataWrite FRAME_BUFFER_SIZE * 100
      / FRAME_BUFFER_SIZE) % 256)

/-- The busy output with hysteresis (main.c 1399-1408); the pin write is
hardware output. -/
def hkBusy (s : HkState) : HkState :=
  if TRUE = s.outputBusy ∧
      s.outputBusyLowThres ≥ s.daq.buffHK s.daq.buffHKWrite OFF_fifoPercentFull then
    { s with outputBusy := FALSE }
  else if FALSE = s.outputBusy ∧
      s.outputBusyHighThres ≤ s.daq.buffHK s.daq.buffHKWrite OFF_fifoPercentFull then
    { s with outputBusy := TRUE }
  else s

/-- The two dropped-frame counters copied into the record, high byte first
(main.c 1409-1416). -/
def hkFrameCounts (s : HkState) : HkState :=
  let s1 := setHK (setHK s (OFF_framesDroppedRS232 + 1) (s.daq.cntFramesDropped % 256))
    OFF_framesDroppedRS232 (s.daq.cntFramesDropped / 256 % 256)
  setHK (setHK s1 (OFF_framesDroppedUSB + 1) (s1.daq.cntFramesDroppedUSB % 256))
    OFF_framesDroppedUSB (s1.daq.cntFramesDroppedUSB / 256 % 256)

/-- The die temperature (main.c 1417-1430): the reading high byte first, or
`80 00`, one more missing value and one more general error when the query
fails. -/
def hkDieTemp (c : CyConsts) (hw : HkHw) (s : HkState) : HkState :=
  let s1 := { s with dieTemp := hw.dieTemp }
  if c.CYRET_SUCCESS = hw.dieTempStatus then
    setHK (setHK s1 (OFF_coreDieTemp + 1) (s1.dieTemp % 256)) OFF_coreDieTemp
      (s1.dieTemp / 256 % 256)
  else
    let m := setHK (setHK (missInc s1) OFF_coreDieTemp 0x80) (OFF_coreDieTemp + 1) 0x00
    { m with i2c := { m.i2c with cntError := (m.i2c.cntError + 1) % 256 } }

/-- The block that closes the record once every table entry is dealt with
(main.c 1385-1436): fill in the statistics, update the busy output, read the
die temperature, flip the double buffer, clear `hkCollecting` and queue the
next forced barometer sample. -/
def hkFinish (c : CyConsts) (cmd : CmdState) (hw : HkHw) (s : HkState) : HkState :=
  let s9 := hkDieTemp c hw (hkFrameCounts (hkBusy (hkStatistics cmd s)))
  let s10 := setHK s9 OFF_generalErrors s9.i2c.cntError
  let s11 :=
    { s10 with
        daq := { s10.daq with buffHKWrite := WRAPINC s10.daq.buffHKWrite HK_BUFFER_PACKETS }
        hkCollecting := FALSE }
  { s11 with i2c := (ForcedSampleBaroI2C c s11.i2c).2 }

/-- The loop `do ... while (continueCheck)` of the collecting branch (main.c
1354-1437); returns the C return value and the globals.  A pass that goes on
raises `mainHKI2CRead`, which ends the loop at 14, so a fuel of 14 is never
used up. -/
def hkCheckLoop (c : CyConsts) (cmd : CmdState) (hw : HkHw) : Nat → HkState → Nat × HkState
  | 0, s => (0, s)
  | fuel + 1, s =>
    let r := hkCheckEntry s
    if MAIN_HK_I2C_BUFFER_SIZE ≤ r.1.mainHKI2CRead then (1, hkFinish c cmd hw r.1)
    else if r.2 then hkCheckLoop c cmd hw fuel r.1
    else (0, r.1)

/-- `mainHKI2C[curI2C].writeTrans = I2C_BUFFER_SIZE; mainHKI2C[curI2C].readTrans = I2C_BUFFER_SIZE;`
`buffHK[buffHKWrite].missingValuesThisPacket++;` -/
def hkSkipEntry (curI2C : Nat) (s : HkState) : HkState :=
  missInc
    { s with
        mainHKI2C := Function.update s.mainHKI2C curI2C
          { s.mainHKI2C curI2C with
              writeTrans := I2C_BUFFER_SIZE
              readTrans := I2C_BUFFER_SIZE } }

/-- The branch of the start loop that queues the transactions of one table
entry (main.c 1557-1589): a one-byte write of the register pointer unless the
entry has none, then the read. -/
def hkQueueEntry (c : CyConsts) (curI2C : Nat) (s : HkState) : HkState :=
  let e := s.mainHKI2C curI2C
  let s1 :=
    if NO_WRITE_REG_ADDRESS = e.regAddress then
      { s with mainHKI2C := Function.update s.mainHKI2C curI2C { e with writeTrans := I2C_BUFFER_SIZE } }
    else
      { s with
          mainHKI2C := Function.update s.mainHKI2C curI2C { e with writeTrans := s.i2c.buffI2CWrite }
          i2c := enqueueI2C s.i2c I2C_WRITE e.slaveAddress 1 (regAddressPtr curI2C)
            c.MODE_COMPLETE_XFER }
  let e1 := s1.mainHKI2C curI2C
  { s1 with
      mainHKI2C := Function.update s1.mainHKI2C curI2C { e1 with readTrans := s1.i2c.buffI2CWrite }
      i2c := enqueueI2C s1.i2c I2C_READ e1.slaveAddress e1.cnt e1.data c.MODE_COMPLETE_XFER }

/-- One pass of `for (uint8 curI2C = 0; curI2C < MAIN_HK_I2C_BUFFER_SIZE; curI2C++)`
(main.c 1538-1593); returns `fullI2CTrans` and the globals. -/
def hkStartEntry (c : CyConsts) (curI2C : Nat) (fullI2CTrans : Bool) (s : HkState) :
    Bool × HkState :=
  if fullI2CTrans then (true, hkSkipEntry curI2C s)
  else if I2C_BUFFER_SIZE ≤ 3 + ACTIVELEN s.i2c.buffI2CRead s.i2c.buffI2CWrite I2C_BUFFER_SIZE then
    (true, hkSkipEntry curI2C s)
  else (false, hkQueueEntry c curI2C s)

/-- The start loop from index `curI2C` on, for `n` passes. -/
def hkStartLoop (c : CyConsts) : Nat → Nat → Bool → HkState → Bool × HkState
  | 0, _, full, s => (full, s)
  | n + 1, curI2C, full, s =>
    hkStartLoop c n (curI2C + 1) (hkStartEntry c curI2C full s).1 (hkStartEntry c curI2C full s).2

/-- The start of a collection up to the start loop (main.c 1442-1486): set
`hkCollecting`, clear `hkReq`, point the table entries at the fields of the
record being filled, rewind `mainHKI2CRead`. -/
def hkStartInit (s : HkState) : HkState :=
  { s with
      hkCollecting := TRUE
      hkReq := FALSE
      mainHKI2C := fun k =>
        if k < MAIN_HK_I2C_BUFFER_SIZE then
          { s.mainHKI2C k with data := hkPtr s.daq.buffHKWrite (hkDataOffset k) }
        else s.mainHKI2C k
      mainHKI2CRead := 0 }

/-- The branch `else if (TRUE == hkReq)` (main.c 1440-1598): the start loop over
the 14 table entries, then `buffHK[buffHKWrite].missingValuesThisPacket = 0`. -/
def hkStart (c : CyConsts) (s : HkState) : HkState :=
  setHK (hkStartLoop c MAIN_HK_I2C_BUFFER_SIZE 0 false (hkStartInit s)).2
    OFF_missingValuesThisPacket 0

/-- `CheckHKBuffer()` (main.c 1348-1600): the return value and the globals
afterwards. -/
def CheckHKBuffer (c : CyConsts) (cmd : CmdState) (hw : HkHw) (s : HkState) : Nat × HkState :=
  if TRUE = s.hkCollecting then hkCheckLoop c cmd hw MAIN_HK_I2C_BUFFER_SIZE s
  else if TRUE = s.hkReq then (0, hkStart c s)
  else (0, s)

/-- A collector with a housekeeping request pending and the I2C queue holding
`n` descriptors from index 0 on. -/
def hkRequested (n : Nat) : HkState where
  daq := DaqState.init
  i2c := { threeQueued with buffI2CWrite := n }
  mainHKI2C := fun k => mainHKI2CTable.getD k ⟨0, 0, 0, 0, 0, 0⟩
  mainHKI2CRead := 0
  hkReq := TRUE
  hkCollecting := FALSE
  outputBusy := FALSE
  outputBusyHighThres := 80
  outputBusyLowThres := 70
  dieTemp := 0

/-- A queue whose head descriptor (index 0) is a write, with one more queued. -/
def writeAtHead : I2CState := { threeQueued with buffI2CWrite := 2, cntError := 7 }

def CMD_MAIN_PSOC_ADDRESS : Nat := 0x28
def CMD_MAIN_FIRST_BYTE : Nat := 0x29
def CMD_ADDRESS_MASK : Nat := 0x3C
def CMD_NUM_BYTE_MASK : Nat := 0xC3

/-- How one pass of a loop of `InterpretCmdBuffers` ends: with a `return`, with
`search4Cmd = FALSE` (a command of source `curChan` is complete), with a move to
the next source (`i`, `curChan`), or with another pass of the inner loop with a
new `lastAdr`. -/
inductive InterpStep where
  | ret (r : Except Errno Nat) (s : CmdState)
  | found (s : CmdState) (curChan : Nat)
  | nextChan (s : CmdState) (i curChan : Nat)
  | again (s : CmdState) (lastAdr : Nat)

/-- `headerBuffCmd[curChan] = interpretBuffCmd[curChan]; cntCmdError++; return -EILSEQ;` -/
def interpReject (s : CmdState) (curChan : Nat) : InterpStep :=
  .ret (.error .EILSEQ)
    { s with
        headerBuffCmd := Function.update s.headerBuffCmd curChan (s.interpretBuffCmd curChan)
        cntCmdError := (s.cntCmdError + 1) % 256 }

/-- `lastAdr = curAdr; interpretBuffCmd[curChan] = WRAPINC(interpretBuffCmd[curChan], CMD_BUFFER_SIZE);` -/
def interpAdvance (s : CmdState) (curChan curAdr : Nat) : InterpStep :=
  .again
    { s with
        interpretBuffCmd := Function.update s.interpretBuffCmd curChan
          (WRAPINC (s.interpretBuffCmd curChan) CMD_BUFFER_SIZE) }
    curAdr

/-- `i++; if (i < COMMAND_SOURCES) curChan = orderBuffCmd[i]; else return 0;` -/
def interpNextSource (s : CmdState) (i : Nat) : InterpStep :=
  if (i + 1) % 256 < COMMAND_SOURCES then .nextChan s ((i + 1) % 256) (s.orderBuffCmd ((i + 1) % 256))
  else .ret (.ok 0) s

/-- The byte count between header and closing entry in the header's length
encoding (main.c 1087-1088): `((n & 0xC) << 4) | (n & 3)` in a `uint8`. -/
def encodeCount (n : Nat) : Nat := (((n &&& 0xC) <<< 4) ||| (n &&& 3)) % 256

/-- One pass of `while (TRUE == search4Cmd)` (main.c 1069-1134). -/
def interpEntry (s : CmdState) (i curChan lastAdr headAdr : Nat) : InterpStep :=
  if s.interpretBuffCmd curChan = s.writeBuffCmd curChan then interpNextSource s i
  else
    let curAdr := (s.buffCmd curChan (s.interpretBuffCmd curChan)).2
    if curAdr = headAdr then
      let numDataBytes :=
        ACTIVELEN (s.headerBuffCmd curChan) (s.interpretBuffCmd curChan) CMD_BUFFER_SIZE % 256
      if encodeCount numDataBytes = CMD_ADDRESS_MASK &&& headAdr then .found s curChan
      else interpReject s curChan
    else if lastAdr = headAdr then
      if CMD_MAIN_FIRST_BYTE = curAdr then interpAdvance s curChan curAdr
      else interpReject s curChan
    else
      let curAdrDiff := (curAdr + 256 - lastAdr) % 256
      if curAdrDiff = 1 then interpAdvance s curChan curAdr
      else if curAdrDiff = 29 ∧ 3 = lastAdr &&& 3 then interpAdvance s curChan curAdr
      else interpReject s curChan

/-- The loop `while (TRUE == search4Cmd)`.  Every pass that goes on moves
`interpretBuffCmd[curChan]` one entry towards `writeBuffCmd[curChan]`, so a fuel
of `CMD_BUFFER_SIZE` is never used up; if it were, the result is `again`. -/
def interpInner : Nat → CmdState → Nat → Nat → Nat → Nat → InterpStep
  | 0, s, _, _, lastAdr, _ => .again s lastAdr
  | fuel + 1, s, i, curChan, lastAdr, headAdr =>
    match interpEntry s i curChan lastAdr headAdr with
    | .again s1 la => interpInner fuel s1 i curChan la headAdr
    | r => r

/-- One pass of the outer `do ... while (TRUE == search4Cmd)` (main.c
1026-1136). -/
def interpSource (s : CmdState) (i curChan : Nat) : InterpStep :=
  if s.headerBuffCmd curChan = s.writeBuffCmd curChan then interpNextSource s i
  else if s.headerBuffCmd curChan = s.interpretBuffCmd curChan then
    let headAdr := (s.buffCmd curChan (s.headerBuffCmd curChan)).2
    let s1 := { s with
      interpretBuffCmd := Function.update s.interpretBuffCmd curChan
        (WRAPINC (s.interpretBuffCmd curChan) CMD_BUFFER_SIZE) }
    if CMD_MAIN_PSOC_ADDRESS = headAdr &&& CMD_ADDRESS_MASK then
      if 0 = headAdr &&& CMD_NUM_BYTE_MASK then .found s1 curChan
      else interpInner CMD_BUFFER_SIZE s1 i curChan headAdr headAdr
    else
      .ret (.ok 0)
        { s1 with
            headerBuffCmd := Function.update s1.headerBuffCmd curChan
              (WRAPINC (s1.headerBuffCmd curChan) CMD_BUFFER_SIZE) }
  else
    interpInner CMD_BUFFER_SIZE s i curChan
      (s.buffCmd curChan (WRAPDEC (s.interpretBuffCmd curChan) CMD_BUFFER_SIZE)).2
      (s.buffCmd curChan (s.headerBuffCmd curChan)).2

/-- The `switch (cmdID)` after the loops (main.c 1139-1146): every command ID
takes the `default` case, which moves both cursors past the closing entry. -/
def interpExecute (s : CmdState) (curChan : Nat) : CmdState :=
  let s1 := { s with
    headerBuffCmd := Function.update s.headerBuffCmd curChan
      (WRAPINC (s.interpretBuffCmd curChan) CMD_BUFFER_SIZE) }
  { s1 with
      interpretBuffCmd := Function.update s1.interpretBuffCmd curChan (s1.headerBuffCmd curChan) }

/-- The outer loop over the sources.  Each pass that goes on raises `i`, and the
loop returns once `i` reaches `COMMAND_SOURCES`, so a fuel of `COMMAND_SOURCES`
is never used up; `none` stands for a run that did not finish. -/
def interpOuter : Nat → CmdState → Nat → Nat → Option (Except Errno Nat × CmdState)
  | 0, _, _, _ => none
  | fuel + 1, s, i, curChan =>
    match interpSource s i curChan with
    | .ret r s1 => some (r, s1)
    | .found s1 c => some (.ok 0, interpExecute s1 c)
    | .nextChan s1 i1 c1 => interpOuter fuel s1 i1 c1
    | .again _ _ => none

/-- `InterpretCmdBuffers()` (main.c 1021-1147): the return value and the globals
afterwards. -/
def InterpretCmdBuffers (s : CmdState) : Option (Except Errno Nat × CmdState) :=
  interpOuter COMMAND_SOURCES s 0 (s.orderBuffCmd 0)

/-- A command engine whose source 0 holds the entries with the given address
bytes (second byte of each entry; the first byte is the position), nothing
interpreted yet, sources in the order 0, 1, 2. -/
def cmdQueued (adrs : List Nat) : CmdState :=
  { CmdState.init with
      buffCmd := fun c k => if c = 0 then (k, adrs.getD k 0) else (0, 0)
      writeBuffCmd := fun c => if c = 0 then adrs.length else 0
      orderBuffCmd := fun i => i }

/-- A multiplexer state whose event-packet queue holds one packet of 334 bytes,
ring indices `0..333`, with the housekeeping id `0xDE` at index 4 and the byte
`j % 250 + 1` at every other index `j`; the low-rate copy mode is
`COPY_EVENT_HK` and `eventHK` and the bytes after it are all zero. -/
def longHkEvent : DaqState :=
  { DaqState.init with
      buffEv := fun j => if j = 4 then EVHK_ID else j % 250 + 1
      buffEvRead := 0
      buffEvWrite := 334
      buffEvWriteLast := 334
      packetEv := fun _ => ⟨0, 333⟩
      packetEvTail := 1 }

/-! ### Path of `CheckEventPackets` to the accept body -/

/-- The `expBytes` and `curRead` with which the header probe loop is entered
(main.c 1644-1658): the span from `curRead` to `curEOR`, shortened at the front
to a multiple of 3 bytes and then to the last `EV_MAX_SIZE` bytes. -/
def probeStart (curRead curEOR : Nat) : Nat × Nat :=
  let expBytes := ACTIVELEN curRead curEOR EV_BUFFER_SIZE + 1
  let iterRev := WRAP expBytes 3
  let aligned : Nat × Nat :=
    if 0 ≠ iterRev ∧ iterRev < expBytes then
      (expBytes - iterRev, WRAP (curRead + iterRev) EV_BUFFER_SIZE)
    else (expBytes, curRead)
  if EV_MAX_SIZE < aligned.1 then
    (EV_MAX_SIZE, WRAP ((EV_BUFFER_SIZE - EV_MAX_SIZE) + 1 + curEOR) EV_BUFFER_SIZE)
  else aligned

/-- The `curRead` of pass `i` of the header probe loop: `WRAP3INC` applied `i`
times to the first candidate (main.c 1700). -/
def probeAt (curRead curEOR i : Nat) : Nat :=
  ((probeStart curRead curEOR).2 + 3 * i) % EV_BUFFER_SIZE

/-- The `expBytes` of pass `i` of the header probe loop: lowered by 3 on every
pass (main.c 1699). -/
def probeExp (curRead curEOR i : Nat) : Nat :=
  (probeStart curRead curEOR).1 - 3 * i

/-- Spec-side: the number of ring bytes from index `p` to index `e`, both
included. -/
def spanLength (p e : Nat) : Nat :=
  (e + EV_BUFFER_SIZE - p) % EV_BUFFER_SIZE + 1

/-- Spec-side: the length a header at `p` implies, 9 for `0xDB` and the length
byte at `p + 3` plus 9 for `0xDC`. -/
def impliedLength (buf : Nat → Nat) (p : Nat) : Nat :=
  if buf p = 0xDC then buf ((p + 3) % EV_BUFFER_SIZE) + 9 else 9

/-- Spec-side: a candidate at `p` for the trailer end `e` carries a header byte,
its implied length is the span length or up to 2 less, and the two bytes after
it are `00 FF`. -/
def fitsSpan (buf : Nat → Nat) (p e : Nat) : Prop :=
  (buf p = 0xDB ∨ buf p = 0xDC) ∧
  spanLength p e ≤ impliedLength buf p + 2 ∧ impliedLength buf p ≤ spanLength p e ∧
  buf ((p + 1) % EV_BUFFER_SIZE) = 0x00 ∧ buf ((p + 2) % EV_BUFFER_SIZE) = 0xFF

instance (buf : Nat → Nat) (p e : Nat) : Decidable (fitsSpan buf p e) := by
  unfold fitsSpan
  infer_instance

/-- Spec-side: the same with the implied length within 2 of the span length in
either direction. -/
def nearSpan (buf : Nat → Nat) (p e : Nat) : Prop :=
  (buf p = 0xDB ∨ buf p = 0xDC) ∧
  spanLength p e ≤ impliedLength buf p + 2 ∧ impliedLength buf p ≤ spanLength p e + 2 ∧
  buf ((p + 1) % EV_BUFFER_SIZE) = 0x00 ∧ buf ((p + 2) % EV_BUFFER_SIZE) = 0xFF

instance (buf : Nat → Nat) (p e : Nat) : Decidable (nearSpan buf p e) := by
  unfold nearSpan
  infer_instance

/-- Nine unread bytes from index 0: a variable-type header whose length byte 1
implies 10 bytes, the sync pair, and the trailer ending at index 8. -/
def overlongState : DaqState :=
  ringWith 0 [0xDC, 0x00, 0xFF, 0x01, 0x05, 0x05, 0xFF, 0x00, 0xFF]

/-- Twelve unread bytes from index 0: three bytes that are no header, then a
variable-type header at index 3 whose length byte 0 implies 9 bytes, the sync
pair, and the trailer ending at index 11. -/
def exactState : DaqState :=
  ringWith 0 [0x01, 0x02, 0x03, 0xDC, 0x00, 0xFF, 0x00, 0x05, 0x05, 0xFF, 0x00, 0xFF]

/-- The `curEOR` of pass `k` of the trailer search loop: `WRAPDEC` applied `k`
times to the index of the last unread byte (main.c 1629, 1707). -/
def eorAt (s : DaqState) (k : Nat) : Nat :=
  (WRAPDEC s.buffEvWrite EV_BUFFER_SIZE + EV_BUFFER_SIZE * k - k) % EV_BUFFER_SIZE

/-- The call of `CheckEventPackets` reaches the accept body (main.c 1674) on
pass `k` of the trailer search and pass `i` of the header probe: the entry test
holds, the span is below the dump threshold, the first `FF 00 FF` found from the
back ends at `eorAt s k`, and the first candidate that passes the header tests
is `probeAt .. i`. -/
def acceptsAt (s : DaqState) (k i : Nat) : Prop :=
  (s.buffEvWriteLast ≠ s.buffEvWrite ∧ s.buffEvRead ≠ s.buffEvWrite ∧
    WRAPINC s.packetEvTail PACKET_EVENT_SIZE ≠ s.packetEvHead) ∧
  ACTIVELEN (scanStart s) s.buffEvWrite EV_BUFFER_SIZE < EV_DUMP_SIZE ∧
  k + EV_MIN_SIZE ≤ ACTIVELEN (scanStart s) s.buffEvWrite EV_BUFFER_SIZE ∧
  (∀ j, j < k → ¬ trailerAt s (eorAt s j)) ∧
  trailerAt s (eorAt s k) ∧
  3 * i + EV_MIN_SIZE ≤ (probeStart (scanStart s) (eorAt s k)).1 ∧
  (∀ j, j < i →
    ¬ headerMatches s (probeExp (scanStart s) (eorAt s k) j) (probeAt (scanStart s) (eorAt s k) j)) ∧
  headerMatches s (probeExp (scanStart s) (eorAt s k) i) (probeAt (scanStart s) (eorAt s k) i)

instance (s : DaqState) (k i : Nat) : Decidable (acceptsAt s k i) := by
  unfold acceptsAt
  infer_instance

/-- Twelve unread bytes from index 0 with an empty packet queue: three bytes
that are no header, then a 9-byte fixed-type packet at indices 3..11. -/
def junkThenPacket : DaqState :=
  ringWith 0 ([0x01, 0x02, 0x03] ++ fixedPacket [0x05, 0x05, 0x05])

/-- The same twelve bytes with fourteen packets queued (entries 2..15, the last
one ending at index 1023) and the read cursor at index 1000: one queue slot is
free. -/
def lastSlotState : DaqState :=
  { junkThenPacket with
      buffEvRead := 1000
      packetEv := fun _ => ⟨1000, 1023⟩
      packetEvHead := 2
      packetEvTail := 0 }

/-- A command engine in which source 1 has received the first command byte
`0x41` of a frame and waits for the second, and source 0 waits for a frame. -/
def midFrame : CmdState :=
  { CmdState.init with
      commandStatusC := fun k => if k = 1 then .READ_CMD else .WAIT_DLE
      commandLenC := fun k => if k = 1 then 1 else 0
      cmdRxC := fun k => if k = 1 then (0x41, 0) else (0, 0) }

/-! ## Housekeeping cadence (`ISRBaroCap`, main.c 2657-2868) -/

/-- The globals of the tick logic: `volatile uint8 cntSecs`, `uint8 hkSecs`,
`volatile uint8 hkReq`. -/
structure TickState where
  cntSecs : Nat
  hkSecs : Nat
  hkReq : Nat

/-- The tick logic at the end of `ISRBaroCap` (main.c 2787-2866): `tmpSecs` is
`hkSecs << 2` kept in a `uint8`; on a tick with `cntSecs % tmpSecs == 0` the
request is raised and the counter set back to 1 when within `tmpSecs` of 255,
else incremented; on any other tick the counter is incremented.  The record
bytes written in the request branch are not part of this state.  (`tmpSecs = 0`
is a division by zero in C; here `x % 0 = x`.) -/
def baroTick (s : TickState) : TickState :=
  let tmpSecs := (s.hkSecs * 4) % 256
  if 0 = s.cntSecs % tmpSecs then
    let s1 := { s with hkReq := TRUE }
    if 255 - s1.cntSecs ≤ tmpSecs then { s1 with cntSecs := 1 }
    else { s1 with cntSecs := (s1.cntSecs + 1) % 256 }
  else { s with cntSecs := (s.cntSecs + 1) % 256 }

/-- The state before tick `n` (ticks are numbered from 0): `n` ticks from `s`,
where after tick `k` the main loop has taken the request (`hkReq = FALSE`,
main.c 1444) when `taken k` holds. -/
def baroRun (taken : Nat → Bool) : Nat → TickState → TickState
  | 0, s => s
  | n + 1, s =>
    if taken n then { baroTick (baroRun taken n s) with hkReq := FALSE }
    else baroTick (baroRun taken n s)

/-! ## Event receiver (`ISRReadEv`, main.c 2409-2431) -/

/-- What the SPI slave component answers during one run of `ISRReadEv`. -/
structure EvRxHw where
  /-- `SPIS_Ev_ReadStatus()` -/
  status : Nat
  /-- the byte the first `SPIS_Ev_ReadRxData()` returns -/
  first : Nat
  /-- the bytes the later `SPIS_Ev_ReadRxData()` calls return, one for each time
  `SPIS_Ev_GetRxBufferSize()` is nonzero -/
  rest : List Nat

/-- Store one received byte (main.c 2416-2418 and 2422-2424); the second
component is the local `tempBuffWrite`:
`buffEv[tempBuffWrite] = b; tempBuffWrite = WRAPINC(tempBuffWrite, EV_BUFFER_SIZE);`
`if (tempBuffWrite == buffEvRead) buffEvRead = WRAPINC(tempBuffWrite, EV_BUFFER_SIZE);` -/
def evStore (st : DaqState × Nat) (b : Nat) : DaqState × Nat :=
  let s1 := { st.1 with buffEv := Function.update st.1.buffEv st.2 b }
  let w := WRAPINC st.2 EV_BUFFER_SIZE
  if w = s1.buffEvRead then ({ s1 with buffEvRead := WRAPINC w EV_BUFFER_SIZE }, w)
  else (s1, w)

/-- `ISRReadEv` (main.c 2409-2431).  `notEmpty` is the component constant
`SPIS_Ev_STS_RX_BUF_NOT_EMPTY`, which is not part of `main.c`.  The loop
`while (tempStatus)` runs once per byte of `hw.rest`. -/
def ISRReadEv (notEmpty : Nat) (hw : EvRxHw) (s : DaqState) : DaqState :=
  if 0 ≠ notEmpty &&& hw.status then
    let r := hw.rest.foldl evStore (evStore (s, s.buffEvWrite) hw.first)
    { r.1 with buffEvWrite := r.2 }
  else s

/-- An event ring holding 1022 unread bytes: read cursor 5, write cursor 3. -/
def nearlyFull : DaqState :=
  { DaqState.init with
      buffEvRead := 5
      buffEvWrite := 3 }

/-- A receive buffer reported not empty (status bit `0x08`) that hands out the
three bytes `A1 A2 A3`. -/
def threeBytes : EvRxHw :=
  { status := 0x08
    first := 0xA1
    rest := [0xA2, 0xA3] }

/-- A collector in the middle of a cycle whose table entry 0 is marked
unavailable (`readTrans = I2C_BUFFER_SIZE`, as the start pass leaves it when the
I2C queue is full), filling record 1 while record 0, completed earlier, has not
been drained yet: `buffHKRead = 0`, `buffHKWrite = 1`. -/
def undrainedCycle : HkState where
  daq :=
    { DaqState.init with
        buffHKRead := 0
        buffHKWrite := 1 }
  i2c := threeQueued
  mainHKI2C := fun _ => ⟨0x70, 0xF7, 6, 0, I2C_BUFFER_SIZE, I2C_BUFFER_SIZE⟩
  mainHKI2CRead := 0
  hkReq := FALSE
  hkCollecting := TRUE
  outputBusy := FALSE
  outputBusyHighThres := 80
  outputBusyLowThres := 70
  dieTemp := 0

/-- The 9-byte variable-type packet `DC 00 FF 00 05 05 FF 00 FF` (length byte
0) alone in the unread span from index 0, with an empty packet queue, scanned
before: `buffEvWriteLast` equals `buffEvWrite`. -/
def scannedPacket : DaqState :=
  { ringWith 0 [0xDC, 0x00, 0xFF, 0x00, 0x05, 0x05, 0xFF, 0x00, 0xFF] with
      buffEvWriteLast := 9 }

/-- Spec-side: the span `header..EOR` has the shape of an event packet in the
ring `buf`: a header byte `0xDB` or `0xDC`, then `00 FF`, the three bytes
ending at `EOR` are `FF 00 FF`, and the length is a multiple of 3 between 9
and 264. -/
def wellShaped (buf : Nat → Nat) (header EOR : Nat) : Prop :=
  (buf header = 0xDB ∨ buf header = 0xDC) ∧
  buf ((header + 1) % EV_BUFFER_SIZE) = 0x00 ∧ buf ((header + 2) % EV_BUFFER_SIZE) = 0xFF ∧
  buf ((EOR + EV_BUFFER_SIZE - 2) % EV_BUFFER_SIZE) = 0xFF ∧
  buf ((EOR + EV_BUFFER_SIZE - 1) % EV_BUFFER_SIZE) = 0x00 ∧ buf EOR = 0xFF ∧
  (ACTIVELEN header EOR EV_BUFFER_SIZE + 1) % 3 = 0 ∧
  9 ≤ ACTIVELEN header EOR EV_BUFFER_SIZE + 1 ∧ ACTIVELEN header EOR EV_BUFFER_SIZE + 1 ≤ 264

instance (buf : Nat → Nat) (header EOR : Nat) : Decidable (wellShaped buf header EOR) := by
  unfold wellShaped
  infer_instance

/-- Spec-side: the span `header..EOR` lies inside the unread span of `s`, the
bytes from the scan start up to, not including, the write cursor. -/
def insideUnread (s : DaqState) (header EOR : Nat) : Prop :=
  ACTIVELEN (scanStart s) header EV_BUFFER_SIZE
      + (ACTIVELEN header EOR EV_BUFFER_SIZE + 1)
    ≤ ACTIVELEN (scanStart s) s.buffEvWrite EV_BUFFER_SIZE

instance (s : DaqState) (header EOR : Nat) : Decidable (insideUnread s header EOR) := by
  unfold insideUnread
  infer_instance

/-! ### Payload view of the frame ring -/

theorem ACTIVELEN_of_le {C r w : Nat} (hr : r < C) (hrw : r ≤ w) (hw : w < C) :
    ACTIVELEN r w C = w - r := by
  unfold ACTIVELEN
  have h : (C - r) + w = (w - r) + C := by omega
  rw [h, Nat.add_mod_right, Nat.mod_eq_of_lt (by omega)]

theorem ACTIVELEN_of_gt {C r w : Nat} (hr : r < C) (hrw : w < r) :
    ACTIVELEN r w C = C - r + w := by
  unfold ACTIVELEN
  rw [Nat.mod_eq_of_lt (by omega)]

theorem ACTIVELEN_lt {C r w : Nat} (hC : 0 < C) : ACTIVELEN r w C < C :=
  Nat.mod_lt _ hC

theorem WRAPINC_eq {C a : Nat} (ha : a < C) :
    WRAPINC a C = if a + 1 = C then 0 else a + 1 := by
  unfold WRAPINC
  split
  · next h => rw [h, Nat.mod_self]
  · next h => rw [Nat.mod_eq_of_lt (by omega)]

theorem WRAPDEC_eq {C a : Nat} (ha : a < C) :
    WRAPDEC a C = if a = 0 then C - 1 else a - 1 := by
  unfold WRAPDEC
  split
  · next h => subst h; rw [Nat.zero_add, Nat.mod_eq_of_lt (by omega)]
  · next h =>
    have h1 : a + (C - 1) = (a - 1) + C := by omega
    rw [h1, Nat.add_mod_right, Nat.mod_eq_of_lt (by omega)]

theorem ACTIVELEN_eq {C r w : Nat} (hr : r < C) (hw : w < C) :
    ACTIVELEN r w C = if r ≤ w then w - r else C - r + w := by
  split
  · next h => exact ACTIVELEN_of_le hr h hw
  · next h => exact ACTIVELEN_of_gt hr (by omega)

theorem ACTIVELEN_add_mod {C r k : Nat} (hr : r < C) (hk : k < C) :
    ACTIVELEN r ((r + k) % C) C = k := by
  have hm : (r + k) % C = if r + k < C then r + k else r + k - C := by
    split
    · next h => exact Nat.mod_eq_of_lt h
    · next h =>
      rw [Nat.mod_eq_sub_mod (by omega), Nat.mod_eq_of_lt (by omega)]
  have hlt : (r + k) % C < C := Nat.mod_lt _ (by omega)
  rw [ACTIVELEN_eq hr hlt, hm]
  split <;> split <;> omega

theorem add_ACTIVELEN_mod {C r x : Nat} (hr : r < C) (hx : x < C) :
    (r + ACTIVELEN r x C) % C = x := by
  rw [ACTIVELEN_eq hr hx]
  split
  · next h =>
    have : r + (x - r) = x := by omega
    rw [this, Nat.mod_eq_of_lt hx]
  · next h =>
    have : r + (C - r + x) = x + C := by omega
    rw [this, Nat.add_mod_right, Nat.mod_eq_of_lt hx]

theorem mem_activeSpan_iff {C idx read write : Nat} (hi : idx < C) (hr : read < C) :
    idx ∈ activeSpan C read write ↔ ACTIVELEN read idx C < ACTIVELEN read write C := by
  have hC : 0 < C := by omega
  unfold activeSpan
  simp only [List.mem_map, List.mem_range]
  constructor
  · rintro ⟨k, hk, rfl⟩
    have hkC : k < C := lt_trans hk (ACTIVELEN_lt hC)
    rw [ACTIVELEN_add_mod hr hkC]
    exact hk
  · intro h
    exact ⟨ACTIVELEN read idx C, h, add_ACTIVELEN_mod hr hi⟩

/-! ### Command parser -/

theorem feedBytes_cmdFrame_prefix (s : CmdState) (i a b : Nat)
    (h : s.commandStatusC i = .WAIT_DLE) :
    feedBytes i [0x10, 0x14, 0x02, a, b] s =
      { s with
          cmdRxC := Function.update s.cmdRxC i (a, b)
          commandLenC := Function.update s.commandLenC i 0
          commandStatusC := Function.update s.commandStatusC i .CHECK_ETX_CMD } := by
  simp [feedBytes, ParseCmdInputByte, h, DLE, CMD_ID]

/-- C1: a command frame `10 14 02 a b 03` received by a source waiting for DLE
queues exactly one command `{a, b}` at the old write cursor, advances that
write cursor by one (mod 256), counts the command (in the 16-bit counter),
records the source, returns to `WAIT_DLE` and leaves the error counter alone. -/
theorem C1_command_frame_queued (s : CmdState) (i a b : Nat)
    (h : s.commandStatusC i = .WAIT_DLE) :
    (feedBytes i (cmdFrame a b) s).buffCmd i (s.writeBuffCmd i) = (a, b) ∧
    (feedBytes i (cmdFrame a b) s).writeBuffCmd i = (s.writeBuffCmd i + 1) % 256 ∧
    (feedBytes i (cmdFrame a b) s).cntCmd = (s.cntCmd + 1) % 65536 ∧
    (s.cntCmd < 65535 → (feedBytes i (cmdFrame a b) s).cntCmd = s.cntCmd + 1) ∧
    (feedBytes i (cmdFrame a b) s).lastCmdSource = i ∧
    (feedBytes i (cmdFrame a b) s).commandStatusC i = .WAIT_DLE ∧
    (feedBytes i (cmdFrame a b) s).cntCmdError = s.cntCmdError ∧
    (∀ j k, (j ≠ i ∨ k ≠ s.writeBuffCmd i) →
      (feedBytes i (cmdFrame a b) s).buffCmd j k = s.buffCmd j k) ∧
    (∀ j, j ≠ i → (feedBytes i (cmdFrame a b) s).writeBuffCmd j = s.writeBuffCmd j) ∧
    (feedBytes i (cmdFrame a b) s).readBuffCmd = s.readBuffCmd := by
  have hp := feedBytes_cmdFrame_prefix s i a b h
  simp only [feedBytes] at hp
  simp only [cmdFrame, feedBytes, hp]
  simp [ParseCmdInputByte, ETX, CmdBytes2String, WRAPINC, CMD_BUFFER_SIZE]
  refine ⟨?_, ?_, ?_⟩
  · intro hc
    omega
  · intro j k hjk
    by_cases hj : j = i
    · subst hj
      rcases hjk with hjk | hjk
      · exact absurd rfl hjk
      · simp [Function.update_noteq hjk]
    · simp [Function.update_noteq hj]
  · intro j hj
    simp [Function.update_noteq hj]

/-- The spec's example for C1: `10 14 02 AB CD 03` on source 0 of the freshly
initialised engine queues `{0xAB, 0xCD}` in slot 0. -/
theorem C1_command_frame_queued_witness :
    CmdState.init.commandStatusC 0 = .WAIT_DLE ∧
    (feedBytes 0 (cmdFrame 0xAB 0xCD) CmdState.init).buffCmd 0 0 = (0xAB, 0xCD) ∧
    (feedBytes 0 (cmdFrame 0xAB 0xCD) CmdState.init).writeBuffCmd 0 = 1 :=
  ⟨rfl, (C1_command_frame_queued CmdState.init 0 0xAB 0xCD rfl).1,
    (C1_command_frame_queued CmdState.init 0 0xAB 0xCD rfl).2.1⟩

/-- C2 as stated fails: after `10 14 02 AB 03` on the freshly initialised
source 0 the parser is not back in `WAIT_DLE` and no error has been counted,
because the `03` was taken as the second data byte. -/
theorem C2_short_frame_counterexample :
    ¬ ((feedBytes 0 shortFrame CmdState.init).commandStatusC 0 = .WAIT_DLE ∧
       (feedBytes 0 shortFrame CmdState.init).cntCmdError
         = (CmdState.init.cntCmdError + 1) % 256) := by
  decide

/-- C2 amended: after `10 14 02 AB 03` a source that was waiting for DLE is in
`CHECK_ETX_CMD` holding the data bytes `{0xAB, 0x03}`, the error counter is
unchanged and nothing has been queued; on the next byte the error counter goes
up by one (mod 256), still with nothing queued, when that byte is not ETX, and
stays as it is when that byte is ETX. -/
theorem C2_short_frame_pending (s : CmdState) (i : Nat)
    (h : s.commandStatusC i = .WAIT_DLE) :
    (feedBytes i shortFrame s).commandStatusC i = .CHECK_ETX_CMD ∧
    (feedBytes i shortFrame s).cmdRxC i = (0xAB, 0x03) ∧
    (feedBytes i shortFrame s).cntCmdError = s.cntCmdError ∧
    (feedBytes i shortFrame s).buffCmd = s.buffCmd ∧
    (feedBytes i shortFrame s).writeBuffCmd = s.writeBuffCmd ∧
    (feedBytes i shortFrame s).cntCmd = s.cntCmd ∧
    (∀ c, c ≠ 0x03 →
      (ParseCmdInputByte c i (feedBytes i shortFrame s)).1 = .error .EILSEQ ∧
      (ParseCmdInputByte c i (feedBytes i shortFrame s)).2.cntCmdError
        = (s.cntCmdError + 1) % 256 ∧
      (ParseCmdInputByte c i (feedBytes i shortFrame s)).2.buffCmd = s.buffCmd ∧
      (ParseCmdInputByte c i (feedBytes i shortFrame s)).2.writeBuffCmd = s.writeBuffCmd ∧
      (ParseCmdInputByte c i (feedBytes i shortFrame s)).2.cntCmd = s.cntCmd) ∧
    (ParseCmdInputByte 0x03 i (feedBytes i shortFrame s)).2.cntCmdError = s.cntCmdError := by
  rw [shortFrame, feedBytes_cmdFrame_prefix s i 0xAB 0x03 h]
  refine ⟨by simp, by simp, rfl, rfl, rfl, rfl, ?_, ?_⟩
  · intro c hc
    have hc3 : ¬ (3 = c) := fun h3 => hc h3.symm
    simp [ParseCmdInputByte, ETX, hc3]
  · simp [ParseCmdInputByte, ETX]

theorem C2_short_frame_pending_witness :
    CmdState.init.commandStatusC 1 = .WAIT_DLE ∧
    (feedBytes 1 shortFrame CmdState.init).commandStatusC 1 = .CHECK_ETX_CMD ∧
    (feedBytes 1 shortFrame CmdState.init).cntCmdError = 0 :=
  ⟨rfl, (C2_short_frame_pending CmdState.init 1 rfl).1,
    (C2_short_frame_pending CmdState.init 1 rfl).2.2.1⟩

/-- C3 at the failing input: a byte other than ETX received in `CHECK_ETX_CMD`
(here `00` after `10 14 02 AB CD`) or in `CHECK_ETX_REQ` (here `00` after
`10 13`) is counted as an error and returns `-EILSEQ`, but the source stays in
the ETX-checking state instead of going back to `WAIT_DLE`. -/
theorem C3_etx_mismatch_keeps_state :
    (feedBytes 0 [0x10, 0x14, 0x02, 0xAB, 0xCD, 0x00] CmdState.init).commandStatusC 0
      = .CHECK_ETX_CMD ∧
    (feedBytes 0 [0x10, 0x14, 0x02, 0xAB, 0xCD, 0x00] CmdState.init).cntCmdError = 1 ∧
    (ParseCmdInputByte 0x00 0 (feedBytes 0 [0x10, 0x14, 0x02, 0xAB, 0xCD] CmdState.init)).1
      = .error .EILSEQ ∧
    (feedBytes 0 [0x10, 0x13, 0x00] CmdState.init).commandStatusC 0 = .CHECK_ETX_REQ ∧
    (feedBytes 0 [0x10, 0x13, 0x00] CmdState.init).cntCmdError = 1 ∧
    (feedBytes 0 [0x10, 0x00] CmdState.init).commandStatusC 0 = .WAIT_DLE ∧
    (feedBytes 0 [0x10, 0x14, 0x00] CmdState.init).commandStatusC 0 = .WAIT_DLE := by
  decide

/-- C4 at the failing input: with 255 entries queued (no free capacity) a
further complete command frame is not refused: the write cursor moves onto the
read cursor, so the queue then reads as empty, and the command count goes up. -/
theorem C4_full_queue_not_refused :
    ACTIVELEN (fullQueueState.readBuffCmd 0) (fullQueueState.writeBuffCmd 0) 256 = 255 ∧
    (feedBytes 0 (cmdFrame 0xAB 0xCD) fullQueueState).writeBuffCmd 0 = 1 ∧
    (feedBytes 0 (cmdFrame 0xAB 0xCD) fullQueueState).readBuffCmd 0 = 1 ∧
    ACTIVELEN ((feedBytes 0 (cmdFrame 0xAB 0xCD) fullQueueState).readBuffCmd 0)
      ((feedBytes 0 (cmdFrame 0xAB 0xCD) fullQueueState).writeBuffCmd 0) 256 = 0 ∧
    (feedBytes 0 (cmdFrame 0xAB 0xCD) fullQueueState).buffCmd 0 0 = (0xAB, 0xCD) ∧
    (feedBytes 0 (cmdFrame 0xAB 0xCD) fullQueueState).cntCmd = 1 := by
  decide

/-- C5: for cursors and index below the capacity, `ISELEMENTDONE` holds exactly
when the index is at least as far from the read cursor as the write cursor is,
which is exactly when the index is outside the span walked from the read cursor
up to the write cursor (wraparound and the empty ring included). -/
theorem C5_elementDone_iff_outside_span (C idx read write : Nat)
    (hi : idx < C) (hr : read < C) (hw : write < C) :
    (ISELEMENTDONE idx read write = true ↔
      ACTIVELEN read write C ≤ ACTIVELEN read idx C) ∧
    (ISELEMENTDONE idx read write = true ↔ idx ∉ activeSpan C read write) := by
  have h1 : ISELEMENTDONE idx read write = true ↔
      ACTIVELEN read write C ≤ ACTIVELEN read idx C := by
    rw [ACTIVELEN_eq hr hw, ACTIVELEN_eq hr hi]
    unfold ISELEMENTDONE
    by_cases hrw : read ≤ write <;> by_cases hri : read ≤ idx <;>
      simp [hrw, hri] <;> omega
  refine ⟨h1, ?_⟩
  rw [h1, mem_activeSpan_iff hi hr]
  omega

theorem C5_elementDone_iff_outside_span_witness :
    (ISELEMENTDONE 1 6 2 = true ↔ ACTIVELEN 6 2 8 ≤ ACTIVELEN 6 1 8) ∧
    (ISELEMENTDONE 1 6 2 = true ↔ 1 ∉ activeSpan 8 6 2) :=
  C5_elementDone_iff_outside_span 8 1 6 2 (by decide) (by decide) (by decide)

/-- C6: for cursors below a positive capacity `C`, `ACTIVELEN` is
`(write - read) mod C`, is below `C`, is zero exactly for equal cursors, grows
by one with a `WRAPINC` of the write cursor while below `C - 1`, and shrinks by
one with a `WRAPINC` of the read cursor while nonzero. -/
theorem C6_activeLen_arith (C read write : Nat) (hC : 0 < C)
    (hr : read < C) (hw : write < C) :
    ((ACTIVELEN read write C : Nat) : Int) = ((write : Int) - (read : Int)) % (C : Int) ∧
    ACTIVELEN read write C < C ∧
    (ACTIVELEN read write C = 0 ↔ read = write) ∧
    (ACTIVELEN read write C < C - 1 →
      ACTIVELEN read (WRAPINC write C) C = ACTIVELEN read write C + 1) ∧
    (ACTIVELEN read write C ≠ 0 →
      ACTIVELEN (WRAPINC read C) write C + 1 = ACTIVELEN read write C) := by
  have hwi : WRAPINC write C < C := Nat.mod_lt _ hC
  have hri : WRAPINC read C < C := Nat.mod_lt _ hC
  refine ⟨?_, ACTIVELEN_lt hC, ?_, ?_, ?_⟩
  · rw [ACTIVELEN_eq hr hw]
    split
    · next h =>
      rw [Int.emod_eq_of_lt (by omega) (by omega)]
      omega
    · next h =>
      rw [← Int.add_emod_self, Int.emod_eq_of_lt (by omega) (by omega)]
      omega
  · rw [ACTIVELEN_eq hr hw]
    split <;> omega
  · rw [ACTIVELEN_eq hr hwi, ACTIVELEN_eq hr hw, WRAPINC_eq hw]
    split <;> split <;> split <;> omega
  · rw [ACTIVELEN_eq hri hw, ACTIVELEN_eq hr hw, WRAPINC_eq hr]
    split <;> split <;> split <;> omega

theorem C6_activeLen_arith_witness :
    ((ACTIVELEN 1020 3 1024 : Nat) : Int) = ((3 : Int) - 1020) % 1024 ∧
    ACTIVELEN 1020 3 1024 < 1024 ∧
    (ACTIVELEN 1020 3 1024 = 0 ↔ 1020 = 3) ∧
    (ACTIVELEN 1020 3 1024 < 1024 - 1 →
      ACTIVELEN 1020 (WRAPINC 3 1024) 1024 = ACTIVELEN 1020 3 1024 + 1) ∧
    (ACTIVELEN 1020 3 1024 ≠ 0 →
      ACTIVELEN (WRAPINC 1020 1024) 3 1024 + 1 = ACTIVELEN 1020 3 1024) :=
  C6_activeLen_arith 1024 1020 3 (by decide) (by decide) (by decide)

/-! ### Event packet scanner -/

theorem fixedPacket_length (payload : List Nat) :
    (fixedPacket payload).length = payload.length + 6 := by
  simp [fixedPacket]

theorem fixedPacket_getD_head (payload : List Nat) (k : Nat) (hk : k < 3) :
    (fixedPacket payload).getD k 0 = [0xDB, 0x00, 0xFF].getD k 0 := by
  unfold fixedPacket
  interval_cases k <;> rfl

theorem fixedPacket_getD_trailer (payload : List Nat) (k : Nat) :
    (fixedPacket payload).getD (payload.length + 3 + k) 0 = [0xFF, 0x00, 0xFF].getD k 0 := by
  unfold fixedPacket
  have h : payload.length + 3 + k = ([0xDB, 0x00, 0xFF] ++ payload).length + k := by
    simp
  rw [h, List.getD_eq_getElem?_getD, List.getD_eq_getElem?_getD,
    List.getElem?_append_right (by omega)]
  simp

theorem enqueue_room_of_empty (t : Nat) : WRAPINC t 16 ≠ t := by
  unfold WRAPINC
  omega

theorem probeHeaders_accept (s : DaqState) (r e fuel expBytes cur : Nat)
    (h9 : 9 ≤ expBytes) (hacc : headerMatches s expBytes cur) :
    probeHeaders s r e (fuel + 1) expBytes cur = acceptHeader s r cur e := by
  simp [probeHeaders, EV_MIN_SIZE, h9, hacc]

theorem probeHeaders_reject (s : DaqState) (r e fuel expBytes cur : Nat)
    (h9 : 9 ≤ expBytes) (hrej : ¬ headerMatches s expBytes cur) :
    probeHeaders s r e (fuel + 1) expBytes cur
      = probeHeaders s r e fuel (expBytes - 3) (WRAP3INC cur 1024) := by
  simp [probeHeaders, EV_MIN_SIZE, h9, hrej, EV_BUFFER_SIZE]

theorem probeHeaders_short (s : DaqState) (r e fuel expBytes cur : Nat)
    (h9 : expBytes < 9) : probeHeaders s r e fuel expBytes cur = (0, s) := by
  cases fuel with
  | zero => rfl
  | succ n => simp [probeHeaders, EV_MIN_SIZE, h9]

theorem scanTrailer_hit (s : DaqState) (a b n e : Nat) (h9 : 9 ≤ n + 1)
    (ht : trailerAt s e) :
    scanTrailer s a b (n + 1) e = trailerFound s a b e := by
  simp [scanTrailer, EV_MIN_SIZE, h9, ht]

theorem scanTrailer_short (s : DaqState) (a b n e : Nat) (h9 : n < 9) :
    scanTrailer s a b n e = (0, s) := by
  cases n with
  | zero => rfl
  | succ n =>
    have h : ¬ (9 ≤ n + 1) := by omega
    simp only [scanTrailer, EV_MIN_SIZE, h, if_false]

/-- For a span that is 3-byte aligned and no longer than the largest packet the
header probe starts at the scan start with the whole span. -/
theorem trailerFound_aligned (s : DaqState) (a cur e expBytes : Nat)
    (hexp : ACTIVELEN cur e 1024 + 1 = expBytes) (h3 : expBytes % 3 = 0)
    (hmax : expBytes ≤ 264) :
    trailerFound s a cur e = probeHeaders s a e expBytes expBytes cur := by
  have hmax2 : ¬ (264 < expBytes) := by omega
  simp [trailerFound, EV_BUFFER_SIZE, hexp, WRAP, h3, EV_MAX_SIZE, hmax2]

/-- With new unread bytes, a free queue slot and a span below the dump
threshold, `CheckEventPackets` is the trailer search from the last byte. -/
theorem CheckEventPackets_scan (s : DaqState)
    (hnew : s.buffEvWriteLast ≠ s.buffEvWrite) (hne : s.buffEvRead ≠ s.buffEvWrite)
    (hfree : WRAPINC s.packetEvTail 16 ≠ s.packetEvHead)
    (hspan : ACTIVELEN (scanStart s) s.buffEvWrite 1024 < 999) :
    CheckEventPackets s =
      scanTrailer { s with buffEvWriteLast := s.buffEvWrite } (scanStart s) (scanStart s)
        (ACTIVELEN (scanStart s) s.buffEvWrite 1024) (WRAPDEC s.buffEvWrite 1024) := by
  have h999 : EV_DUMP_SIZE = 999 := by decide
  simp [CheckEventPackets, hnew, hne, hfree, PACKET_EVENT_SIZE, h999, EV_BUFFER_SIZE, hspan]

theorem scanStart_of_empty (s : DaqState) (hempty : s.packetEvHead = s.packetEvTail) :
    scanStart s = s.buffEvRead := by
  simp [scanStart, hempty]

theorem acceptHeader_at_start (s : DaqState) (r e : Nat)
    (hroom : WRAPINC s.packetEvTail 16 ≠ s.packetEvHead) :
    acceptHeader s r r e = (1, enqueuePacketEv s r e) := by
  simp [acceptHeader, PACKET_EVENT_SIZE, hroom]

theorem acceptHeader_two (s : DaqState) (startRead curRead curEOR : Nat)
    (hne : curRead ≠ startRead)
    (hroom : WRAPINC (WRAPINC s.packetEvTail 16) 16 ≠ s.packetEvHead) :
    (acceptHeader s startRead curRead curEOR).1 = 2 := by
  simp [acceptHeader, hne, enqueuePacketEv, PACKET_EVENT_SIZE, hroom]

/-- Past the scan start the header probe never returns exactly one packet when
the queue has room for two: an accepted header is preceded by a dump. -/
theorem probeHeaders_ne_one (s : DaqState) (r curEOR : Nat)
    (hroom : WRAPINC (WRAPINC s.packetEvTail 16) 16 ≠ s.packetEvHead) :
    ∀ fuel j expBytes, 1 ≤ j → 3 * j + expBytes ≤ 1023 →
      (probeHeaders s r curEOR fuel expBytes ((r + 3 * j) % 1024)).1 ≠ 1 := by
  intro fuel
  induction fuel with
  | zero => intro j expBytes _ _; simp [probeHeaders]
  | succ fuel ih =>
    intro j expBytes hj hsum
    by_cases h9 : 9 ≤ expBytes
    · by_cases hacc : headerMatches s expBytes ((r + 3 * j) % 1024)
      · have hne : (r + 3 * j) % 1024 ≠ r := by omega
        rw [probeHeaders_accept s r curEOR fuel expBytes _ h9 hacc,
          acceptHeader_two s r _ curEOR hne hroom]
        decide
      · have hstep : WRAP3INC ((r + 3 * j) % 1024) 1024 = (r + 3 * (j + 1)) % 1024 := by
          unfold WRAP3INC
          omega
        rw [probeHeaders_reject s r curEOR fuel expBytes _ h9 hacc, hstep]
        exact ih (j + 1) (expBytes - 3) (by omega) (by omega)
    · rw [probeHeaders_short s r curEOR _ expBytes _ (by omega)]
      simp

/-- The header probe does not depend on its fuel once the fuel covers the
passes the loop can make (`expBytes` drops by 3 a pass and the loop stops
below 9): the fuel `expBytes` passed by `trailerFound` is never used up. -/
theorem probeHeaders_fuel (s : DaqState) (r e : Nat) :
    ∀ (fuel1 fuel2 expBytes cur : Nat), expBytes ≤ 3 * fuel1 + 8 → expBytes ≤ 3 * fuel2 + 8 →
      probeHeaders s r e fuel1 expBytes cur = probeHeaders s r e fuel2 expBytes cur := by
  intro fuel1
  induction fuel1 with
  | zero =>
    intro fuel2 expBytes cur h1 _
    rw [probeHeaders_short s r e 0 expBytes cur (by omega),
      probeHeaders_short s r e fuel2 expBytes cur (by omega)]
  | succ fuel1 ih =>
    intro fuel2 expBytes cur h1 h2
    by_cases h9 : 9 ≤ expBytes
    · cases fuel2 with
      | zero => omega
      | succ fuel2 =>
        by_cases hacc : headerMatches s expBytes cur
        · rw [probeHeaders_accept s r e fuel1 expBytes cur h9 hacc,
            probeHeaders_accept s r e fuel2 expBytes cur h9 hacc]
        · rw [probeHeaders_reject s r e fuel1 expBytes cur h9 hacc,
            probeHeaders_reject s r e fuel2 expBytes cur h9 hacc]
          exact ih fuel2 (expBytes - 3) _ (by omega) (by omega)
    · rw [probeHeaders_short s r e _ expBytes cur (by omega),
        probeHeaders_short s r e fuel2 expBytes cur (by omega)]

/-- The start of `CheckEventPackets` on a span of `n < 999` bytes from the read
cursor `r` with an empty packet queue. -/
theorem CheckEventPackets_span (s : DaqState) (r n : Nat) (hr : r < 1024)
    (hn0 : 0 < n) (hn : n < 999) (hread : s.buffEvRead = r)
    (hwrite : s.buffEvWrite = (r + n) % 1024)
    (hnew : s.buffEvWriteLast ≠ s.buffEvWrite) (hempty : s.packetEvHead = s.packetEvTail) :
    CheckEventPackets s =
      scanTrailer { s with buffEvWriteLast := s.buffEvWrite } r r n ((r + (n - 1)) % 1024) := by
  have hlen : ACTIVELEN r ((r + n) % 1024) 1024 = n := ACTIVELEN_add_mod hr (by omega)
  have hdec : WRAPDEC ((r + n) % 1024) 1024 = (r + (n - 1)) % 1024 := by
    unfold WRAPDEC
    omega
  have hne : s.buffEvRead ≠ s.buffEvWrite := by rw [hread, hwrite]; omega
  have hfree : WRAPINC s.packetEvTail 16 ≠ s.packetEvHead := by
    rw [hempty]
    exact enqueue_room_of_empty _
  have hstart := scanStart_of_empty s hempty
  rw [CheckEventPackets_scan s hnew hne hfree (by rw [hstart, hread, hwrite, hlen]; exact hn),
    hstart, hread, hwrite, hlen, hdec]

/-- A 9-byte fixed-type packet alone in the unread span is recovered whole. -/
theorem scan_nine_bytes (s : DaqState) (r : Nat) (payload : List Nat)
    (hr : r < 1024) (hread : s.buffEvRead = r)
    (hwrite : s.buffEvWrite = (r + (payload.length + 6)) % 1024)
    (hnew : s.buffEvWriteLast ≠ s.buffEvWrite) (hempty : s.packetEvHead = s.packetEvTail)
    (hpkt : holdsAt s.buffEv r (fixedPacket payload)) (hlen : payload.length = 3) :
    CheckEventPackets s
      = (1, enqueuePacketEv { s with buffEvWriteLast := s.buffEvWrite } r ((r + 8) % 1024)) := by
  have hL := fixedPacket_length payload
  have b0 : s.buffEv r = 0xDB := by
    have := hpkt 0 (by omega)
    rwa [fixedPacket_getD_head payload 0 (by omega), Nat.add_zero,
      Nat.mod_eq_of_lt (by unfold EV_BUFFER_SIZE; omega)] at this
  have b1 : s.buffEv ((r + 1) % 1024) = 0x00 := by
    have := hpkt 1 (by omega)
    rwa [fixedPacket_getD_head payload 1 (by omega)] at this
  have b2 : s.buffEv ((r + 2) % 1024) = 0xFF := by
    have := hpkt 2 (by omega)
    rwa [fixedPacket_getD_head payload 2 (by omega)] at this
  have b6 : s.buffEv ((r + 6) % 1024) = 0xFF := by
    have := hpkt (payload.length + 3 + 0) (by omega)
    rwa [fixedPacket_getD_trailer payload 0, hlen] at this
  have b7 : s.buffEv ((r + 7) % 1024) = 0x00 := by
    have := hpkt (payload.length + 3 + 1) (by omega)
    rwa [fixedPacket_getD_trailer payload 1, hlen] at this
  have b8 : s.buffEv ((r + 8) % 1024) = 0xFF := by
    have := hpkt (payload.length + 3 + 2) (by omega)
    rwa [fixedPacket_getD_trailer payload 2, hlen] at this
  have hn8 : ACTIVELEN r ((r + 8) % 1024) 1024 = 8 := ACTIVELEN_add_mod hr (by omega)
  have e7 : WRAPDEC ((r + 8) % 1024) 1024 = (r + 7) % 1024 := by unfold WRAPDEC; omega
  have e6 : WRAPDEC ((r + 7) % 1024) 1024 = (r + 6) % 1024 := by unfold WRAPDEC; omega
  have i1 : WRAPINC r 1024 = (r + 1) % 1024 := rfl
  have i2 : WRAPINC ((r + 1) % 1024) 1024 = (r + 2) % 1024 := by unfold WRAPINC; omega
  rw [hlen] at hwrite
  rw [CheckEventPackets_span s r 9 hr (by omega) (by omega) hread hwrite hnew hempty]
  have ht : trailerAt { s with buffEvWriteLast := s.buffEvWrite } ((r + (9 - 1)) % 1024) := by
    simp [trailerAt, frame00FF, EOR_HEAD, EV_BUFFER_SIZE, e7, e6, b8, b7, b6]
  rw [scanTrailer_hit _ r r 8 _ (by omega) ht]
  have hm : headerMatches { s with buffEvWriteLast := s.buffEvWrite } 9 r := by
    simp [headerMatches, calcBytes, frame00FF, EVVAR_HEAD, EVFIX_HEAD, EV_MIN_SIZE,
      EV_BUFFER_SIZE, b0, i1, i2, b1, b2]
  have hfree : WRAPINC s.packetEvTail 16 ≠ s.packetEvHead := by
    rw [hempty]
    exact enqueue_room_of_empty _
  rw [trailerFound_aligned _ r r _ 9 (by rw [Nat.add_one_sub_one, hn8]) (by decide) (by decide),
    probeHeaders_accept _ r _ 8 9 r (by omega) hm,
    acceptHeader_at_start { s with buffEvWriteLast := s.buffEvWrite } r _ hfree]

/-- A 6-byte span (fixed-type packet without payload) is below the minimum
packet size: the trailer search does not start. -/
theorem scan_six_bytes (s : DaqState) (r : Nat) (payload : List Nat)
    (hr : r < 1024) (hread : s.buffEvRead = r)
    (hwrite : s.buffEvWrite = (r + (payload.length + 6)) % 1024)
    (hnew : s.buffEvWriteLast ≠ s.buffEvWrite) (hempty : s.packetEvHead = s.packetEvTail)
    (hlen : payload.length = 0) :
    CheckEventPackets s = (0, { s with buffEvWriteLast := s.buffEvWrite }) := by
  rw [hlen] at hwrite
  rw [CheckEventPackets_span s r 6 hr (by omega) (by omega) hread hwrite hnew hempty,
    scanTrailer_short _ r r 6 _ (by omega)]

/-- A 258-byte span headed by a fixed-type header is not recovered as one
packet: the header at the scan start implies 9 bytes and is passed over. -/
theorem scan_258_bytes (s : DaqState) (r : Nat) (payload : List Nat)
    (hr : r < 1024) (hread : s.buffEvRead = r)
    (hwrite : s.buffEvWrite = (r + (payload.length + 6)) % 1024)
    (hnew : s.buffEvWriteLast ≠ s.buffEvWrite) (hempty : s.packetEvHead = s.packetEvTail)
    (hpkt : holdsAt s.buffEv r (fixedPacket payload)) (hlen : payload.length = 252) :
    (CheckEventPackets s).1 ≠ 1 := by
  have hL := fixedPacket_length payload
  have b0 : s.buffEv r = 0xDB := by
    have := hpkt 0 (by omega)
    rwa [fixedPacket_getD_head payload 0 (by omega), Nat.add_zero,
      Nat.mod_eq_of_lt (by unfold EV_BUFFER_SIZE; omega)] at this
  have b255 : s.buffEv ((r + 255) % 1024) = 0xFF := by
    have := hpkt (payload.length + 3 + 0) (by omega)
    rwa [fixedPacket_getD_trailer payload 0, hlen] at this
  have b256 : s.buffEv ((r + 256) % 1024) = 0x00 := by
    have := hpkt (payload.length + 3 + 1) (by omega)
    rwa [fixedPacket_getD_trailer payload 1, hlen] at this
  have b257 : s.buffEv ((r + 257) % 1024) = 0xFF := by
    have := hpkt (payload.length + 3 + 2) (by omega)
    rwa [fixedPacket_getD_trailer payload 2, hlen] at this
  have hn1 : ACTIVELEN r ((r + 257) % 1024) 1024 = 257 := ACTIVELEN_add_mod hr (by omega)
  have e2 : WRAPDEC ((r + 257) % 1024) 1024 = (r + 256) % 1024 := by unfold WRAPDEC; omega
  have e3 : WRAPDEC ((r + 256) % 1024) 1024 = (r + 255) % 1024 := by unfold WRAPDEC; omega
  have i3 : WRAP3INC r 1024 = (r + 3 * 1) % 1024 := rfl
  rw [hlen] at hwrite
  rw [CheckEventPackets_span s r 258 hr (by omega) (by omega) hread hwrite hnew hempty]
  have ht : trailerAt { s with buffEvWriteLast := s.buffEvWrite } ((r + (258 - 1)) % 1024) := by
    simp [trailerAt, frame00FF, EOR_HEAD, EV_BUFFER_SIZE, e2, e3, b255, b256, b257]
  rw [scanTrailer_hit _ r r 257 _ (by omega) ht]
  have hm : ¬ headerMatches { s with buffEvWriteLast := s.buffEvWrite } 258 r := by
    simp [headerMatches, calcBytes, EVVAR_HEAD, EVFIX_HEAD, EV_MIN_SIZE, b0]
  rw [trailerFound_aligned _ r r _ 258 (by rw [Nat.add_one_sub_one, hn1]) (by decide)
      (by decide),
    probeHeaders_reject _ r _ 257 258 r (by omega) hm, i3]
  apply probeHeaders_ne_one _ r _ _ 257 1 255 (by omega) (by omega)
  show WRAPINC (WRAPINC s.packetEvTail 16) 16 ≠ s.packetEvHead
  rw [hempty]
  unfold WRAPINC
  omega

set_option maxRecDepth 1000000 in
/-- C7 as stated fails for N = 0 and for N = 252: with the 6-byte packet
`DB 00 FF FF 00 FF`, and with the 258-byte packet whose 252 payload bytes are
zero, alone in the ring from index 0 on (queue empty, bytes new), the scanner
returns 0 and the packet queue stays empty. -/
theorem C7_round_trip_counterexample :
    (holdsAt (ringWith 0 (fixedPacket [])).buffEv 0 (fixedPacket []) ∧
      (ringWith 0 (fixedPacket [])).buffEvRead = 0 ∧
      (ringWith 0 (fixedPacket [])).buffEvWrite = 6 ∧
      (ringWith 0 (fixedPacket [])).buffEvWriteLast ≠ (ringWith 0 (fixedPacket [])).buffEvWrite ∧
      (ringWith 0 (fixedPacket [])).packetEvHead = (ringWith 0 (fixedPacket [])).packetEvTail ∧
      (CheckEventPackets (ringWith 0 (fixedPacket []))).1 = 0 ∧
      (CheckEventPackets (ringWith 0 (fixedPacket []))).2.packetEvTail
        = (CheckEventPackets (ringWith 0 (fixedPacket []))).2.packetEvHead) ∧
    (holdsAt (ringWith 0 (fixedPacket (List.replicate 252 0))).buffEv 0
        (fixedPacket (List.replicate 252 0)) ∧
      (ringWith 0 (fixedPacket (List.replicate 252 0))).buffEvRead = 0 ∧
      (ringWith 0 (fixedPacket (List.replicate 252 0))).buffEvWrite = 258 ∧
      (ringWith 0 (fixedPacket (List.replicate 252 0))).buffEvWriteLast
        ≠ (ringWith 0 (fixedPacket (List.replicate 252 0))).buffEvWrite ∧
      (ringWith 0 (fixedPacket (List.replicate 252 0))).packetEvHead
        = (ringWith 0 (fixedPacket (List.replicate 252 0))).packetEvTail ∧
      (CheckEventPackets (ringWith 0 (fixedPacket (List.replicate 252 0)))).1 = 0 ∧
      (CheckEventPackets (ringWith 0 (fixedPacket (List.replicate 252 0)))).2.packetEvTail
        = (CheckEventPackets (ringWith 0 (fixedPacket (List.replicate 252 0)))).2.packetEvHead) := by
  refine ⟨⟨?_, by decide, by decide, by decide, by decide, by decide, by decide⟩,
    ⟨?_, by decide, by decide, by decide, by decide, ?_, ?_⟩⟩
  · unfold holdsAt
    decide
  · unfold holdsAt
    decide
  · decide
  · decide

/-- C7 amended: when the unread span is exactly one fixed-type packet (`DB`,
`00 FF`, N payload bytes, `FF 00 FF`) starting at the read cursor, the queue is
empty and the bytes are new, then for N = 3 one call enqueues exactly one
`PacketEvent` spanning the first to the last byte index of the packet and
returns 1; for N = 0 the call returns 0 and leaves the queue untouched; for
N = 252 the call does not return 1. -/
theorem C7_fixed_packet_round_trip (s : DaqState) (r : Nat) (payload : List Nat)
    (hr : r < 1024) (hread : s.buffEvRead = r)
    (hwrite : s.buffEvWrite = (r + (payload.length + 6)) % 1024)
    (hnew : s.buffEvWriteLast ≠ s.buffEvWrite) (hempty : s.packetEvHead = s.packetEvTail)
    (hpkt : holdsAt s.buffEv r (fixedPacket payload)) :
    (payload.length = 3 →
      (CheckEventPackets s).1 = 1 ∧
      (CheckEventPackets s).2.packetEv s.packetEvTail
        = ⟨r, (r + (payload.length + 5)) % 1024⟩ ∧
      (CheckEventPackets s).2.packetEvTail = WRAPINC s.packetEvTail 16 ∧
      (CheckEventPackets s).2.packetEvHead = s.packetEvHead ∧
      (∀ k, k ≠ s.packetEvTail → (CheckEventPackets s).2.packetEv k = s.packetEv k)) ∧
    (payload.length = 0 →
      (CheckEventPackets s).1 = 0 ∧
      (CheckEventPackets s).2.packetEv = s.packetEv ∧
      (CheckEventPackets s).2.packetEvTail = s.packetEvTail ∧
      (CheckEventPackets s).2.packetEvHead = s.packetEvHead) ∧
    (payload.length = 252 → (CheckEventPackets s).1 ≠ 1) := by
  refine ⟨?_, ?_, ?_⟩
  · intro hlen
    rw [scan_nine_bytes s r payload hr hread hwrite hnew hempty hpkt hlen, hlen]
    refine ⟨rfl, ?_, rfl, rfl, ?_⟩
    · simp [enqueuePacketEv]
    · intro k hk
      simp [enqueuePacketEv, Function.update_noteq hk]
  · intro hlen
    rw [scan_six_bytes s r payload hr hread hwrite hnew hempty hlen]
    exact ⟨rfl, rfl, rfl, rfl⟩
  · intro hlen
    exact scan_258_bytes s r payload hr hread hwrite hnew hempty hpkt hlen

/-- The 9-byte packet `DB 00 FF 01 02 03 FF 00 FF` written across the end of the
ring (indices 1020..1023, 0..4) is recovered as the span 1020..4. -/
theorem C7_fixed_packet_round_trip_witness :
    holdsAt (ringWith 1020 (fixedPacket [1, 2, 3])).buffEv 1020 (fixedPacket [1, 2, 3]) ∧
    (CheckEventPackets (ringWith 1020 (fixedPacket [1, 2, 3]))).1 = 1 ∧
    (CheckEventPackets (ringWith 1020 (fixedPacket [1, 2, 3]))).2.packetEv 0 = ⟨1020, 4⟩ :=
  have hp : holdsAt (ringWith 1020 (fixedPacket [1, 2, 3])).buffEv 1020
      (fixedPacket [1, 2, 3]) := by
    unfold holdsAt
    decide
  have h := (C7_fixed_packet_round_trip (ringWith 1020 (fixedPacket [1, 2, 3])) 1020 [1, 2, 3]
    (by decide) rfl (by decide) (by decide) rfl hp).1 rfl
  ⟨hp, h.1, h.2.1⟩

/-- C8: the dump threshold is `1024 - 1024 mod 27 = 999 = 37 * 27`, and with new
unread bytes, a free queue slot and at least 999 bytes from the scan start to
the write cursor, `CheckEventPackets` returns 1 and enqueues exactly one
`PacketEvent`, from the scan start to 998 bytes further on (mod 1024), that is
of length exactly 999. -/
theorem C8_dump_threshold (s : DaqState) (hr : s.buffEvRead < 1024)
    (hnew : s.buffEvWriteLast ≠ s.buffEvWrite) (hne : s.buffEvRead ≠ s.buffEvWrite)
    (hfree : WRAPINC s.packetEvTail 16 ≠ s.packetEvHead)
    (hspan : 999 ≤ ACTIVELEN (scanStart s) s.buffEvWrite 1024) :
    EV_DUMP_SIZE = 1024 - 1024 % 27 ∧ EV_DUMP_SIZE = 999 ∧ EV_DUMP_SIZE = 37 * 27 ∧
    (CheckEventPackets s).1 = 1 ∧
    (CheckEventPackets s).2.packetEv s.packetEvTail
      = ⟨scanStart s, (scanStart s + 998) % 1024⟩ ∧
    ACTIVELEN (scanStart s) ((scanStart s + 998) % 1024) 1024 + 1 = 999 ∧
    (CheckEventPackets s).2.packetEvTail = WRAPINC s.packetEvTail 16 ∧
    (CheckEventPackets s).2.packetEvHead = s.packetEvHead ∧
    (∀ k, k ≠ s.packetEvTail → (CheckEventPackets s).2.packetEv k = s.packetEv k) := by
  have h999 : EV_DUMP_SIZE = 999 := by decide
  have hstart : scanStart s < 1024 := by
    unfold scanStart
    split
    · exact Nat.mod_lt _ (by decide)
    · exact hr
  have hcall : CheckEventPackets s
      = (1, enqueuePacketEv { s with buffEvWriteLast := s.buffEvWrite } (scanStart s)
          ((scanStart s + 998) % 1024)) := by
    simp [CheckEventPackets, hnew, hne, hfree, PACKET_EVENT_SIZE, h999, EV_BUFFER_SIZE,
      hspan, WRAP]
  rw [hcall]
  refine ⟨by decide, h999, by decide, rfl, ?_, ?_, rfl, rfl, ?_⟩
  · simp [enqueuePacketEv]
  · rw [ACTIVELEN_add_mod hstart (by omega)]
  · intro k hk
    simp [enqueuePacketEv, Function.update_noteq hk]

/-- A ring holding 999 unread bytes from index 5 on is dumped as the span
5..1003. -/
theorem C8_dump_threshold_witness :
    999 ≤ ACTIVELEN (scanStart dumpState) dumpState.buffEvWrite 1024 ∧
    (CheckEventPackets dumpState).1 = 1 ∧
    (CheckEventPackets dumpState).2.packetEv 0 = ⟨5, 1003⟩ :=
  have hspan : 999 ≤ ACTIVELEN (scanStart dumpState) dumpState.buffEvWrite 1024 := by decide
  have h := C8_dump_threshold dumpState (by decide) (by decide) (by decide) (by decide) hspan
  ⟨hspan, h.2.2.2.1, h.2.2.2.2.1⟩

/-! ### Frame multiplexer -/

/-! ### The out-of-bounds mark -/

theorem memFault_service (hw : FrameHw) (s : DaqState) :
    (serviceUsb hw (serviceUart hw s)).memFault = s.memFault := by
  unfold serviceUsb serviceUart startDma
  dsimp only
  split_ifs <;> rfl

theorem memFault_closeSlot (s : DaqState) : (closeSlot s).memFault = s.memFault := by
  unfold closeSlot dropCheck
  dsimp only
  split_ifs <;> rfl

theorem memFault_padAlign (s : DaqState) (t : Nat) : (padAlign s t).1.memFault = s.memFault := by
  unfold padAlign
  dsimp only
  split_ifs <;> rfl

theorem memFault_fillLoop :
    ∀ (fuel : Nat) (s : DaqState) (t : Nat), (fillLoop fuel s t).1.memFault = s.memFault := by
  intro fuel
  induction fuel with
  | zero => intro s t; rfl
  | succ fuel ih =>
    intro s t
    unfold fillLoop
    split_ifs
    · rw [ih]; rfl
    · rfl

theorem memFault_padFrame (s : DaqState) (t : Nat) : (padFrame s t).memFault = s.memFault := by
  unfold padFrame
  dsimp only
  split_ifs
  · rw [memFault_closeSlot, memFault_fillLoop, memFault_padAlign]
  · rfl

theorem memFault_spiCopyStep (d e : Nat) (s : DaqState) (l : Nat × Nat × Nat) :
    (spiCopyStep d e s l).1.memFault = s.memFault := by
  unfold spiCopyStep
  dsimp only
  split_ifs
  · exact memFault_closeSlot _
  · rfl

theorem memFault_spiCopyLoop (d e : Nat) :
    ∀ (fuel : Nat) (s : DaqState) (l : Nat × Nat × Nat),
      (spiCopyLoop d e fuel s l).1.memFault = s.memFault := by
  intro fuel
  induction fuel with
  | zero => intro s l; rfl
  | succ fuel ih =>
    intro s l
    unfold spiCopyLoop
    split_ifs
    · rw [ih, memFault_spiCopyStep]
    · rfl

theorem memFault_muxSPI (s : DaqState) : (muxSPI s).memFault = s.memFault := by
  unfold muxSPI
  dsimp only
  rw [memFault_padFrame, memFault_spiCopyLoop]
  rfl

theorem memFault_hkCopyStep (s : DaqState) (l : Nat × Nat × Nat) :
    (hkCopyStep s l).1.memFault = s.memFault := by
  unfold hkCopyStep
  dsimp only
  split_ifs
  · exact memFault_closeSlot _
  · rfl

theorem memFault_hkCopyLoop :
    ∀ (fuel : Nat) (s : DaqState) (l : Nat × Nat × Nat),
      (hkCopyLoop fuel s l).1.memFault = s.memFault := by
  intro fuel
  induction fuel with
  | zero => intro s l; rfl
  | succ fuel ih =>
    intro s l
    unfold hkCopyLoop
    split_ifs
    · rw [ih, memFault_hkCopyStep]
    · rfl

theorem memFault_muxHK (s : DaqState) : (muxHK s).memFault = s.memFault := by
  unfold muxHK
  dsimp only
  generalize hr : hkCopyLoop SIZEOF_HK (stampSeq s) (0, SIZEOF_HK, 0) = r
  have h1 : r.1.memFault = s.memFault := by
    rw [← hr, memFault_hkCopyLoop]
    rfl
  split_ifs
  · dsimp only
    rw [memFault_padFrame]
    exact h1
  · exact h1

theorem serviceUart_fields (hw : FrameHw) (s : DaqState) :
    (serviceUart hw s).buffFrameDataWrite = s.buffFrameDataWrite ∧
    (serviceUart hw s).buffFrameData = s.buffFrameData ∧
    (serviceUart hw s).buffEv = s.buffEv ∧
    (serviceUart hw s).packetEv = s.packetEv ∧
    (serviceUart hw s).packetEvHead = s.packetEvHead ∧
    (serviceUart hw s).packetEvTail = s.packetEvTail := by
  unfold serviceUart startDma
  dsimp only
  split_ifs <;> exact ⟨rfl, rfl, rfl, rfl, rfl, rfl⟩

theorem serviceUsb_fields (hw : FrameHw) (s : DaqState) :
    (serviceUsb hw s).buffFrameDataWrite = s.buffFrameDataWrite ∧
    (serviceUsb hw s).buffFrameData = s.buffFrameData ∧
    (serviceUsb hw s).buffEv = s.buffEv ∧
    (serviceUsb hw s).packetEv = s.packetEv ∧
    (serviceUsb hw s).packetEvHead = s.packetEvHead ∧
    (serviceUsb hw s).packetEvTail = s.packetEvTail := by
  unfold serviceUsb
  split_ifs <;> exact ⟨rfl, rfl, rfl, rfl, rfl, rfl⟩

theorem lowRateCopy_fields (s : DaqState) (l : CopyLocals) (nBytes : Nat) :
    (lowRateCopy s l nBytes).1.buffFrameDataWrite = s.buffFrameDataWrite ∧
    (lowRateCopy s l nBytes).1.buffFrameData = s.buffFrameData ∧
    (lowRateCopy s l nBytes).1.buffEv = s.buffEv := by
  unfold lowRateCopy
  dsimp only
  split_ifs <;> exact ⟨rfl, rfl, rfl⟩

theorem evCopyLoop_done (e fuel : Nat) (s : DaqState) (l : CopyLocals)
    (h0 : l.nDataBytesLeft = 0) : evCopyLoop e fuel s l = (s, l) := by
  cases fuel with
  | zero => rfl
  | succ n => simp [evCopyLoop, h0]

theorem evCopyLoop_step (e fuel : Nat) (s : DaqState) (l : CopyLocals)
    (hpos : 0 < l.nDataBytesLeft) :
    evCopyLoop e (fuel + 1) s l
      = evCopyLoop e fuel (evCopyStep e s l).1 (evCopyStep e s l).2 := by
  simp [evCopyLoop, hpos]

/-- One pass of the event copy loop that does not fill the slot. -/
theorem evCopyStep_nofill (e : Nat) (s : DaqState) (l : CopyLocals)
    (h : l.tmpWrite + evStepBytes e l < 27) :
    (evCopyStep e s l).2.curRead = evNextRead l.curRead (evStepBytes e l) ∧
    (evCopyStep e s l).2.nDataBytesLeft = l.nDataBytesLeft - evStepBytes e l ∧
    (evCopyStep e s l).2.tmpWrite = l.tmpWrite + evStepBytes e l ∧
    (evCopyStep e s l).1.buffFrameDataWrite = s.buffFrameDataWrite ∧
    (evCopyStep e s l).1.buffEv = s.buffEv ∧
    (∀ j, ((evCopyStep e s l).1.buffFrameData s.buffFrameDataWrite).data j =
      if l.tmpWrite ≤ j ∧ j < l.tmpWrite + evStepBytes e l then
        s.buffEv (l.curRead + (j - l.tmpWrite))
      else (s.buffFrameData s.buffFrameDataWrite).data j) := by
  have hn : ¬ (27 ≤ l.tmpWrite + evStepBytes e l) := by omega
  have hf := lowRateCopy_fields
    (writeFrameData s l.tmpWrite (fun k => s.buffEv (l.curRead + k)) (evStepBytes e l)) l
    (evStepBytes e l)
  simp only [evCopyStep, FRAME_DATA_BYTES, hn, if_false]
  refine ⟨trivial, trivial, trivial, ?_, ?_, ?_⟩
  · exact hf.1
  · exact hf.2.2
  · intro j
    show ((lowRateCopy _ l _).1.buffFrameData s.buffFrameDataWrite).data j = _
    rw [hf.2.1]
    simp [writeFrameData]


/-- The event copy loop for a packet that fits the current slot with room to
spare: it ends with every byte copied in ring order, the slot not advanced. -/
theorem evCopyLoop_short (e : Nat) (he : e < 1024) :
    ∀ (fuel : Nat) (s : DaqState) (l : CopyLocals),
      l.nDataBytesLeft ≤ fuel → l.tmpWrite + l.nDataBytesLeft < 27 → l.curRead < 1024 →
      (l.nDataBytesLeft = 0 ∨ (l.curRead ≤ e ∧ l.nDataBytesLeft = e - l.curRead + 1) ∨
        (e < l.curRead ∧ l.nDataBytesLeft = 1024 - l.curRead + e + 1)) →
      (evCopyLoop e fuel s l).2.tmpWrite = l.tmpWrite + l.nDataBytesLeft ∧
      (evCopyLoop e fuel s l).2.nDataBytesLeft = 0 ∧
      (evCopyLoop e fuel s l).1.buffFrameDataWrite = s.buffFrameDataWrite ∧
      (evCopyLoop e fuel s l).1.buffEv = s.buffEv ∧
      (∀ j, ((evCopyLoop e fuel s l).1.buffFrameData s.buffFrameDataWrite).data j =
        if l.tmpWrite ≤ j ∧ j < l.tmpWrite + l.nDataBytesLeft then
          s.buffEv ((l.curRead + (j - l.tmpWrite)) % 1024)
        else (s.buffFrameData s.buffFrameDataWrite).data j) := by
  intro fuel
  induction fuel with
  | zero =>
    intro s l hf _ _ _
    have h0 : l.nDataBytesLeft = 0 := by omega
    rw [evCopyLoop_done e 0 s l h0]
    refine ⟨by show l.tmpWrite = _; omega, h0, rfl, rfl, ?_⟩
    intro j
    have : ¬ (l.tmpWrite ≤ j ∧ j < l.tmpWrite + l.nDataBytesLeft) := by omega
    simp [this]
  | succ fuel ih =>
    intro s l hf hfit hcr hcase
    by_cases h0 : l.nDataBytesLeft = 0
    · rw [evCopyLoop_done e _ s l h0]
      refine ⟨by show l.tmpWrite = _; omega, h0, rfl, rfl, ?_⟩
      intro j
      have : ¬ (l.tmpWrite ≤ j ∧ j < l.tmpWrite + l.nDataBytesLeft) := by omega
      simp [this]
    · have hpos : 0 < l.nDataBytesLeft := by omega
      rw [evCopyLoop_step e fuel s l hpos]
      rcases hcase with hc | ⟨hle, hlen⟩ | ⟨hgt, hlen⟩
      · exact absurd hc h0
      · -- the rest of the packet does not wrap: one pass copies it all
        have hnB : evStepBytes e l = l.nDataBytesLeft := by
          unfold evStepBytes MIN FRAME_DATA_BYTES
          split_ifs <;> omega
        have hst := evCopyStep_nofill e s l (by rw [hnB]; exact hfit)
        rw [hnB] at hst
        obtain ⟨_, hleft, htw, hwr, hev, hdata⟩ := hst
        have hleft0 : (evCopyStep e s l).2.nDataBytesLeft = 0 := by rw [hleft]; omega
        rw [evCopyLoop_done e fuel _ _ hleft0]
        refine ⟨htw, hleft0, hwr, hev, ?_⟩
        intro j
        rw [hdata j]
        split_ifs with hj
        · rw [Nat.mod_eq_of_lt (by omega)]
        · rfl
      · -- the packet wraps: this pass copies up to the end of the ring
        have hnB : evStepBytes e l = 1024 - l.curRead := by
          unfold evStepBytes MIN FRAME_DATA_BYTES EV_BUFFER_SIZE
          split_ifs <;> omega
        have hst := evCopyStep_nofill e s l (by rw [hnB]; omega)
        rw [hnB] at hst
        obtain ⟨hcur, hleft, htw, hwr, hev, hdata⟩ := hst
        have hnext : evNextRead l.curRead (1024 - l.curRead) = 0 := by
          unfold evNextRead EV_BUFFER_SIZE
          split_ifs <;> omega
        rw [hnext] at hcur
        have hih := ih (evCopyStep e s l).1 (evCopyStep e s l).2
          (by rw [hleft]; omega) (by rw [hleft, htw]; omega) (by rw [hcur]; omega)
          (Or.inr (Or.inl ⟨by rw [hcur]; omega, by rw [hleft, hcur]; omega⟩))
        obtain ⟨h1, h2, h3, h4, h5⟩ := hih
        refine ⟨by rw [h1, htw, hleft]; omega, h2, by rw [h3, hwr], by rw [h4, hev], ?_⟩
        intro j
        have h5j := h5 j
        rw [hwr] at h5j
        rw [h5j, hdata j, htw, hleft, hcur, hev]
        split_ifs <;> first | rfl | omega | (congr 1; omega)


theorem dropCheck_fields (s : DaqState) :
    (dropCheck s).buffFrameDataWrite = s.buffFrameDataWrite ∧
    (dropCheck s).buffFrameData = s.buffFrameData := by
  unfold dropCheck
  dsimp only
  split_ifs <;> exact ⟨rfl, rfl⟩

theorem closeSlot_fields (s : DaqState) :
    (closeSlot s).buffFrameDataWrite = WRAPINC s.buffFrameDataWrite 1536 ∧
    (closeSlot s).buffFrameData = s.buffFrameData := by
  unfold closeSlot
  dsimp only
  rw [(dropCheck_fields _).1, (dropCheck_fields _).2]
  split_ifs <;> exact ⟨rfl, rfl⟩

theorem padAlign_spec (s : DaqState) (t : Nat) :
    (padAlign s t).2 = t + (3 - t % 3) % 3 ∧
    (padAlign s t).1.buffFrameDataWrite = s.buffFrameDataWrite ∧
    (∀ j, (((padAlign s t).1.buffFrameData s.buffFrameDataWrite).data j =
      if t ≤ j ∧ j < t + (3 - t % 3) % 3 then 0
      else (s.buffFrameData s.buffFrameDataWrite).data j)) := by
  have hmod : t % 3 = 0 ∨ t % 3 = 1 ∨ t % 3 = 2 := by omega
  rcases hmod with h | h | h
  · refine ⟨by simp [padAlign, WRAP, h], by simp [padAlign, WRAP, h], ?_⟩
    intro j
    have : ¬ (t ≤ j ∧ j < t) := by omega
    simp [padAlign, WRAP, h, this]
  · refine ⟨by simp [padAlign, WRAP, h], by simp [padAlign, WRAP, h, setFrameByte], ?_⟩
    intro j
    by_cases hj1 : j = t + 1
    · subst hj1
      simp [padAlign, WRAP, h, setFrameByte]
    · by_cases hj0 : j = t
      · subst hj0
        simp [padAlign, WRAP, h, setFrameByte]
      · have : ¬ (t ≤ j ∧ j < t + 2) := by omega
        simp [padAlign, WRAP, h, setFrameByte, this, Function.update_noteq hj1,
          Function.update_noteq hj0]
  · refine ⟨by simp [padAlign, WRAP, h], by simp [padAlign, WRAP, h, setFrameByte], ?_⟩
    intro j
    by_cases hj0 : j = t
    · subst hj0
      simp [padAlign, WRAP, h, setFrameByte]
    · have : ¬ (t ≤ j ∧ j < t + 1) := by omega
      simp [padAlign, WRAP, h, setFrameByte, this, Function.update_noteq hj0]

theorem fillLoop_spec :
    ∀ (fuel : Nat) (s : DaqState) (t : Nat), t % 3 = 0 → 27 ≤ t + 3 * fuel →
      (fillLoop fuel s t).1.buffFrameDataWrite = s.buffFrameDataWrite ∧
      (∀ w, w ≠ s.buffFrameDataWrite →
        (fillLoop fuel s t).1.buffFrameData w = s.buffFrameData w) ∧
      ((fillLoop fuel s t).1.buffFrameData s.buffFrameDataWrite).seqL
        = (s.buffFrameData s.buffFrameDataWrite).seqL ∧
      (∀ j, ((fillLoop fuel s t).1.buffFrameData s.buffFrameDataWrite).data j =
        if t ≤ j ∧ j < 27 then [0xF9, 0x00, 0xFF].getD ((j - t) % 3) 0
        else (s.buffFrameData s.buffFrameDataWrite).data j) := by
  intro fuel
  induction fuel with
  | zero =>
    intro s t _ h27
    refine ⟨rfl, fun _ _ => rfl, rfl, ?_⟩
    intro j
    have : ¬ (t ≤ j ∧ j < 27) := by omega
    simp [fillLoop, this]
  | succ fuel ih =>
    intro s t h3 h27
    by_cases ht : 27 > t
    · have hunf : fillLoop (fuel + 1) s t
          = fillLoop fuel
              (writeFrameData (setFrameByte s t NULL_HEAD) (t + 1) frame00FF 2) (t + 3) := by
        simp [fillLoop, FRAME_DATA_BYTES, ht]
      rw [hunf]
      obtain ⟨h1, h2, h3', h4⟩ := ih
        (writeFrameData (setFrameByte s t NULL_HEAD) (t + 1) frame00FF 2) (t + 3)
        (by omega) (by omega)
      have hw : (writeFrameData (setFrameByte s t NULL_HEAD) (t + 1) frame00FF 2).buffFrameDataWrite
          = s.buffFrameDataWrite := rfl
      rw [hw] at h1 h2 h3' h4
      refine ⟨h1, ?_, ?_, ?_⟩
      · intro w hne
        rw [h2 w hne]
        simp [writeFrameData, setFrameByte, Function.update_noteq hne]
      · rw [h3']
        simp [writeFrameData, setFrameByte]
      · intro j
        rw [h4 j]
        by_cases hj : t + 3 ≤ j ∧ j < 27
        · have hj' : t ≤ j ∧ j < 27 := by omega
          have hm : (j - (t + 3)) % 3 = (j - t) % 3 := by omega
          simp only [hj, hj', and_self, if_true, hm]
        · simp only [hj, if_false]
          simp only [writeFrameData, setFrameByte, Function.update_same, NULL_HEAD, frame00FF]
          by_cases hj0 : j = t
          · subst hj0
            simp [ht]
          · by_cases hj1 : j = t + 1
            · subst hj1
              have : (t + 1 - t) % 3 = 1 := by omega
              have h27' : t + 1 < 27 := by omega
              simp [this, h27']
            · by_cases hj2 : j = t + 2
              · subst hj2
                have : (t + 2 - t) % 3 = 2 := by omega
                have h27' : t + 2 < 27 := by omega
                simp [this, h27']
              · have hn1 : ¬ (t + 1 ≤ j ∧ j < t + 1 + 2) := by omega
                have hn2 : ¬ (t ≤ j ∧ j < 27) := by omega
                simp [hn1, hn2, Function.update_noteq hj0]
    · have hunf : fillLoop (fuel + 1) s t = (s, t) := by
        simp [fillLoop, FRAME_DATA_BYTES, ht]
      rw [hunf]
      refine ⟨rfl, fun _ _ => rfl, rfl, ?_⟩
      intro j
      have : ¬ (t ≤ j ∧ j < 27) := by omega
      simp [this]


theorem evStepBytes_bounds (e : Nat) (l : CopyLocals) (hpos : 0 < l.nDataBytesLeft)
    (htw : l.tmpWrite < 27) (hcr : l.curRead < 1024) :
    1 ≤ evStepBytes e l ∧ evStepBytes e l ≤ l.nDataBytesLeft ∧
    l.tmpWrite + evStepBytes e l ≤ 27 := by
  unfold evStepBytes MIN FRAME_DATA_BYTES EV_BUFFER_SIZE
  split_ifs <;> omega

theorem evNextRead_lt (cr nB : Nat) : evNextRead cr nB < 1024 := by
  unfold evNextRead WRAPINC EV_BUFFER_SIZE
  split_ifs <;> omega

theorem evCopyStep_locals (e : Nat) (s : DaqState) (l : CopyLocals) :
    (evCopyStep e s l).2.curRead = evNextRead l.curRead (evStepBytes e l) ∧
    (evCopyStep e s l).2.nDataBytesLeft = l.nDataBytesLeft - evStepBytes e l ∧
    (evCopyStep e s l).2.tmpWrite
      = if 27 ≤ l.tmpWrite + evStepBytes e l then 0 else l.tmpWrite + evStepBytes e l := by
  unfold evCopyStep FRAME_DATA_BYTES
  dsimp only
  split_ifs <;> exact ⟨rfl, rfl, rfl⟩

/-- The event copy loop always runs to the end of the packet: with the fuel
`nDataBytesLeft` that `muxEvent` passes, no byte is left when it stops. -/
theorem evCopyLoop_finishes (e : Nat) :
    ∀ (fuel : Nat) (s : DaqState) (l : CopyLocals),
      l.nDataBytesLeft ≤ fuel → l.tmpWrite < 27 → l.curRead < 1024 →
      (evCopyLoop e fuel s l).2.nDataBytesLeft = 0 := by
  intro fuel
  induction fuel with
  | zero =>
    intro s l hf _ _
    have h0 : l.nDataBytesLeft = 0 := by omega
    rw [evCopyLoop_done e 0 s l h0]
    exact h0
  | succ fuel ih =>
    intro s l hf htw hcr
    by_cases h0 : l.nDataBytesLeft = 0
    · rw [evCopyLoop_done e _ s l h0]
      exact h0
    · have hpos : 0 < l.nDataBytesLeft := by omega
      obtain ⟨hb1, hb2, hb3⟩ := evStepBytes_bounds e l hpos htw hcr
      obtain ⟨hc, hl, ht⟩ := evCopyStep_locals e s l
      rw [evCopyLoop_step e fuel s l hpos]
      apply ih
      · rw [hl]; omega
      · rw [ht]; split_ifs <;> omega
      · rw [hc]; exact evNextRead_lt _ _

/-! ### Side copies that stay inside `eventHK` -/

/-- The side copy either leaves the state alone or writes one run of cells of
`lowRateEventHK` and marks the state when the run ends past `eventHK`. -/
theorem lowRateCopy_cases (s : DaqState) (l : CopyLocals) (nBytes : Nat) :
    (lowRateCopy s l nBytes).1 = s ∨
    ∃ (T len : Nat) (src : Nat → Nat),
      (lowRateCopy s l nBytes).1
        = { s with
            lowRateEventHK := fun j => if T ≤ j ∧ j < T + len then src j else s.lowRateEventHK j
            memFault := s.memFault || decide (SIZEOF_EVENT_HK < T + len) } := by
  unfold lowRateCopy
  dsimp only
  split_ifs
  · exact Or.inr ⟨_, _, fun j => s.buffEv (l.curRead + (l.nDataBytesLeftLR - SIZEOF_EVENT_HK) % 256
      + (j - l.tmpWriteLR)), rfl⟩
  · exact Or.inl rfl
  · exact Or.inr ⟨_, _, fun j => s.buffEv (l.curRead + 0 + (j - l.tmpWriteLR)), rfl⟩
  · exact Or.inl rfl
  · exact Or.inl rfl

/-- Once set, the mark stays through a side copy. -/
theorem lowRateCopy_marked (s : DaqState) (l : CopyLocals) (nBytes : Nat)
    (h : (lowRateCopy s l nBytes).1.memFault = false) : s.memFault = false := by
  rcases lowRateCopy_cases s l nBytes with e | ⟨T, len, src, e⟩
  · rw [e] at h
    exact h
  · rw [e] at h
    simp only [Bool.or_eq_false_iff] at h
    exact h.1

/-- A side copy that leaves the state unmarked has not written `etx`, the byte
behind `eventHK`. -/
theorem lowRateCopy_etx (s : DaqState) (l : CopyLocals) (nBytes : Nat)
    (h : (lowRateCopy s l nBytes).1.memFault = false) :
    (lowRateCopy s l nBytes).1.lowRateEventHK SIZEOF_EVENT_HK
      = s.lowRateEventHK SIZEOF_EVENT_HK := by
  rcases lowRateCopy_cases s l nBytes with e | ⟨T, len, src, e⟩
  · rw [e]
  · rw [e] at h ⊢
    simp only [Bool.or_eq_false_iff, decide_eq_false_iff_not] at h
    dsimp only
    rw [if_neg]
    intro hc
    exact h.2 hc.2

theorem etx_closeSlot (s : DaqState) : (closeSlot s).lowRateEventHK = s.lowRateEventHK := by
  unfold closeSlot dropCheck
  dsimp only
  split_ifs <;> rfl

theorem evCopyStep_etx (e : Nat) (s : DaqState) (l : CopyLocals)
    (h : (evCopyStep e s l).1.memFault = false) :
    s.memFault = false ∧
    (evCopyStep e s l).1.lowRateEventHK SIZEOF_EVENT_HK = s.lowRateEventHK SIZEOF_EVENT_HK := by
  have key : (lowRateCopy
      (writeFrameData s l.tmpWrite (fun k => s.buffEv (l.curRead + k)) (evStepBytes e l)) l
      (evStepBytes e l)).1.memFault = false := by
    unfold evCopyStep at h
    dsimp only at h
    split_ifs at h
    · rw [show ∀ x : DaqState, (stampSeq x).memFault = x.memFault from fun _ => rfl,
        memFault_closeSlot] at h
      exact h
    · exact h
  have h1 := lowRateCopy_marked _ _ _ key
  have h2 := lowRateCopy_etx _ _ _ key
  refine ⟨h1, ?_⟩
  unfold evCopyStep
  dsimp only
  split_ifs
  · rw [show ∀ x : DaqState, (stampSeq x).lowRateEventHK = x.lowRateEventHK from fun _ => rfl,
      etx_closeSlot]
    exact h2
  · exact h2

theorem evCopyLoop_etx (e : Nat) :
    ∀ (fuel : Nat) (s : DaqState) (l : CopyLocals),
      (evCopyLoop e fuel s l).1.memFault = false →
      s.memFault = false ∧
      (evCopyLoop e fuel s l).1.lowRateEventHK SIZEOF_EVENT_HK
        = s.lowRateEventHK SIZEOF_EVENT_HK := by
  intro fuel
  induction fuel with
  | zero => intro s l h; exact ⟨h, rfl⟩
  | succ fuel ih =>
    intro s l h
    by_cases h0 : l.nDataBytesLeft = 0
    · rw [evCopyLoop_done e _ s l h0] at h ⊢
      exact ⟨h, rfl⟩
    · have hpos : 0 < l.nDataBytesLeft := by omega
      rw [evCopyLoop_step e fuel s l hpos] at h ⊢
      obtain ⟨a1, a2⟩ := ih _ _ h
      obtain ⟨b1, b2⟩ := evCopyStep_etx e s l a1
      exact ⟨b1, a2.trans b2⟩

theorem etx_padFrame (s : DaqState) (t : Nat) :
    (padFrame s t).lowRateEventHK = s.lowRateEventHK := by
  have hpa : ∀ (x : DaqState) (u : Nat), (padAlign x u).1.lowRateEventHK = x.lowRateEventHK := by
    intro x u
    unfold padAlign
    dsimp only
    split_ifs <;> rfl
  have hfl : ∀ (fuel : Nat) (x : DaqState) (u : Nat),
      (fillLoop fuel x u).1.lowRateEventHK = x.lowRateEventHK := by
    intro fuel
    induction fuel with
    | zero => intro x u; rfl
    | succ fuel ih =>
      intro x u
      unfold fillLoop
      split_ifs
      · rw [ih]; rfl
      · rfl
  unfold padFrame
  dsimp only
  split_ifs
  · rw [etx_closeSlot, hfl, hpa]
  · rfl

theorem muxEvent_etx (s : DaqState) (h : (muxEvent s).memFault = false) :
    s.memFault = false ∧
    (muxEvent s).lowRateEventHK SIZEOF_EVENT_HK = s.lowRateEventHK SIZEOF_EVENT_HK := by
  unfold muxEvent at h ⊢
  dsimp only at h ⊢
  rw [memFault_padFrame] at h
  rw [etx_padFrame]
  exact evCopyLoop_etx _ _ _ _ h

theorem etx_spiCopyLoop (d e : Nat) :
    ∀ (fuel : Nat) (s : DaqState) (l : Nat × Nat × Nat),
      (spiCopyLoop d e fuel s l).1.lowRateEventHK = s.lowRateEventHK := by
  intro fuel
  induction fuel with
  | zero => intro s l; rfl
  | succ fuel ih =>
    intro s l
    unfold spiCopyLoop
    split_ifs
    · rw [ih]
      unfold spiCopyStep
      dsimp only
      split_ifs
      · exact etx_closeSlot _
      · rfl
    · rfl

theorem etx_hkCopyLoop :
    ∀ (fuel : Nat) (s : DaqState) (l : Nat × Nat × Nat),
      (hkCopyLoop fuel s l).1.lowRateEventHK = s.lowRateEventHK := by
  intro fuel
  induction fuel with
  | zero => intro s l; rfl
  | succ fuel ih =>
    intro s l
    unfold hkCopyLoop
    split_ifs
    · rw [ih]
      unfold hkCopyStep
      dsimp only
      split_ifs
      · exact etx_closeSlot _
      · rfl
    · rfl

/-- A call of `CheckFrameBuffer` that ends unmarked started unmarked and has
left `etx`, the closing byte of the low-rate packet, as it was. -/
theorem CheckFrameBuffer_etx (hw : FrameHw) (s : DaqState)
    (h : (CheckFrameBuffer hw s).2.memFault = false) :
    s.memFault = false ∧
    (CheckFrameBuffer hw s).2.lowRateEventHK SIZEOF_EVENT_HK
      = s.lowRateEventHK SIZEOF_EVENT_HK := by
  have v0 := memFault_service hw s
  have v1 : (serviceUsb hw (serviceUart hw s)).lowRateEventHK = s.lowRateEventHK := by
    unfold serviceUsb serviceUart startDma
    dsimp only
    split_ifs <;> rfl
  unfold CheckFrameBuffer at h ⊢
  dsimp only at h ⊢
  generalize serviceUsb hw (serviceUart hw s) = s1 at *
  split_ifs at h ⊢ with h1 h2 h3
  · dsimp only at h ⊢
    obtain ⟨a1, a2⟩ := muxEvent_etx s1 h
    rw [a2, v1]
    exact ⟨v0 ▸ a1, rfl⟩
  · dsimp only at h ⊢
    rw [memFault_muxSPI] at h
    refine ⟨v0 ▸ h, ?_⟩
    unfold muxSPI
    dsimp only
    rw [etx_padFrame, etx_spiCopyLoop, ← v1]
    rfl
  · dsimp only at h ⊢
    rw [memFault_muxHK] at h
    refine ⟨v0 ▸ h, ?_⟩
    rw [← v1]
    unfold muxHK
    dsimp only
    generalize hr : hkCopyLoop SIZEOF_HK (stampSeq s1) (0, SIZEOF_HK, 0) = r
    have hr1 : r.1.lowRateEventHK = s1.lowRateEventHK := by
      rw [← hr, etx_hkCopyLoop]
      rfl
    split_ifs
    · dsimp only
      rw [etx_padFrame, hr1]
    · rw [hr1]
  · dsimp only at h ⊢
    rw [v1]
    exact ⟨v0 ▸ h, rfl⟩

set_option maxRecDepth 1000000 in
/-- The 334-byte housekeeping event, whose side copy runs past `eventHK`, ends
marked. -/
theorem longHkEvent_marked : (CheckFrameBuffer idleHw longHkEvent).2.memFault = true := by
  decide

/-- Closing a partly filled slot: the bytes already written stay, zero bytes
bring the count to a multiple of 3, filler triples follow up to byte 27, and
the write cursor moves one slot on. -/
theorem padFrame_spec (s : DaqState) (t : Nat) (h0 : 0 < t) (h27 : t < 27) :
    (padFrame s t).buffFrameDataWrite = WRAPINC s.buffFrameDataWrite 1536 ∧
    (∀ j, ((padFrame s t).buffFrameData s.buffFrameDataWrite).data j =
      if j < t then (s.buffFrameData s.buffFrameDataWrite).data j
      else if j < t + (3 - t % 3) % 3 then 0
      else if j < 27 then [0xF9, 0x00, 0xFF].getD ((j - (t + (3 - t % 3) % 3)) % 3) 0
      else (s.buffFrameData s.buffFrameDataWrite).data j) := by
  obtain ⟨hp2, hpw, hpd⟩ := padAlign_spec s t
  obtain ⟨hfw, _, _, hfd⟩ := fillLoop_spec 9 (padAlign s t).1 (padAlign s t).2
    (by rw [hp2]; omega) (by omega)
  have hcond : FRAME_DATA_BYTES > t ∧ 0 < t := ⟨by unfold FRAME_DATA_BYTES; omega, h0⟩
  simp only [padFrame, hcond, and_self, if_true]
  obtain ⟨hcw, hcd⟩ := closeSlot_fields (fillLoop 9 (padAlign s t).1 (padAlign s t).2).1
  rw [hcw, hcd, hfw, hpw]
  refine ⟨rfl, ?_⟩
  intro j
  rw [hpw] at hfd
  rw [hfd j, hpd j, hp2]
  split_ifs <;> first | rfl | omega

/-- A packet of at most 26 bytes at the head of the event packet queue gives one
padded frame. -/
theorem mux_event_short_packet (hw : FrameHw) (s : DaqState) (h e : Nat)
    (hq : s.packetEvHead ≠ s.packetEvTail)
    (hpkt : s.packetEv s.packetEvHead = ⟨h, e⟩)
    (hh : h < 1024) (he : e < 1024)
    (hn : ACTIVELEN h e 1024 + 1 ≤ 26) :
    (CheckFrameBuffer hw s).2.buffFrameDataWrite = WRAPINC s.buffFrameDataWrite 1536 ∧
    (∀ j, j < 27 →
      ((CheckFrameBuffer hw s).2.buffFrameData s.buffFrameDataWrite).data j
        = paddedPayload (ACTIVELEN h e 1024 + 1) (fun k => s.buffEv ((h + k) % 1024)) j) := by
  obtain ⟨ha1, ha2, ha3, ha4, ha5, ha6⟩ := serviceUart_fields hw s
  obtain ⟨hb1, hb2, hb3, hb4, hb5, hb6⟩ := serviceUsb_fields hw (serviceUart hw s)
  have hq1 : (serviceUsb hw (serviceUart hw s)).packetEvHead
      ≠ (serviceUsb hw (serviceUart hw s)).packetEvTail := by
    rw [hb5, hb6, ha5, ha6]
    exact hq
  have hcall : CheckFrameBuffer hw s = (0, muxEvent (serviceUsb hw (serviceUart hw s))) := by
    simp [CheckFrameBuffer, hq1]
  rw [hcall]
  generalize hs1 : serviceUsb hw (serviceUart hw s) = s1 at *
  have hw1 : s1.buffFrameDataWrite = s.buffFrameDataWrite := by rw [hb1, ha1]
  have hd1 : s1.buffFrameData = s.buffFrameData := by rw [hb2, ha2]
  have hev1 : s1.buffEv = s.buffEv := by rw [hb3, ha3]
  have hp1 : s1.packetEv s1.packetEvHead = ⟨h, e⟩ := by rw [hb4, hb5, ha4, ha5]; exact hpkt
  have hcase : (h ≤ e ∧ ACTIVELEN h e 1024 + 1 = e - h + 1) ∨
      (e < h ∧ ACTIVELEN h e 1024 + 1 = 1024 - h + e + 1) := by
    rw [ACTIVELEN_eq hh he]
    split_ifs <;> omega
  generalize hnn : ACTIVELEN h e 1024 + 1 = n at *
  have hmux : muxEvent s1 =
      padFrame
        (evCopyLoop e n
          (stampSeq { s1 with packetEvHead := WRAPINC s1.packetEvHead PACKET_EVENT_SIZE })
          ⟨h, n,
            (if (stampSeq { s1 with
                  packetEvHead := WRAPINC s1.packetEvHead PACKET_EVENT_SIZE }).eventLRCopy
                  = .COPY_EVENT_HK ∧
                EVHK_ID = (stampSeq { s1 with
                  packetEvHead := WRAPINC s1.packetEvHead PACKET_EVENT_SIZE }).buffEv
                    (WRAP (h + 4) EV_BUFFER_SIZE) then
              (n + 65536 - 3) % 65536 else 0), 0, 0⟩).1
        (evCopyLoop e n
          (stampSeq { s1 with packetEvHead := WRAPINC s1.packetEvHead PACKET_EVENT_SIZE })
          ⟨h, n,
            (if (stampSeq { s1 with
                  packetEvHead := WRAPINC s1.packetEvHead PACKET_EVENT_SIZE }).eventLRCopy
                  = .COPY_EVENT_HK ∧
                EVHK_ID = (stampSeq { s1 with
                  packetEvHead := WRAPINC s1.packetEvHead PACKET_EVENT_SIZE }).buffEv
                    (WRAP (h + 4) EV_BUFFER_SIZE) then
              (n + 65536 - 3) % 65536 else 0), 0, 0⟩).2.tmpWrite := by
    simp only [muxEvent, hp1, EV_BUFFER_SIZE, hnn]
  rw [hmux]
  obtain ⟨hl1, _, hl3, hl4, hl5⟩ := evCopyLoop_short e he n
    (stampSeq { s1 with packetEvHead := WRAPINC s1.packetEvHead PACKET_EVENT_SIZE })
    ⟨h, n,
      (if (stampSeq { s1 with
            packetEvHead := WRAPINC s1.packetEvHead PACKET_EVENT_SIZE }).eventLRCopy
            = .COPY_EVENT_HK ∧
          EVHK_ID = (stampSeq { s1 with
            packetEvHead := WRAPINC s1.packetEvHead PACKET_EVENT_SIZE }).buffEv
              (WRAP (h + 4) EV_BUFFER_SIZE) then
        (n + 65536 - 3) % 65536 else 0), 0, 0⟩
    (le_refl n) (by show 0 + n < 27; omega) hh
    (by
      rcases hcase with ⟨c1, c2⟩ | ⟨c1, c2⟩
      · exact Or.inr (Or.inl ⟨c1, c2⟩)
      · exact Or.inr (Or.inr ⟨c1, c2⟩))
  simp only [Nat.zero_add] at hl1 hl5
  have hsw : (stampSeq { s1 with
      packetEvHead := WRAPINC s1.packetEvHead PACKET_EVENT_SIZE }).buffFrameDataWrite
        = s.buffFrameDataWrite := hw1
  rw [hsw] at hl3 hl5
  have hn0 : 0 < n := by omega
  generalize evCopyLoop e n
    (stampSeq { s1 with packetEvHead := WRAPINC s1.packetEvHead PACKET_EVENT_SIZE })
    ⟨h, n,
      (if (stampSeq { s1 with
            packetEvHead := WRAPINC s1.packetEvHead PACKET_EVENT_SIZE }).eventLRCopy
            = .COPY_EVENT_HK ∧
          EVHK_ID = (stampSeq { s1 with
            packetEvHead := WRAPINC s1.packetEvHead PACKET_EVENT_SIZE }).buffEv
              (WRAP (h + 4) EV_BUFFER_SIZE) then
        (n + 65536 - 3) % 65536 else 0), 0, 0⟩ = r at *
  obtain ⟨hf1, hf2⟩ := padFrame_spec r.1 r.2.tmpWrite (by rw [hl1]; exact hn0)
    (by rw [hl1]; omega)
  rw [hl3] at hf1 hf2
  refine ⟨hf1, ?_⟩
  intro j hj
  show ((padFrame r.1 r.2.tmpWrite).buffFrameData s.buffFrameDataWrite).data j = _
  rw [hf2 j, hl1, hl5 j]
  unfold paddedPayload
  have hsev : (stampSeq { s1 with
      packetEvHead := WRAPINC s1.packetEvHead PACKET_EVENT_SIZE }).buffEv = s.buffEv := hev1
  rw [hsev]
  split_ifs <;> first | rfl | omega


theorem service_spi_fields (hw : FrameHw) (s : DaqState) :
    (serviceUsb hw (serviceUart hw s)).buffFrameDataWrite = s.buffFrameDataWrite ∧
    (serviceUsb hw (serviceUart hw s)).buffFrameData = s.buffFrameData ∧
    (serviceUsb hw (serviceUart hw s)).buffSPI = s.buffSPI ∧
    (serviceUsb hw (serviceUart hw s)).packetFIFO = s.packetFIFO ∧
    (serviceUsb hw (serviceUart hw s)).packetFIFOHead = s.packetFIFOHead ∧
    (serviceUsb hw (serviceUart hw s)).packetFIFOTail = s.packetFIFOTail ∧
    (serviceUsb hw (serviceUart hw s)).packetEvHead = s.packetEvHead ∧
    (serviceUsb hw (serviceUart hw s)).packetEvTail = s.packetEvTail := by
  unfold serviceUsb serviceUart startDma
  dsimp only
  split_ifs <;> exact ⟨rfl, rfl, rfl, rfl, rfl, rfl, rfl, rfl⟩

theorem spiCopyLoop_done (d e fuel : Nat) (s : DaqState) (l : Nat × Nat × Nat)
    (h0 : l.2.1 = 0) : spiCopyLoop d e fuel s l = (s, l) := by
  cases fuel with
  | zero => rfl
  | succ n => simp [spiCopyLoop, h0]

theorem spiCopyLoop_step (d e fuel : Nat) (s : DaqState) (l : Nat × Nat × Nat)
    (hpos : 0 < l.2.1) :
    spiCopyLoop d e (fuel + 1) s l
      = spiCopyLoop d e fuel (spiCopyStep d e s l).1 (spiCopyStep d e s l).2 := by
  simp [spiCopyLoop, hpos]

/-- One pass of the bus-poller copy loop that does not fill the slot. -/
theorem spiCopyStep_nofill (d e : Nat) (s : DaqState) (l : Nat × Nat × Nat)
    (h : l.2.2 + spiStepBytes e l < 27) :
    (spiCopyStep d e s l).2.1 = spiNextRead l.1 (spiStepBytes e l) ∧
    (spiCopyStep d e s l).2.2.1 = l.2.1 - spiStepBytes e l ∧
    (spiCopyStep d e s l).2.2.2 = l.2.2 + spiStepBytes e l ∧
    (spiCopyStep d e s l).1.buffFrameDataWrite = s.buffFrameDataWrite ∧
    (spiCopyStep d e s l).1.buffSPI = s.buffSPI ∧
    (∀ j, ((spiCopyStep d e s l).1.buffFrameData s.buffFrameDataWrite).data j =
      if l.2.2 ≤ j ∧ j < l.2.2 + spiStepBytes e l then s.buffSPI d (l.1 + (j - l.2.2))
      else (s.buffFrameData s.buffFrameDataWrite).data j) := by
  have hn : ¬ (27 ≤ l.2.2 + spiStepBytes e l) := by omega
  simp only [spiCopyStep, FRAME_DATA_BYTES, hn, if_false]
  refine ⟨trivial, trivial, trivial, rfl, rfl, ?_⟩
  intro j
  simp [writeFrameData]

/-- The bus-poller copy loop for a packet that fits the current slot with room
to spare. -/
theorem spiCopyLoop_short (d e : Nat) (he : e < 512) :
    ∀ (fuel : Nat) (s : DaqState) (l : Nat × Nat × Nat),
      l.2.1 ≤ fuel → l.2.2 + l.2.1 < 27 → l.1 < 512 →
      (l.2.1 = 0 ∨ (l.1 ≤ e ∧ l.2.1 = e - l.1 + 1) ∨
        (e < l.1 ∧ l.2.1 = 512 - l.1 + e + 1)) →
      (spiCopyLoop d e fuel s l).2.2.2 = l.2.2 + l.2.1 ∧
      (spiCopyLoop d e fuel s l).2.2.1 = 0 ∧
      (spiCopyLoop d e fuel s l).1.buffFrameDataWrite = s.buffFrameDataWrite ∧
      (spiCopyLoop d e fuel s l).1.buffSPI = s.buffSPI ∧
      (∀ j, ((spiCopyLoop d e fuel s l).1.buffFrameData s.buffFrameDataWrite).data j =
        if l.2.2 ≤ j ∧ j < l.2.2 + l.2.1 then s.buffSPI d ((l.1 + (j - l.2.2)) % 512)
        else (s.buffFrameData s.buffFrameDataWrite).data j) := by
  intro fuel
  induction fuel with
  | zero =>
    intro s l hf _ _ _
    have h0 : l.2.1 = 0 := by omega
    rw [spiCopyLoop_done d e 0 s l h0]
    refine ⟨by show l.2.2 = _; omega, h0, rfl, rfl, ?_⟩
    intro j
    have : ¬ (l.2.2 ≤ j ∧ j < l.2.2 + l.2.1) := by omega
    simp [this]
  | succ fuel ih =>
    intro s l hf hfit hcr hcase
    by_cases h0 : l.2.1 = 0
    · rw [spiCopyLoop_done d e _ s l h0]
      refine ⟨by show l.2.2 = _; omega, h0, rfl, rfl, ?_⟩
      intro j
      have : ¬ (l.2.2 ≤ j ∧ j < l.2.2 + l.2.1) := by omega
      simp [this]
    · have hpos : 0 < l.2.1 := by omega
      rw [spiCopyLoop_step d e fuel s l hpos]
      rcases hcase with hc | ⟨hle, hlen⟩ | ⟨hgt, hlen⟩
      · exact absurd hc h0
      · have hnB : spiStepBytes e l = l.2.1 := by
          unfold spiStepBytes MIN FRAME_DATA_BYTES
          split_ifs <;> omega
        have hst := spiCopyStep_nofill d e s l (by rw [hnB]; exact hfit)
        rw [hnB] at hst
        obtain ⟨_, hleft, htw, hwr, hev, hdata⟩ := hst
        have hleft0 : (spiCopyStep d e s l).2.2.1 = 0 := by rw [hleft]; omega
        rw [spiCopyLoop_done d e fuel _ _ hleft0]
        refine ⟨htw, hleft0, hwr, hev, ?_⟩
        intro j
        rw [hdata j]
        split_ifs with hj
        · rw [Nat.mod_eq_of_lt (by omega)]
        · rfl
      · have hnB : spiStepBytes e l = 512 - l.1 := by
          unfold spiStepBytes MIN FRAME_DATA_BYTES SPI_BUFFER_SIZE
          split_ifs <;> omega
        have hst := spiCopyStep_nofill d e s l (by rw [hnB]; omega)
        rw [hnB] at hst
        obtain ⟨hcur, hleft, htw, hwr, hev, hdata⟩ := hst
        have hnext : spiNextRead l.1 (512 - l.1) = 0 := by
          unfold spiNextRead SPI_BUFFER_SIZE
          split_ifs <;> omega
        rw [hnext] at hcur
        have hih := ih (spiCopyStep d e s l).1 (spiCopyStep d e s l).2
          (by rw [hleft]; omega) (by rw [hleft, htw]; omega) (by rw [hcur]; omega)
          (Or.inr (Or.inl ⟨by rw [hcur]; omega, by rw [hleft, hcur]; omega⟩))
        obtain ⟨h1, h2, h3, h4, h5⟩ := hih
        refine ⟨by rw [h1, htw, hleft]; omega, h2, by rw [h3, hwr], by rw [h4, hev], ?_⟩
        intro j
        have h5j := h5 j
        rw [hwr] at h5j
        rw [h5j, hdata j, htw, hleft, hcur, hev]
        split_ifs <;> first | rfl | omega | (congr 1; omega)

/-- A packet of at most 26 bytes at the head of the bus-poller queue, the event
packet queue being empty, gives one padded frame. -/
theorem mux_spi_short_packet (hw : FrameHw) (s : DaqState) (h e : Nat)
    (hq0 : s.packetEvHead = s.packetEvTail)
    (hq : s.packetFIFOHead ≠ s.packetFIFOTail)
    (hhd : (s.packetFIFO s.packetFIFOHead).header = h)
    (hed : (s.packetFIFO s.packetFIFOHead).EOR = e)
    (hh : h < 512) (he : e < 512)
    (hn : ACTIVELEN h e 512 + 1 ≤ 26) :
    (CheckFrameBuffer hw s).2.buffFrameDataWrite = WRAPINC s.buffFrameDataWrite 1536 ∧
    (∀ j, j < 27 →
      ((CheckFrameBuffer hw s).2.buffFrameData s.buffFrameDataWrite).data j
        = paddedPayload (ACTIVELEN h e 512 + 1)
            (fun k => s.buffSPI ((s.packetFIFO s.packetFIFOHead).index % 256)
              ((h + k) % 512)) j) := by
  obtain ⟨hb1, hb2, hb3, hb4, hb5, hb6, hb7, hb8⟩ := service_spi_fields hw s
  have hcall : CheckFrameBuffer hw s = (0, muxSPI (serviceUsb hw (serviceUart hw s))) := by
    have e1 : ¬ ((serviceUsb hw (serviceUart hw s)).packetEvHead
        ≠ (serviceUsb hw (serviceUart hw s)).packetEvTail) := by
      rw [hb7, hb8]
      exact not_not.mpr hq0
    have e2 : (serviceUsb hw (serviceUart hw s)).packetFIFOHead
        ≠ (serviceUsb hw (serviceUart hw s)).packetFIFOTail := by
      rw [hb5, hb6]
      exact hq
    simp only [CheckFrameBuffer, e1, e2, if_false, if_true, ne_eq, not_false_eq_true]
  rw [hcall]
  generalize serviceUsb hw (serviceUart hw s) = s1 at *
  have hcase : (h ≤ e ∧ ACTIVELEN h e 512 + 1 = e - h + 1) ∨
      (e < h ∧ ACTIVELEN h e 512 + 1 = 512 - h + e + 1) := by
    rw [ACTIVELEN_eq hh he]
    split_ifs <;> omega
  generalize hnn : ACTIVELEN h e 512 + 1 = n at *
  have hmux : muxSPI s1 =
      padFrame
        (spiCopyLoop ((s.packetFIFO s.packetFIFOHead).index % 256) e n
          (stampSeq { s1 with packetFIFOHead := WRAPINC s1.packetFIFOHead PACKET_FIFO_SIZE })
          (h, n, 0)).1
        (spiCopyLoop ((s.packetFIFO s.packetFIFOHead).index % 256) e n
          (stampSeq { s1 with packetFIFOHead := WRAPINC s1.packetFIFOHead PACKET_FIFO_SIZE })
          (h, n, 0)).2.2.2 := by
    simp only [muxSPI, hb4, hb5, hhd, hed, SPI_BUFFER_SIZE, hnn]
  rw [hmux]
  obtain ⟨hl1, _, hl3, hl4, hl5⟩ := spiCopyLoop_short
    ((s.packetFIFO s.packetFIFOHead).index % 256) e he n
    (stampSeq { s1 with packetFIFOHead := WRAPINC s1.packetFIFOHead PACKET_FIFO_SIZE })
    (h, n, 0) (le_refl n) (by show 0 + n < 27; omega) hh
    (by
      rcases hcase with ⟨c1, c2⟩ | ⟨c1, c2⟩
      · exact Or.inr (Or.inl ⟨c1, c2⟩)
      · exact Or.inr (Or.inr ⟨c1, c2⟩))
  simp only [Nat.zero_add] at hl1 hl5
  have hsw : (stampSeq { s1 with
      packetFIFOHead := WRAPINC s1.packetFIFOHead PACKET_FIFO_SIZE }).buffFrameDataWrite
        = s.buffFrameDataWrite := hb1
  rw [hsw] at hl3 hl5
  have hn0 : 0 < n := by omega
  generalize spiCopyLoop ((s.packetFIFO s.packetFIFOHead).index % 256) e n
    (stampSeq { s1 with packetFIFOHead := WRAPINC s1.packetFIFOHead PACKET_FIFO_SIZE })
    (h, n, 0) = r at *
  obtain ⟨hf1, hf2⟩ := padFrame_spec r.1 r.2.2.2 (by rw [hl1]; exact hn0)
    (by rw [hl1]; omega)
  rw [hl3] at hf1 hf2
  refine ⟨hf1, ?_⟩
  intro j hj
  show ((padFrame r.1 r.2.2.2).buffFrameData s.buffFrameDataWrite).data j = _
  rw [hf2 j, hl1, hl5 j]
  unfold paddedPayload
  have hsev : (stampSeq { s1 with
      packetFIFOHead := WRAPINC s1.packetFIFOHead PACKET_FIFO_SIZE }).buffSPI
        = s.buffSPI := hb3
  rw [hsev]
  split_ifs <;> first | rfl | omega

/-- C9: for a packet of `n` bytes, `1 <= n <= 26`, at the head of the event
packet queue, or at the head of the bus-poller queue when the event packet
queue is empty, `CheckFrameBuffer` advances the frame write cursor by one slot
(mod 1536) and the 27 payload bytes of the slot it wrote are the `n` packet
bytes in ring order, then `(3 - n mod 3) mod 3` zero bytes, then the triple
`F9 00 FF` repeated to the end of the payload. -/
theorem C9_short_packet_frame (hw : FrameHw) (s : DaqState) (h e : Nat) :
    (s.packetEvHead ≠ s.packetEvTail → s.packetEv s.packetEvHead = ⟨h, e⟩ →
      h < 1024 → e < 1024 → ACTIVELEN h e 1024 + 1 ≤ 26 →
      (CheckFrameBuffer hw s).2.buffFrameDataWrite = WRAPINC s.buffFrameDataWrite 1536 ∧
      (∀ j, j < 27 →
        ((CheckFrameBuffer hw s).2.buffFrameData s.buffFrameDataWrite).data j
          = paddedPayload (ACTIVELEN h e 1024 + 1)
              (fun k => s.buffEv ((h + k) % 1024)) j)) ∧
    (s.packetEvHead = s.packetEvTail → s.packetFIFOHead ≠ s.packetFIFOTail →
      (s.packetFIFO s.packetFIFOHead).header = h →
      (s.packetFIFO s.packetFIFOHead).EOR = e →
      h < 512 → e < 512 → ACTIVELEN h e 512 + 1 ≤ 26 →
      (CheckFrameBuffer hw s).2.buffFrameDataWrite = WRAPINC s.buffFrameDataWrite 1536 ∧
      (∀ j, j < 27 →
        ((CheckFrameBuffer hw s).2.buffFrameData s.buffFrameDataWrite).data j
          = paddedPayload (ACTIVELEN h e 512 + 1)
              (fun k => s.buffSPI ((s.packetFIFO s.packetFIFOHead).index % 256)
                ((h + k) % 512)) j)) :=
  ⟨fun hq hpkt hh he hn => mux_event_short_packet hw s h e hq hpkt hh he hn,
    fun hq0 hq hhd hed hh he hn => mux_spi_short_packet hw s h e hq0 hq hhd hed hh he hn⟩

/-- The spec's example for C9: a 10-byte packet (here lying across the end of
the event ring, indices 1020..1023 and 0..5) gives one frame with the 10 bytes,
2 zero bytes and 5 filler triples. -/
theorem C9_short_packet_frame_witness :
    ACTIVELEN 1020 5 1024 + 1 = 10 ∧
    (muxWith 1020 5).buffFrameDataWrite = 0 ∧
    WRAPINC (muxWith 1020 5).buffFrameDataWrite 1536 = 1 ∧
    (CheckFrameBuffer idleHw (muxWith 1020 5)).2.buffFrameDataWrite
      = WRAPINC (muxWith 1020 5).buffFrameDataWrite 1536 ∧
    (∀ j, j < 27 →
      ((CheckFrameBuffer idleHw (muxWith 1020 5)).2.buffFrameData
          (muxWith 1020 5).buffFrameDataWrite).data j
        = paddedPayload (ACTIVELEN 1020 5 1024 + 1)
            (fun k => (muxWith 1020 5).buffEv ((1020 + k) % 1024)) j) ∧
    (List.range 27).map
        (paddedPayload 10 (fun k => (muxWith 1020 5).buffEv ((1020 + k) % 1024)))
      = [16, 17, 18, 19, 0, 1, 2, 3, 4, 5, 0, 0, 0xF9, 0, 0xFF, 0xF9, 0, 0xFF, 0xF9, 0, 0xFF,
          0xF9, 0, 0xFF, 0xF9, 0, 0xFF] :=
  have h := (C9_short_packet_frame idleHw (muxWith 1020 5) 1020 5).1 (by decide) rfl
    (by decide) (by decide) (by decide)
  ⟨by decide, rfl, by decide, h.1, h.2, by decide⟩

/-! ### I2C scheduler -/

/-- With no retry pending (`numI2CRetry = 0`, as after every call of
`CheckI2C`), a read or write descriptor whose issuing fails is dequeued at once
with the returned error. -/
theorem issueI2C_failure_dequeues (hw : I2CHw) (s : I2CState) (errors : Nat)
    (hty : I2C_WRITE = (s.buffI2C s.buffI2CRead).type ∨
      I2C_READ = (s.buffI2C s.buffI2CRead).type)
    (hfail : hw.issueResult % 256 ≠ 0) (hretry : s.numI2CRetry = 0) :
    (issueI2C hw s errors).buffI2CRead = WRAPINC s.buffI2CRead 64 ∧
    ((issueI2C hw s errors).buffI2C s.buffI2CRead).error = hw.issueResult % 256 ∧
    (issueI2C hw s errors).numI2CRetry = 0 := by
  have hne : ¬ (0 = hw.issueResult % 256) := fun h => hfail h.symm
  simp [issueI2C, hty, hne, hretry, I2C_MAX_RETRIES, dequeueI2C, I2C_BUFFER_SIZE]

/-- `CheckI2C` always leaves `numI2CRetry` at 0 when it starts from 0. -/
theorem CheckI2C_retry_zero (m : I2CMasks) (hw : I2CHw) (s : I2CState)
    (hretry : s.numI2CRetry = 0) : (CheckI2C m hw s).2.numI2CRetry = 0 := by
  unfold CheckI2C issueI2C dequeueI2C I2C_MAX_RETRIES
  dsimp only
  split_ifs <;> simp_all

/-- C10 at the failing input: with three descriptors queued and the issuing of
the second one failing, the second descriptor is handed to the bus exactly once
(pass 3) and dequeued in that same pass with its error set; it is not kept at
the head and not re-attempted: the next pass already issues the third. -/
theorem C10_issue_failure_not_retried :
    (runI2C psocMasks secondFails threeQueued).1 = [some 0, none, some 1, some 2] ∧
    (runI2C psocMasks (secondFails.take 2) threeQueued).2.buffI2CRead = 1 ∧
    (runI2C psocMasks (secondFails.take 3) threeQueued).2.buffI2CRead = 2 ∧
    ((runI2C psocMasks (secondFails.take 3) threeQueued).2.buffI2C 1).error = 2 ∧
    (runI2C psocMasks (secondFails.take 3) threeQueued).2.numI2CRetry = 0 ∧
    (runI2C psocMasks (secondFails.take 3) threeQueued).2.cntError = 1 ∧
    (runI2C psocMasks secondFails threeQueued).2.buffI2CRead = 2 := by
  decide

/-! ### Command forwarding -/

theorem hexDigit_upper (n : Nat) (h : n < 16) : isUpperHex (hexDigit n) := by
  unfold isUpperHex hexDigit
  split_ifs <;> omega

theorem hexVal_hexDigit (n : Nat) (h : n < 16) : hexVal (hexDigit n) = n := by
  unfold hexVal hexDigit
  split_ifs <;> omega

theorem sendCmdLoop_three (c0 c1 c2 c3 : Nat) (rest : List Nat) :
    sendCmdLoop (c0 :: c1 :: c2 :: c3 :: rest) 3 ++ [CR, LF] = envelope c0 c1 c2 c3 := by
  simp [sendCmdLoop, START_COMMAND, END_COMMAND, COMMAND_CHARS, CR, LF, envelope]

theorem cmdDrainLoop_hit (tx : Nat) (s : CmdState) (n i : Nat)
    (h : s.readBuffCmd (s.orderBuffCmd i) ≠ s.writeBuffCmd (s.orderBuffCmd i)) :
    cmdDrainLoop tx s (n + 1) i =
      (.ok 1,
        { s with
            curCmd := (CmdBytes2String
              (s.buffCmd (s.orderBuffCmd i) (s.readBuffCmd (s.orderBuffCmd i)))).1
            readBuffCmd := Function.update s.readBuffCmd (s.orderBuffCmd i)
              ((s.readBuffCmd (s.orderBuffCmd i) + 1) % 256) },
        (SendCmdString tx (CmdBytes2String
          (s.buffCmd (s.orderBuffCmd i) (s.readBuffCmd (s.orderBuffCmd i)))).1).2) := by
  simp [cmdDrainLoop, h, WRAPINC, CMD_BUFFER_SIZE]

theorem cmdDrainLoop_miss (tx : Nat) (s : CmdState) (n i : Nat)
    (h : s.readBuffCmd (s.orderBuffCmd i) = s.writeBuffCmd (s.orderBuffCmd i)) :
    cmdDrainLoop tx s (n + 1) i = cmdDrainLoop tx s n (i + 1) := by
  simp [cmdDrainLoop, h]

/-- C13: `CheckCmdBuffers` on a busy command UART returns `-EBUSY`, sends
nothing and changes nothing; on an idle UART it takes the first source `c` in
`orderBuffCmd` order (index `i < 3`, all earlier ones empty) whose queue is not
empty, sends the envelope of the command at that source's read cursor, advances
that read cursor by one (mod 256), leaves every other cursor and the queue
entries as they were and returns 1; with all three queues empty it returns 0,
sends nothing and changes nothing. -/
theorem C13_forward_one_command (tx : Nat) (s : CmdState) :
    (tx ≠ 0 → CheckCmdBuffers tx s = (.error .EBUSY, s, [])) ∧
    (tx = 0 → ∀ i, i < 3 →
      (∀ k, k < i → s.readBuffCmd (s.orderBuffCmd k) = s.writeBuffCmd (s.orderBuffCmd k)) →
      s.readBuffCmd (s.orderBuffCmd i) ≠ s.writeBuffCmd (s.orderBuffCmd i) →
      (CheckCmdBuffers tx s).1 = .ok 1 ∧
      (CheckCmdBuffers tx s).2.2 =
        (SendCmdString 0 (CmdBytes2String
          (s.buffCmd (s.orderBuffCmd i) (s.readBuffCmd (s.orderBuffCmd i)))).1).2 ∧
      (CheckCmdBuffers tx s).2.1.readBuffCmd (s.orderBuffCmd i)
        = (s.readBuffCmd (s.orderBuffCmd i) + 1) % 256 ∧
      (∀ c, c ≠ s.orderBuffCmd i → (CheckCmdBuffers tx s).2.1.readBuffCmd c = s.readBuffCmd c) ∧
      (CheckCmdBuffers tx s).2.1.writeBuffCmd = s.writeBuffCmd ∧
      (CheckCmdBuffers tx s).2.1.headerBuffCmd = s.headerBuffCmd ∧
      (CheckCmdBuffers tx s).2.1.interpretBuffCmd = s.interpretBuffCmd ∧
      (CheckCmdBuffers tx s).2.1.buffCmd = s.buffCmd) ∧
    (tx = 0 →
      (∀ k, k < 3 → s.readBuffCmd (s.orderBuffCmd k) = s.writeBuffCmd (s.orderBuffCmd k)) →
      CheckCmdBuffers tx s = (.ok 0, s, [])) := by
  refine ⟨?_, ?_, ?_⟩
  · intro htx
    have h : 0 ≠ tx := fun h => htx h.symm
    simp [CheckCmdBuffers, h]
  · intro htx i hi hbefore hhit
    subst htx
    have hcall : CheckCmdBuffers 0 s = cmdDrainLoop 0 s 3 0 := by
      simp [CheckCmdBuffers, COMMAND_SOURCES]
    rw [hcall]
    have hres : cmdDrainLoop 0 s 3 0 =
        (.ok 1,
          { s with
              curCmd := (CmdBytes2String
                (s.buffCmd (s.orderBuffCmd i) (s.readBuffCmd (s.orderBuffCmd i)))).1
              readBuffCmd := Function.update s.readBuffCmd (s.orderBuffCmd i)
                ((s.readBuffCmd (s.orderBuffCmd i) + 1) % 256) },
          (SendCmdString 0 (CmdBytes2String
            (s.buffCmd (s.orderBuffCmd i) (s.readBuffCmd (s.orderBuffCmd i)))).1).2) := by
      interval_cases i
      · exact cmdDrainLoop_hit 0 s 2 0 hhit
      · rw [cmdDrainLoop_miss 0 s 2 0 (hbefore 0 (by omega))]
        exact cmdDrainLoop_hit 0 s 1 1 hhit
      · rw [cmdDrainLoop_miss 0 s 2 0 (hbefore 0 (by omega)),
          cmdDrainLoop_miss 0 s 1 1 (hbefore 1 (by omega))]
        exact cmdDrainLoop_hit 0 s 0 2 hhit
    rw [hres]
    refine ⟨rfl, rfl, by simp, ?_, rfl, rfl, rfl, rfl⟩
    intro c hc
    simp [Function.update_noteq hc]
  · intro htx hall
    subst htx
    have hcall : CheckCmdBuffers 0 s = cmdDrainLoop 0 s 3 0 := by
      simp [CheckCmdBuffers, COMMAND_SOURCES]
    rw [hcall, cmdDrainLoop_miss 0 s 2 0 (hall 0 (by omega)),
      cmdDrainLoop_miss 0 s 1 1 (hall 1 (by omega)),
      cmdDrainLoop_miss 0 s 0 2 (hall 2 (by omega))]
    rfl

/-- With the order 2, 0, 1, source 2 holding one command `{A2, FF}` at read
cursor 255 and source 1 holding three, one call forwards the command of source
2 as `A2FF` and wraps that read cursor to 0. -/
theorem C13_forward_one_command_witness :
    (CheckCmdBuffers 0 drainState).1 = .ok 1 ∧
    (CheckCmdBuffers 0 drainState).2.2 =
      (SendCmdString 0 (CmdBytes2String (drainState.buffCmd (drainState.orderBuffCmd 0)
        (drainState.readBuffCmd (drainState.orderBuffCmd 0)))).1).2 ∧
    (CheckCmdBuffers 0 drainState).2.1.readBuffCmd (drainState.orderBuffCmd 0)
      = (drainState.readBuffCmd (drainState.orderBuffCmd 0) + 1) % 256 ∧
    (CheckCmdBuffers 0 drainState).2.2 = envelope 0x41 0x32 0x46 0x46 ∧
    (CheckCmdBuffers 0 drainState).2.1.readBuffCmd 2 = 0 :=
  have h := (C13_forward_one_command 0 drainState).2.1 rfl 0 (by decide)
    (fun k hk => absurd hk (Nat.not_lt_zero k)) (by decide)
  ⟨h.1, h.2.1, h.2.2.1, by decide, by decide⟩

/-- C14: on an idle command UART `SendCmdString` hands over exactly 29 bytes,
`S c0 c1 c2 c3 ' ' '0' '1' 'W'` three times and then `0D 0A`, and returns 0;
on a busy UART it hands over nothing and returns `-EBUSY`. -/
theorem C14_send_envelope (c0 c1 c2 c3 : Nat) (rest : List Nat) (tx : Nat) :
    SendCmdString 0 (c0 :: c1 :: c2 :: c3 :: rest) = (.ok 0, envelope c0 c1 c2 c3) ∧
    (envelope c0 c1 c2 c3).length = 29 ∧
    (tx ≠ 0 → SendCmdString tx (c0 :: c1 :: c2 :: c3 :: rest) = (.error .EBUSY, [])) := by
  refine ⟨?_, rfl, ?_⟩
  · simp only [SendCmdString, ne_eq, not_true_eq_false, if_false, sendCmdLoop_three]
  · intro htx
    have h : 0 ≠ tx := fun h => htx h.symm
    simp [SendCmdString, h]

/-- The command `1A2B` on an idle UART, and on a UART with 5 bytes waiting. -/
theorem C14_send_envelope_witness :
    SendCmdString 0 [0x31, 0x41, 0x32, 0x42, 0] = (.ok 0, envelope 0x31 0x41 0x32 0x42) ∧
    SendCmdString 5 [0x31, 0x41, 0x32, 0x42, 0] = (.error .EBUSY, []) :=
  ⟨(C14_send_envelope 0x31 0x41 0x32 0x42 [0] 5).1,
    (C14_send_envelope 0x31 0x41 0x32 0x42 [0] 5).2.2 (by decide)⟩

/-- C15: for all bytes `b0`, `b1`, `CmdBytes2String` returns 4 and writes the
upper-case hexadecimal digits of `b0` (high nibble, low nibble) and of `b1`,
each in `'0'..'9'` or `'A'..'F'`, followed by NUL; decoding the four characters
gives back `(b0, b1)`, so two different commands never give the same string. -/
theorem C15_hex_round_trip (b0 b1 : Nat) (h0 : b0 < 256) (h1 : b1 < 256) :
    (CmdBytes2String (b0, b1)).2 = 4 ∧
    (CmdBytes2String (b0, b1)).1
      = [hexDigit (b0 / 16), hexDigit (b0 % 16), hexDigit (b1 / 16), hexDigit (b1 % 16), 0] ∧
    (∀ k, k < 4 → isUpperHex ((CmdBytes2String (b0, b1)).1.getD k 0)) ∧
    decodeHex4 (CmdBytes2String (b0, b1)).1 = (b0, b1) ∧
    (∀ a0 a1, a0 < 256 → a1 < 256 →
      (CmdBytes2String (a0, a1)).1 = (CmdBytes2String (b0, b1)).1 → (a0, a1) = (b0, b1)) := by
  have e0 : b0 / 16 % 16 = b0 / 16 := by omega
  have e1 : b1 / 16 % 16 = b1 / 16 := by omega
  have hdec : ∀ x y, x < 256 → y < 256 → decodeHex4 (CmdBytes2String (x, y)).1 = (x, y) := by
    intro x y hx hy
    simp only [decodeHex4, CmdBytes2String, List.getD_cons_zero, List.getD_cons_succ]
    rw [hexVal_hexDigit _ (by omega), hexVal_hexDigit _ (by omega),
      hexVal_hexDigit _ (by omega), hexVal_hexDigit _ (by omega)]
    ext <;> simp <;> omega
  refine ⟨rfl, by simp [CmdBytes2String, e0, e1], ?_, hdec b0 b1 h0 h1, ?_⟩
  · intro k hk
    interval_cases k
    · exact hexDigit_upper _ (by omega)
    · exact hexDigit_upper _ (by omega)
    · exact hexDigit_upper _ (by omega)
    · exact hexDigit_upper _ (by omega)
  · intro a0 a1 ha0 ha1 heq
    rw [← hdec a0 a1 ha0 ha1, ← hdec b0 b1 h0 h1, heq]

/-- The command bytes `AB CD` are written as `ABCD` and `0A F0` as `0AF0`. -/
theorem C15_hex_round_trip_witness :
    (CmdBytes2String (0xAB, 0xCD)).1 = [0x41, 0x42, 0x43, 0x44, 0] ∧
    decodeHex4 (CmdBytes2String (0xAB, 0xCD)).1 = (0xAB, 0xCD) :=
  ⟨by decide, (C15_hex_round_trip 0xAB 0xCD (by decide) (by decide)).2.2.2.1⟩

/-! ### Scan without a trailer -/

theorem scanTrailer_none (s : DaqState) (a b : Nat) :
    ∀ n curEOR, curEOR < 1024 →
      (∀ j, j + 9 ≤ n → ¬ trailerAt s ((curEOR + 1024 * j - j) % 1024)) →
      scanTrailer s a b n curEOR = (0, s) := by
  intro n
  induction n with
  | zero => intro curEOR _ _; rfl
  | succ n ih =>
    intro curEOR hc hno
    unfold scanTrailer
    split_ifs with h9 ht
    · exfalso
      have h0 := hno 0 (by unfold EV_MIN_SIZE at h9; omega)
      rw [show (curEOR + 1024 * 0 - 0) % 1024 = curEOR by omega] at h0
      exact h0 ht
    · have hdec : WRAPDEC curEOR EV_BUFFER_SIZE < 1024 := by
        unfold WRAPDEC EV_BUFFER_SIZE; omega
      apply ih _ hdec
      intro j hj
      have h1 := hno (j + 1) (by omega)
      have e : (WRAPDEC curEOR EV_BUFFER_SIZE + 1024 * j - j) % 1024
          = (curEOR + 1024 * (j + 1) - (j + 1)) % 1024 := by
        unfold WRAPDEC EV_BUFFER_SIZE; omega
      rw [e]; exact h1
    · rfl

theorem trailerAt_of_span (s : DaqState) (start w j : Nat) (hs : start < 1024) (hw : w < 1024)
    (hj : j + 9 ≤ ACTIVELEN start w EV_BUFFER_SIZE)
    (hno : noTrailerIn s.buffEv start (ACTIVELEN start w EV_BUFFER_SIZE)) :
    ¬ trailerAt s ((WRAPDEC w EV_BUFFER_SIZE + 1024 * j - j) % 1024) := by
  intro ht
  have hn := @ACTIVELEN_eq 1024 start w hs hw
  unfold EV_BUFFER_SIZE at hj hno
  generalize ACTIVELEN start w 1024 = n at *
  have hp := hno (n - 3 - j) (by omega)
  unfold trailerAt at ht
  apply hp
  have e2 : (start + (n - 3 - j) + 2) % EV_BUFFER_SIZE
      = (WRAPDEC w EV_BUFFER_SIZE + 1024 * j - j) % 1024 := by
    unfold WRAPDEC EV_BUFFER_SIZE; split_ifs at hn <;> omega
  have e1 : (start + (n - 3 - j) + 1) % EV_BUFFER_SIZE
      = WRAPDEC ((WRAPDEC w EV_BUFFER_SIZE + 1024 * j - j) % 1024) EV_BUFFER_SIZE := by
    unfold WRAPDEC EV_BUFFER_SIZE; split_ifs at hn <;> omega
  have e0 : (start + (n - 3 - j)) % EV_BUFFER_SIZE
      = WRAPDEC (WRAPDEC ((WRAPDEC w EV_BUFFER_SIZE + 1024 * j - j) % 1024) EV_BUFFER_SIZE)
          EV_BUFFER_SIZE := by
    unfold WRAPDEC EV_BUFFER_SIZE; split_ifs at hn <;> omega
  rw [e0, e1, e2]
  exact ⟨ht.2.2.symm, ht.2.1.symm, ht.1.symm⟩

/-- C20: when the unread span (from the scan start to the write cursor) is
shorter than the dump threshold and holds no `FF 00 FF`, `CheckEventPackets`
returns 0 and leaves the packet queue (entries, head, tail), the read cursor,
the ring bytes and the write cursor as they were, so the scan start of the next
call is the same. -/
theorem C20_no_trailer_no_packet (s : DaqState)
    (hw : s.buffEvWrite < EV_BUFFER_SIZE) (hstart : scanStart s < EV_BUFFER_SIZE)
    (hshort : ACTIVELEN (scanStart s) s.buffEvWrite EV_BUFFER_SIZE < EV_DUMP_SIZE)
    (hno : noTrailerIn s.buffEv (scanStart s)
      (ACTIVELEN (scanStart s) s.buffEvWrite EV_BUFFER_SIZE)) :
    (CheckEventPackets s).1 = 0 ∧
    (CheckEventPackets s).2.packetEv = s.packetEv ∧
    (CheckEventPackets s).2.packetEvHead = s.packetEvHead ∧
    (CheckEventPackets s).2.packetEvTail = s.packetEvTail ∧
    (CheckEventPackets s).2.buffEvRead = s.buffEvRead ∧
    (CheckEventPackets s).2.buffEv = s.buffEv ∧
    (CheckEventPackets s).2.buffEvWrite = s.buffEvWrite ∧
    scanStart (CheckEventPackets s).2 = scanStart s := by
  have hscan : scanTrailer { s with buffEvWriteLast := s.buffEvWrite } (scanStart s) (scanStart s)
      (ACTIVELEN (scanStart s) s.buffEvWrite EV_BUFFER_SIZE)
      (WRAPDEC s.buffEvWrite EV_BUFFER_SIZE)
      = (0, { s with buffEvWriteLast := s.buffEvWrite }) := by
    apply scanTrailer_none
    · unfold WRAPDEC EV_BUFFER_SIZE; omega
    · intro j hj
      exact trailerAt_of_span { s with buffEvWriteLast := s.buffEvWrite } (scanStart s)
        s.buffEvWrite j hstart hw hj hno
  have hres : CheckEventPackets s = (0, s) ∨
      CheckEventPackets s = (0, { s with buffEvWriteLast := s.buffEvWrite }) := by
    unfold CheckEventPackets
    dsimp only
    split_ifs with hgo hdump
    · omega
    · right; exact hscan
    · left; rfl
  rcases hres with h | h <;> rw [h] <;> exact ⟨rfl, rfl, rfl, rfl, rfl, rfl, rfl, rfl⟩

/-- Fourteen zero bytes wrapped over the end of the ring: nothing is queued. -/
theorem C20_no_trailer_no_packet_witness :
    ACTIVELEN (scanStart quietState) quietState.buffEvWrite EV_BUFFER_SIZE = 14 ∧
    (CheckEventPackets quietState).1 = 0 ∧
    (CheckEventPackets quietState).2.packetEvTail = quietState.packetEvTail ∧
    (CheckEventPackets quietState).2.buffEvRead = quietState.buffEvRead :=
  have h := C20_no_trailer_no_packet quietState (by decide) (by decide) (by decide)
    (fun _ _ hp => by
      have h : (0 : Nat) = 0xFF := hp.1
      exact absurd h (by decide))
  ⟨by decide, h.1, h.2.2.2.1, h.2.2.2.2.1⟩

/-! ### Queue cursors through one multiplexer call -/

theorem setHK_fields (s : HkState) (off v : Nat) :
    (setHK s off v).i2c = s.i2c ∧ (setHK s off v).mainHKI2C = s.mainHKI2C ∧
    (setHK s off v).mainHKI2CRead = s.mainHKI2CRead ∧
    (setHK s off v).hkCollecting = s.hkCollecting ∧
    (setHK s off v).daq.buffHKWrite = s.daq.buffHKWrite ∧
    (setHK s off v).daq.buffHK s.daq.buffHKWrite off = v :=
  ⟨rfl, rfl, rfl, rfl, rfl, by simp [setHK]⟩

theorem hkSkipEntry_fields (k : Nat) (s : HkState) :
    (hkSkipEntry k s).i2c = s.i2c ∧
    (hkSkipEntry k s).mainHKI2CRead = s.mainHKI2CRead ∧
    (hkSkipEntry k s).hkCollecting = s.hkCollecting ∧
    (hkSkipEntry k s).daq.buffHKWrite = s.daq.buffHKWrite ∧
    (hkSkipEntry k s).daq.buffHK s.daq.buffHKWrite OFF_missingValuesThisPacket
      = (s.daq.buffHK s.daq.buffHKWrite OFF_missingValuesThisPacket + 1) % 256 ∧
    ((hkSkipEntry k s).mainHKI2C k).writeTrans = I2C_BUFFER_SIZE ∧
    ((hkSkipEntry k s).mainHKI2C k).readTrans = I2C_BUFFER_SIZE ∧
    (∀ i, i ≠ k → (hkSkipEntry k s).mainHKI2C i = s.mainHKI2C i) := by
  refine ⟨rfl, rfl, rfl, rfl, by simp [hkSkipEntry, missInc, setHK], ?_, ?_, ?_⟩
  · simp [hkSkipEntry, missInc, setHK]
  · simp [hkSkipEntry, missInc, setHK]
  · intro i hi
    simp [hkSkipEntry, missInc, setHK, Function.update_noteq hi]

/-- The start loop once `fullI2CTrans` is set: no descriptor is queued, every
remaining table entry is marked unavailable and counted as missing. -/
theorem hkStartLoop_full (c : CyConsts) :
    ∀ (n k : Nat) (s : HkState),
      (hkStartLoop c n k true s).2.i2c = s.i2c ∧
      (hkStartLoop c n k true s).2.mainHKI2CRead = s.mainHKI2CRead ∧
      (hkStartLoop c n k true s).2.hkCollecting = s.hkCollecting ∧
      (hkStartLoop c n k true s).2.daq.buffHKWrite = s.daq.buffHKWrite ∧
      (hkStartLoop c n k true s).2.daq.buffHK s.daq.buffHKWrite OFF_missingValuesThisPacket
        = (if n = 0 then s.daq.buffHK s.daq.buffHKWrite OFF_missingValuesThisPacket
           else (s.daq.buffHK s.daq.buffHKWrite OFF_missingValuesThisPacket + n) % 256) ∧
      (∀ i, k ≤ i → i < k + n →
        ((hkStartLoop c n k true s).2.mainHKI2C i).writeTrans = I2C_BUFFER_SIZE ∧
        ((hkStartLoop c n k true s).2.mainHKI2C i).readTrans = I2C_BUFFER_SIZE) ∧
      (∀ i, i < k → (hkStartLoop c n k true s).2.mainHKI2C i = s.mainHKI2C i) := by
  intro n
  induction n with
  | zero =>
    intro k s
    refine ⟨rfl, rfl, rfl, rfl, rfl, ?_, fun _ _ => rfl⟩
    intro i h1 h2; omega
  | succ n ih =>
    intro k s
    have hstep : hkStartLoop c (n + 1) k true s = hkStartLoop c n (k + 1) true (hkSkipEntry k s) :=
      rfl
    rw [hstep]
    obtain ⟨e1, e2, e3, e4, e5, e6, e7, e8⟩ := hkSkipEntry_fields k s
    obtain ⟨i1, i2, i3, i4, i5, i6, i7⟩ := ih (k + 1) (hkSkipEntry k s)
    rw [e4] at i5
    refine ⟨i1.trans e1, i2.trans e2, i3.trans e3, i4.trans e4, ?_, ?_, ?_⟩
    · rw [i5, e5, if_neg (Nat.succ_ne_zero n)]
      split_ifs <;> omega
    · intro i h1 h2
      by_cases hik : i = k
      · subst hik
        rw [i7 i (by omega)]
        exact ⟨e6, e7⟩
      · exact i6 i (by omega) (by omega)
    · intro i hi
      rw [i7 i (by omega)]
      exact e8 i (by omega)

theorem hkStartLoop_split (c : CyConsts) :
    ∀ (a b k : Nat) (f : Bool) (s : HkState),
      hkStartLoop c (a + b) k f s
        = hkStartLoop c b (k + a) (hkStartLoop c a k f s).1 (hkStartLoop c a k f s).2 := by
  intro a
  induction a with
  | zero => intro b k f s; rw [Nat.zero_add]; rfl
  | succ a ih =>
    intro b k f s
    rw [show a + 1 + b = (a + b) + 1 by omega]
    show hkStartLoop c (a + b) (k + 1) _ _ = _
    rw [ih]
    rw [show k + 1 + a = k + (a + 1) by omega]
    rfl

/-- The start pass when the capacity test first fails at table index `j`: the
I2C queue stays as the passes before `j` left it, the entries from `j` on are
marked unavailable, the loop counts `14 - j` missing values, and the statement
after the loop sets the count to 0. -/
theorem hkStart_overflow (c : CyConsts) (s : HkState) (j : Nat) (hj : j < 14)
    (hfail : I2C_BUFFER_SIZE ≤ 3 +
      ACTIVELEN (hkStartLoop c j 0 false (hkStartInit s)).2.i2c.buffI2CRead
        (hkStartLoop c j 0 false (hkStartInit s)).2.i2c.buffI2CWrite I2C_BUFFER_SIZE) :
    (hkStart c s).i2c = (hkStartLoop c j 0 false (hkStartInit s)).2.i2c ∧
    (hkStart c s).mainHKI2CRead = (hkStartLoop c j 0 false (hkStartInit s)).2.mainHKI2CRead ∧
    (hkStart c s).hkCollecting = (hkStartLoop c j 0 false (hkStartInit s)).2.hkCollecting ∧
    (hkStart c s).daq.buffHKWrite = (hkStartLoop c j 0 false (hkStartInit s)).2.daq.buffHKWrite ∧
    (∀ i, j ≤ i → i < 14 →
      ((hkStart c s).mainHKI2C i).writeTrans = I2C_BUFFER_SIZE ∧
      ((hkStart c s).mainHKI2C i).readTrans = I2C_BUFFER_SIZE) ∧
    (hkStartLoop c MAIN_HK_I2C_BUFFER_SIZE 0 false (hkStartInit s)).2.daq.buffHK
        (hkStartLoop c j 0 false (hkStartInit s)).2.daq.buffHKWrite OFF_missingValuesThisPacket
      = ((hkStartLoop c j 0 false (hkStartInit s)).2.daq.buffHK
          (hkStartLoop c j 0 false (hkStartInit s)).2.daq.buffHKWrite OFF_missingValuesThisPacket
          + (14 - j)) % 256 ∧
    (hkStart c s).daq.buffHK (hkStart c s).daq.buffHKWrite OFF_missingValuesThisPacket = 0 := by
  have hsplit := hkStartLoop_split c j (14 - j) 0 false (hkStartInit s)
  rw [show j + (14 - j) = MAIN_HK_I2C_BUFFER_SIZE by unfold MAIN_HK_I2C_BUFFER_SIZE; omega,
    Nat.zero_add] at hsplit
  generalize hkStartLoop c j 0 false (hkStartInit s) = mid at hfail hsplit ⊢
  have hpass : hkStartLoop c (14 - j) j mid.1 mid.2
      = hkStartLoop c (14 - j) j true mid.2 := by
    obtain ⟨n, hn⟩ : ∃ n, 14 - j = n + 1 := ⟨13 - j, by omega⟩
    rw [hn]
    cases hm : mid.1
    · show hkStartLoop c n (j + 1) (hkStartEntry c j false mid.2).1 (hkStartEntry c j false mid.2).2
        = hkStartLoop c n (j + 1) (hkStartEntry c j true mid.2).1 (hkStartEntry c j true mid.2).2
      simp [hkStartEntry, hfail]
    · rfl
  rw [hpass] at hsplit
  obtain ⟨i1, i2, i3, i4, i5, i6, _⟩ := hkStartLoop_full c (14 - j) j mid.2
  rw [← hsplit] at i1 i2 i3 i4 i5 i6
  unfold hkStart
  obtain ⟨f1, f2, f3, f4, f5, f6⟩ := setHK_fields
    (hkStartLoop c MAIN_HK_I2C_BUFFER_SIZE 0 false (hkStartInit s)).2 OFF_missingValuesThisPacket 0
  refine ⟨f1.trans i1, f3.trans i2, f4.trans i3, f5.trans i4, ?_, ?_, ?_⟩
  · intro i h1 h2
    rw [f2]
    exact i6 i h1 (by omega)
  · rw [i5, if_neg (by omega)]
  · rw [f5]
    exact f6

theorem hkBusy_write (s : HkState) : (hkBusy s).daq.buffHKWrite = s.daq.buffHKWrite := by
  unfold hkBusy
  split_ifs <;> rfl

theorem hkDieTemp_write (c : CyConsts) (hw : HkHw) (s : HkState) :
    (hkDieTemp c hw s).daq.buffHKWrite = s.daq.buffHKWrite := by
  unfold hkDieTemp
  split_ifs <;> simp only [setHK, missInc]

theorem hkFrameCounts_write (s : HkState) :
    (hkFrameCounts s).daq.buffHKWrite = s.daq.buffHKWrite := by
  simp only [hkFrameCounts, setHK]

theorem hkStatistics_write (cmd : CmdState) (s : HkState) :
    (hkStatistics cmd s).daq.buffHKWrite = s.daq.buffHKWrite := by
  simp only [hkStatistics, setHK]

theorem hkFinish_fields (c : CyConsts) (cmd : CmdState) (hw : HkHw) (s : HkState) :
    (hkFinish c cmd hw s).daq.buffHKWrite = WRAPINC s.daq.buffHKWrite HK_BUFFER_PACKETS ∧
    (hkFinish c cmd hw s).hkCollecting = FALSE := by
  refine ⟨?_, by simp only [hkFinish]⟩
  simp only [hkFinish, setHK]
  rw [hkDieTemp_write, hkFrameCounts_write, hkBusy_write, hkStatistics_write]

/-- A check pass that finds `readTrans = I2C_BUFFER_SIZE` in the entry under
`mainHKI2CRead` closes the record at once. -/
theorem hkCheck_unavailable (c : CyConsts) (cmd : CmdState) (hw : HkHw) (t : HkState)
    (hcoll : t.hkCollecting = TRUE)
    (hmark : (t.mainHKI2C t.mainHKI2CRead).readTrans = I2C_BUFFER_SIZE) :
    CheckHKBuffer c cmd hw t
      = (1, hkFinish c cmd hw { t with mainHKI2CRead := MAIN_HK_I2C_BUFFER_SIZE }) := by
  have h1 : hkCheckEntry t = ({ t with mainHKI2CRead := MAIN_HK_I2C_BUFFER_SIZE }, false) := by
    simp [hkCheckEntry, hmark]
  have h2 : hkCheckLoop c cmd hw MAIN_HK_I2C_BUFFER_SIZE t
      = (1, hkFinish c cmd hw { t with mainHKI2CRead := MAIN_HK_I2C_BUFFER_SIZE }) := by
    show hkCheckLoop c cmd hw (13 + 1) t = _
    unfold hkCheckLoop
    rw [h1]
    simp
  simp [CheckHKBuffer, hcoll, h2]

theorem CheckHKBuffer_start (c : CyConsts) (cmd : CmdState) (hw : HkHw) (s : HkState)
    (hidle : s.hkCollecting ≠ TRUE) (hreq : s.hkReq = TRUE) :
    CheckHKBuffer c cmd hw s = (0, hkStart c s) := by
  have h : ¬ TRUE = s.hkCollecting := fun h => hidle h.symm
  simp [CheckHKBuffer, h, hreq]

/-- C11 at a failing input: the start pass on a queue already holding 63
descriptors fails the capacity test at table index 0.  No descriptor is queued
and all 14 entries are marked unavailable, as claimed, and the loop counts 14
missing values; but the statement after the loop sets
`missingValuesThisPacket` to 0, so at the return the count is 0, not 14. -/
theorem C11_missing_count_reset :
    (CheckHKBuffer psocConsts CmdState.init ⟨0, 0⟩ (hkRequested 63)).1 = 0 ∧
    (CheckHKBuffer psocConsts CmdState.init ⟨0, 0⟩ (hkRequested 63)).2.i2c
      = (hkRequested 63).i2c ∧
    (∀ i, 0 ≤ i → i < 14 →
      ((CheckHKBuffer psocConsts CmdState.init ⟨0, 0⟩ (hkRequested 63)).2.mainHKI2C i).writeTrans
        = I2C_BUFFER_SIZE ∧
      ((CheckHKBuffer psocConsts CmdState.init ⟨0, 0⟩ (hkRequested 63)).2.mainHKI2C i).readTrans
        = I2C_BUFFER_SIZE) ∧
    (hkStartLoop psocConsts MAIN_HK_I2C_BUFFER_SIZE 0 false (hkStartInit (hkRequested 63))).2.daq.buffHK
      0 OFF_missingValuesThisPacket = 14 ∧
    (CheckHKBuffer psocConsts CmdState.init ⟨0, 0⟩ (hkRequested 63)).2.daq.buffHK 0
      OFF_missingValuesThisPacket = 0 := by
  rw [CheckHKBuffer_start psocConsts CmdState.init ⟨0, 0⟩ (hkRequested 63) (by decide) (by decide)]
  obtain ⟨h1, _, _, h4, h5, h6, h7⟩ := hkStart_overflow psocConsts (hkRequested 63) 0 (by omega)
    (by decide)
  have hw0 : (hkStart psocConsts (hkRequested 63)).daq.buffHKWrite = 0 := h4
  rw [hw0] at h7
  exact ⟨rfl, h1, h5, h6, h7⟩

/-- C12: a collection started while the I2C queue has no room for a sensor's
transactions (64 <= 3 + queued, which holds for the full queue of 63) queues
nothing in the start pass, and the next pass of `CheckHKBuffer`, whatever
happened to the I2C queue and the rest of the globals in between, returns 1,
moves `buffHKWrite` to the other record (mod 2) and clears `hkCollecting`:
it finds the first entry marked unavailable and closes the record without
looking at any transaction. -/
theorem C12_full_queue_cycle_completes (c : CyConsts) (cmd1 cmd2 : CmdState) (hw1 hw2 : HkHw)
    (s t : HkState)
    (hidle : s.hkCollecting ≠ TRUE) (hreq : s.hkReq = TRUE)
    (hfull : I2C_BUFFER_SIZE ≤
      3 + ACTIVELEN s.i2c.buffI2CRead s.i2c.buffI2CWrite I2C_BUFFER_SIZE)
    (htab : t.mainHKI2C = (CheckHKBuffer c cmd1 hw1 s).2.mainHKI2C)
    (hrd : t.mainHKI2CRead = (CheckHKBuffer c cmd1 hw1 s).2.mainHKI2CRead)
    (hcoll : t.hkCollecting = (CheckHKBuffer c cmd1 hw1 s).2.hkCollecting)
    (hwr : t.daq.buffHKWrite = (CheckHKBuffer c cmd1 hw1 s).2.daq.buffHKWrite) :
    (CheckHKBuffer c cmd1 hw1 s).1 = 0 ∧
    (CheckHKBuffer c cmd1 hw1 s).2.i2c = s.i2c ∧
    (CheckHKBuffer c cmd1 hw1 s).2.hkCollecting = TRUE ∧
    (CheckHKBuffer c cmd2 hw2 t).1 = 1 ∧
    (CheckHKBuffer c cmd2 hw2 t).2.daq.buffHKWrite = (s.daq.buffHKWrite + 1) % 2 ∧
    (CheckHKBuffer c cmd2 hw2 t).2.hkCollecting = FALSE := by
  rw [CheckHKBuffer_start c cmd1 hw1 s hidle hreq] at htab hrd hcoll hwr ⊢
  obtain ⟨h1, h2, h3, h4, h5, _, _⟩ := hkStart_overflow c s 0 (by omega) hfull
  have hrd0 : t.mainHKI2CRead = 0 := hrd.trans h2
  have hcoll1 : t.hkCollecting = TRUE := hcoll.trans h3
  have hwr1 : t.daq.buffHKWrite = s.daq.buffHKWrite := hwr.trans h4
  have hmark : (t.mainHKI2C t.mainHKI2CRead).readTrans = I2C_BUFFER_SIZE := by
    rw [htab, hrd0]
    exact (h5 0 (Nat.le_refl 0) (by omega)).2
  rw [hkCheck_unavailable c cmd2 hw2 t hcoll1 hmark]
  obtain ⟨f1, f2⟩ := hkFinish_fields c cmd2 hw2 { t with mainHKI2CRead := MAIN_HK_I2C_BUFFER_SIZE }
  refine ⟨rfl, h1, h3, rfl, ?_, f2⟩
  show (hkFinish c cmd2 hw2 _).daq.buffHKWrite = _
  rw [f1]
  show (t.daq.buffHKWrite + 1) % 2 = _
  rw [hwr1]

/-- A request on a full I2C queue (63 descriptors): the start pass returns 0
with the queue untouched, and the next pass, taken on the state it left,
returns 1 and flips the double buffer. -/
theorem C12_full_queue_cycle_completes_witness :
    (CheckHKBuffer psocConsts CmdState.init ⟨0, 0⟩ (hkRequested 63)).1 = 0 ∧
    (CheckHKBuffer psocConsts CmdState.init ⟨0, 0⟩ (hkRequested 63)).2.i2c = (hkRequested 63).i2c ∧
    (CheckHKBuffer psocConsts CmdState.init ⟨0, 0⟩ (hkRequested 63)).2.hkCollecting = TRUE ∧
    (CheckHKBuffer psocConsts CmdState.init ⟨0, 0⟩
      (CheckHKBuffer psocConsts CmdState.init ⟨0, 0⟩ (hkRequested 63)).2).1 = 1 ∧
    (CheckHKBuffer psocConsts CmdState.init ⟨0, 0⟩
      (CheckHKBuffer psocConsts CmdState.init ⟨0, 0⟩ (hkRequested 63)).2).2.daq.buffHKWrite
      = ((hkRequested 63).daq.buffHKWrite + 1) % 2 ∧
    (CheckHKBuffer psocConsts CmdState.init ⟨0, 0⟩
      (CheckHKBuffer psocConsts CmdState.init ⟨0, 0⟩ (hkRequested 63)).2).2.hkCollecting = FALSE :=
  C12_full_queue_cycle_completes psocConsts CmdState.init CmdState.init ⟨0, 0⟩ ⟨0, 0⟩
    (hkRequested 63) (CheckHKBuffer psocConsts CmdState.init ⟨0, 0⟩ (hkRequested 63)).2
    (by decide) (by decide) (by decide) rfl rfl rfl rfl

/-! ### I2C completion check -/

/-- C23: with a descriptor queued, the bus idle and no error bit set, a
read-complete status on a read descriptor, or a write-complete status (and no
read-complete) on a write descriptor, records `error = 0`, dequeues the
descriptor and leaves `cntError` alone; a read-complete on a descriptor that is
not a read, or a write-complete on one that is not a write, records the nonzero
error `MSTAT_ERR_MASK`, adds one to `cntError` (mod 256) and dequeues it. -/
theorem C23_completion_coherency (m : I2CMasks) (hw : I2CHw) (s : I2CState)
    (hq : s.buffI2CRead ≠ s.buffI2CWrite)
    (hidle : hw.status &&& m.MSTAT_XFER_INP = 0)
    (hnoerr : hw.status &&& m.MSTAT_ERR_MASK = 0)
    (hmask : m.MSTAT_ERR_MASK ≠ 0) :
    (hw.status &&& m.MSTAT_RD_CMPLT ≠ 0 ∨ hw.status &&& m.MSTAT_WR_CMPLT ≠ 0 →
      (CheckI2C m hw s).2.buffI2CRead = (s.buffI2CRead + 1) % 64 ∧
      (CheckI2C m hw s).2.numI2CRetry = 0) ∧
    (hw.status &&& m.MSTAT_RD_CMPLT ≠ 0 → (s.buffI2C s.buffI2CRead).type = I2C_READ →
      ((CheckI2C m hw s).2.buffI2C s.buffI2CRead).error = 0 ∧
      (CheckI2C m hw s).2.cntError = s.cntError) ∧
    (hw.status &&& m.MSTAT_RD_CMPLT ≠ 0 → (s.buffI2C s.buffI2CRead).type ≠ I2C_READ →
      ((CheckI2C m hw s).2.buffI2C s.buffI2CRead).error ≠ 0 ∧
      (CheckI2C m hw s).2.cntError = (s.cntError + 1) % 256) ∧
    (hw.status &&& m.MSTAT_RD_CMPLT = 0 → hw.status &&& m.MSTAT_WR_CMPLT ≠ 0 →
      (s.buffI2C s.buffI2CRead).type = I2C_WRITE →
      ((CheckI2C m hw s).2.buffI2C s.buffI2CRead).error = 0 ∧
      (CheckI2C m hw s).2.cntError = s.cntError) ∧
    (hw.status &&& m.MSTAT_RD_CMPLT = 0 → hw.status &&& m.MSTAT_WR_CMPLT ≠ 0 →
      (s.buffI2C s.buffI2CRead).type ≠ I2C_WRITE →
      ((CheckI2C m hw s).2.buffI2C s.buffI2CRead).error ≠ 0 ∧
      (CheckI2C m hw s).2.cntError = (s.cntError + 1) % 256) := by
  have hidle2 : 0 = hw.status &&& m.MSTAT_XFER_INP := hidle.symm
  have hnoerr2 : ¬ (hw.status &&& m.MSTAT_ERR_MASK ≠ 0) := not_not.mpr hnoerr
  refine ⟨?_, ?_, ?_, ?_, ?_⟩
  · intro h
    unfold CheckI2C
    dsimp only
    rw [if_pos hq, if_pos hidle2, if_neg hnoerr2]
    by_cases hrd : 0 ≠ hw.status &&& m.MSTAT_RD_CMPLT
    · rw [if_pos hrd]
      split_ifs <;> exact ⟨rfl, rfl⟩
    · have hwr : 0 ≠ hw.status &&& m.MSTAT_WR_CMPLT := by
        rcases h with h | h
        · exact absurd (fun e => h e.symm) hrd
        · exact fun e => h e.symm
      rw [if_neg hrd, if_pos hwr]
      split_ifs <;> exact ⟨rfl, rfl⟩
  · intro hrd hty
    have hrd2 : 0 ≠ hw.status &&& m.MSTAT_RD_CMPLT := fun e => hrd e.symm
    have hty2 : I2C_READ = (s.buffI2C s.buffI2CRead).type := hty.symm
    unfold CheckI2C
    dsimp only
    rw [if_pos hq, if_pos hidle2, if_neg hnoerr2, if_pos hrd2, if_pos hty2]
    exact ⟨by simp [dequeueI2C], rfl⟩
  · intro hrd hty
    have hrd2 : 0 ≠ hw.status &&& m.MSTAT_RD_CMPLT := fun e => hrd e.symm
    have hty2 : ¬ I2C_READ = (s.buffI2C s.buffI2CRead).type := fun e => hty e.symm
    unfold CheckI2C
    dsimp only
    rw [if_pos hq, if_pos hidle2, if_neg hnoerr2, if_pos hrd2, if_neg hty2]
    exact ⟨by simp [dequeueI2C, hmask], rfl⟩
  · intro hrd hwr hty
    have hrd2 : ¬ (0 ≠ hw.status &&& m.MSTAT_RD_CMPLT) := not_not.mpr hrd.symm
    have hwr2 : 0 ≠ hw.status &&& m.MSTAT_WR_CMPLT := fun e => hwr e.symm
    have hty2 : I2C_WRITE = (s.buffI2C s.buffI2CRead).type := hty.symm
    unfold CheckI2C
    dsimp only
    rw [if_pos hq, if_pos hidle2, if_neg hnoerr2, if_neg hrd2, if_pos hwr2, if_pos hty2]
    exact ⟨by simp [dequeueI2C], rfl⟩
  · intro hrd hwr hty
    have hrd2 : ¬ (0 ≠ hw.status &&& m.MSTAT_RD_CMPLT) := not_not.mpr hrd.symm
    have hwr2 : 0 ≠ hw.status &&& m.MSTAT_WR_CMPLT := fun e => hwr e.symm
    have hty2 : ¬ I2C_WRITE = (s.buffI2C s.buffI2CRead).type := fun e => hty e.symm
    unfold CheckI2C
    dsimp only
    rw [if_pos hq, if_pos hidle2, if_neg hnoerr2, if_neg hrd2, if_pos hwr2, if_neg hty2]
    exact ⟨by simp [dequeueI2C, hmask], rfl⟩

/-- A write descriptor at the head answered with read-complete (status `01`) is
dequeued with error `F0` and counted; answered with write-complete (status
`02`) it is dequeued with error 0 and not counted. -/
theorem C23_completion_coherency_witness :
    (((CheckI2C psocMasks ⟨0x01, 0⟩ writeAtHead).2.buffI2C writeAtHead.buffI2CRead).error ≠ 0 ∧
      (CheckI2C psocMasks ⟨0x01, 0⟩ writeAtHead).2.cntError = (writeAtHead.cntError + 1) % 256) ∧
    (((CheckI2C psocMasks ⟨0x02, 0⟩ writeAtHead).2.buffI2C writeAtHead.buffI2CRead).error = 0 ∧
      (CheckI2C psocMasks ⟨0x02, 0⟩ writeAtHead).2.cntError = writeAtHead.cntError) ∧
    ((CheckI2C psocMasks ⟨0x01, 0⟩ writeAtHead).2.buffI2C 0).error = 0xF0 ∧
    (CheckI2C psocMasks ⟨0x01, 0⟩ writeAtHead).2.buffI2CRead = 1 :=
  ⟨(C23_completion_coherency psocMasks ⟨0x01, 0⟩ writeAtHead (by decide) (by decide) (by decide)
      (by decide)).2.2.1 (by decide) (by decide),
    (C23_completion_coherency psocMasks ⟨0x02, 0⟩ writeAtHead (by decide) (by decide) (by decide)
      (by decide)).2.2.2.1 (by decide) (by decide) (by decide),
    by decide, by decide⟩

/-! ### Busy output -/

set_option maxRecDepth 100000 in
/-- The re-encoded byte count has bits only in the outer nibbles, so it never
equals the address field `0x28` of a self-addressed header. -/
theorem encodeCount_ne_address : ∀ n, n < 256 → encodeCount n ≠ 0x28 := by
  decide

/-- The closing entry of a self-addressed command is always rejected: the
count is compared with `CMD_ADDRESS_MASK & headAdr`, which is `0x28`. -/
theorem interpEntry_closing_rejected (s : CmdState) (i curChan lastAdr headAdr : Nat)
    (hmore : s.interpretBuffCmd curChan ≠ s.writeBuffCmd curChan)
    (hclose : (s.buffCmd curChan (s.interpretBuffCmd curChan)).2 = headAdr)
    (hself : CMD_ADDRESS_MASK &&& headAdr = 0x28) :
    interpEntry s i curChan lastAdr headAdr = interpReject s curChan := by
  have hne := encodeCount_ne_address
    (ACTIVELEN (s.headerBuffCmd curChan) (s.interpretBuffCmd curChan) CMD_BUFFER_SIZE % 256)
    (Nat.mod_lt _ (by decide))
  unfold interpEntry
  dsimp only
  rw [if_neg hmore, if_pos hclose, hself, if_neg hne]

/-- Source 0 holds three entries with the address bytes `2A 29 2A`, a
self-addressed header declaring two data bytes, the first data byte, and the
closing entry.  The call returns `-EILSEQ`, counts a command error and leaves
both cursors on the closing entry (index 2). -/
theorem InterpretCmdBuffers_closing_rejected :
    (InterpretCmdBuffers (cmdQueued [0x2A, 0x29, 0x2A])).map
        (fun r => (r.1, r.2.cntCmdError, r.2.headerBuffCmd 0, r.2.interpretBuffCmd 0))
      = some (.error .EILSEQ, 1, 2, 2) ∧
    (cmdQueued [0x2A, 0x29, 0x2A]).cntCmdError = 0 ∧
    0x2A &&& CMD_ADDRESS_MASK = CMD_MAIN_PSOC_ADDRESS ∧
    0x2A &&& CMD_NUM_BYTE_MASK = 2 := by
  decide

set_option maxRecDepth 1000000 in
/-- C29 fails for a packet of 334 bytes: `lowRateOffset` is a `uint8`, so
`331 - 75 = 256` becomes 0 on the first pass and the first 27 bytes of the
packet are copied to `eventHK[0..26]`; the later passes append 75 more bytes.
`eventHK[0]` ends as the packet's byte 0 instead of byte 256, the byte `etx`
right after the 75-byte `eventHK` is overwritten with the packet's byte 304, and
the write reaches 26 bytes past `etx`. -/
theorem C29_long_packet_overruns :
    longHkEvent.eventLRCopy = .COPY_EVENT_HK ∧
    longHkEvent.packetEv longHkEvent.packetEvHead = ⟨0, 333⟩ ∧
    longHkEvent.buffEv 4 = 0xDE ∧
    (∀ j, j < 102 → longHkEvent.lowRateEventHK j = 0) ∧
    (CheckFrameBuffer idleHw longHkEvent).2.lowRateEventHK 0 = longHkEvent.buffEv 0 ∧
    (CheckFrameBuffer idleHw longHkEvent).2.lowRateEventHK 0 ≠ longHkEvent.buffEv 256 ∧
    (CheckFrameBuffer idleHw longHkEvent).2.lowRateEventHK 75 = longHkEvent.buffEv 304 ∧
    (CheckFrameBuffer idleHw longHkEvent).2.lowRateEventHK 75 ≠ longHkEvent.lowRateEventHK 75 ∧
    (CheckFrameBuffer idleHw longHkEvent).2.lowRateEventHK 101 = longHkEvent.buffEv 330 ∧
    (CheckFrameBuffer idleHw longHkEvent).2.lowRateEventHK 101 ≠ longHkEvent.lowRateEventHK 101 := by
  decide

/-! ### Header probe -/

theorem trailerFound_probe (s : DaqState) (a cur e : Nat) :
    trailerFound s a cur e
      = probeHeaders s a e (probeStart cur e).1 (probeStart cur e).1 (probeStart cur e).2 :=
  rfl

theorem probeStart_bounds (cur e : Nat) (hr : cur < 1024) :
    (probeStart cur e).2 < 1024 ∧ (probeStart cur e).1 ≤ 264 ∧
    (probeStart cur e).1 ≤ ACTIVELEN cur e 1024 + 1 ∧
    (3 ≤ (probeStart cur e).1 →
      (probeStart cur e).2
        = (cur + (ACTIVELEN cur e 1024 + 1 - (probeStart cur e).1)) % 1024 ∧
      (probeStart cur e).1 % 3 = 0) := by
  unfold probeStart ACTIVELEN WRAP EV_BUFFER_SIZE EV_MAX_SIZE
  dsimp only
  split_ifs <;> dsimp only at * <;> omega

theorem probe_distance (cur e i : Nat) (hr : cur < 1024) (he : e < 1024)
    (hi : 3 * i + 9 ≤ (probeStart cur e).1) :
    spanLength (probeAt cur e i) e = probeExp cur e i := by
  obtain ⟨_, h2, h3, h4⟩ := probeStart_bounds cur e hr
  obtain ⟨h5, _⟩ := h4 (by omega)
  unfold spanLength probeAt probeExp EV_BUFFER_SIZE
  unfold ACTIVELEN at h3 h5
  generalize (probeStart cur e).1 = x at *
  generalize (probeStart cur e).2 = y at *
  omega

theorem headerMatches_iff_fits (s : DaqState) (cur e i : Nat) (hr : cur < 1024) (he : e < 1024)
    (hi : 3 * i + 9 ≤ (probeStart cur e).1) :
    headerMatches s (probeExp cur e i) (probeAt cur e i) ↔ fitsSpan s.buffEv (probeAt cur e i) e := by
  have hd := probe_distance cur e i hr he hi
  have hp : probeAt cur e i < 1024 := by unfold probeAt EV_BUFFER_SIZE; omega
  unfold headerMatches fitsSpan calcBytes impliedLength
  rw [hd]
  generalize probeAt cur e i = p at *
  generalize probeExp cur e i = x at *
  simp only [EVVAR_HEAD, EVFIX_HEAD, WRAP3INC, WRAPINC, EV_BUFFER_SIZE, EV_MIN_SIZE, frame00FF]
  have e2 : ((p + 1) % 1024 + 1) % 1024 = (p + 2) % 1024 := by omega
  rw [e2]
  constructor
  · rintro ⟨h1, ⟨h2, h3⟩, h4, h5⟩
    refine ⟨h1.symm, ?_, ?_, ?_, ?_⟩
    · omega
    · exact h3
    · simpa using h4.symm
    · simpa using h5.symm
  · rintro ⟨h1, h2, h3, h4, h5⟩
    refine ⟨h1.symm, ⟨?_, h3⟩, ?_, ?_⟩
    · omega
    · simpa using h4.symm
    · simpa using h5.symm

/-- The header probe passes over every candidate that fails the tests and
accepts the first one that passes them. -/
theorem probeHeaders_first (s : DaqState) (a e : Nat) :
    ∀ (i fuel x p : Nat), 3 * i + 9 ≤ x → x ≤ 3 * fuel + 8 →
      (∀ j, j < i → ¬ headerMatches s (x - 3 * j) ((p + 3 * j) % 1024)) →
      headerMatches s (x - 3 * i) ((p + 3 * i) % 1024) →
      probeHeaders s a e fuel x (p % 1024) = acceptHeader s a ((p + 3 * i) % 1024) e := by
  intro i
  induction i with
  | zero =>
    intro fuel x p hx hfuel _ hacc
    cases fuel with
    | zero => omega
    | succ fuel =>
      simp only [Nat.mul_zero, Nat.add_zero, Nat.sub_zero] at hacc
      exact probeHeaders_accept s a e fuel x _ (by omega) hacc
  | succ i ih =>
    intro fuel x p hx hfuel hno hacc
    cases fuel with
    | zero => omega
    | succ fuel =>
      have h0 := hno 0 (by omega)
      simp only [Nat.mul_zero, Nat.add_zero, Nat.sub_zero] at h0
      rw [probeHeaders_reject s a e fuel x _ (by omega) h0]
      have hstep : WRAP3INC (p % 1024) 1024 = (p + 3) % 1024 := by
        unfold WRAP3INC
        omega
      rw [hstep]
      have e1 : (p + 3 + 3 * i) % 1024 = (p + 3 * (i + 1)) % 1024 := by
        congr 1
        omega
      have e2 : x - 3 - 3 * i = x - 3 * (i + 1) := by omega
      rw [← e1]
      apply ih fuel (x - 3) (p + 3) (by omega) (by omega)
      · intro j hj
        have hj1 := hno (j + 1) (by omega)
        have e3 : (p + 3 + 3 * j) % 1024 = (p + 3 * (j + 1)) % 1024 := by
          congr 1
          omega
        have e4 : x - 3 - 3 * j = x - 3 * (j + 1) := by omega
        rw [e3, e4]
        exact hj1
      · rw [e1, e2]
        exact hacc

/-- The header probe returns 0 and leaves the state alone when no candidate
passes the tests. -/
theorem probeHeaders_none (s : DaqState) (a e : Nat) :
    ∀ (fuel x p : Nat),
      (∀ j, 3 * j + 9 ≤ x → ¬ headerMatches s (x - 3 * j) ((p + 3 * j) % 1024)) →
      probeHeaders s a e fuel x (p % 1024) = (0, s) := by
  intro fuel
  induction fuel with
  | zero => intro x p _; rfl
  | succ fuel ih =>
    intro x p hno
    by_cases h9 : 9 ≤ x
    · have h0 := hno 0 (by omega)
      simp only [Nat.mul_zero, Nat.add_zero, Nat.sub_zero] at h0
      rw [probeHeaders_reject s a e fuel x _ h9 h0]
      have hstep : WRAP3INC (p % 1024) 1024 = (p + 3) % 1024 := by
        unfold WRAP3INC
        omega
      rw [hstep]
      apply ih (x - 3) (p + 3)
      intro j hj
      have hj1 := hno (j + 1) (by omega)
      have e3 : (p + 3 + 3 * j) % 1024 = (p + 3 * (j + 1)) % 1024 := by
        congr 1
        omega
      have e4 : x - 3 - 3 * j = x - 3 * (j + 1) := by omega
      rw [e3, e4]
      exact hj1
    · exact probeHeaders_short s a e _ x _ (by omega)

/-- With a trailer ending at `curEOR`, the first probed candidate that passes
the tests is the accepted header. -/
theorem trailerFound_first (s : DaqState) (a cur e i : Nat) (hr : cur < 1024)
    (hi : 3 * i + 9 ≤ (probeStart cur e).1)
    (hno : ∀ j, j < i → ¬ headerMatches s (probeExp cur e j) (probeAt cur e j))
    (hacc : headerMatches s (probeExp cur e i) (probeAt cur e i)) :
    trailerFound s a cur e = acceptHeader s a (probeAt cur e i) e := by
  obtain ⟨h1, _, _, _⟩ := probeStart_bounds cur e hr
  have hp : (probeStart cur e).2 = (probeStart cur e).2 % 1024 := by omega
  rw [trailerFound_probe, hp]
  exact probeHeaders_first s a e i _ _ _ hi (by omega) hno hacc

theorem trailerFound_none (s : DaqState) (a cur e : Nat) (hr : cur < 1024)
    (hno : ∀ j, 3 * j + 9 ≤ (probeStart cur e).1 →
      ¬ headerMatches s (probeExp cur e j) (probeAt cur e j)) :
    trailerFound s a cur e = (0, s) := by
  obtain ⟨h1, _, _, _⟩ := probeStart_bounds cur e hr
  have hp : (probeStart cur e).2 = (probeStart cur e).2 % 1024 := by omega
  rw [trailerFound_probe, hp]
  exact probeHeaders_none s a e _ _ _ hno

/-- Counterexample to C22 as stated: a header `0xDC` at index 0 with length
byte 1 implies 10 bytes, one more than the 9 bytes up to the trailer end at
index 8, and is followed by `00 FF`; it is the first candidate probed, within 2
of the span length, and it is not accepted: the call returns 0 and queues
nothing. -/
theorem C22_longer_length_rejected :
    trailerAt overlongState 8 ∧
    probeStart 0 8 = (9, 0) ∧
    impliedLength overlongState.buffEv 0 = 10 ∧ spanLength 0 8 = 9 ∧
    nearSpan overlongState.buffEv 0 8 ∧
    (trailerFound overlongState 0 0 8).1 = 0 ∧
    (CheckEventPackets overlongState).1 = 0 ∧
    (CheckEventPackets overlongState).2.packetEvTail = overlongState.packetEvTail := by
  decide

/-! ### Accepting a header -/

/-- The trailer search stops at the first `FF 00 FF` found from the back. -/
theorem scanTrailer_first (s : DaqState) (a b : Nat) :
    ∀ k n curEOR, curEOR < 1024 → k + 9 ≤ n →
      (∀ j, j < k → ¬ trailerAt s ((curEOR + 1024 * j - j) % 1024)) →
      trailerAt s ((curEOR + 1024 * k - k) % 1024) →
      scanTrailer s a b n curEOR = trailerFound s a b ((curEOR + 1024 * k - k) % 1024) := by
  intro k
  induction k with
  | zero =>
    intro n curEOR hc hn _ ht
    have e0 : (curEOR + 1024 * 0 - 0) % 1024 = curEOR := by omega
    rw [e0] at ht ⊢
    cases n with
    | zero => omega
    | succ n => exact scanTrailer_hit s a b n curEOR (by omega) ht
  | succ k ih =>
    intro n curEOR hc hn hno ht
    cases n with
    | zero => omega
    | succ n =>
      have h0 := hno 0 (by omega)
      rw [show (curEOR + 1024 * 0 - 0) % 1024 = curEOR by omega] at h0
      have hdec : WRAPDEC curEOR EV_BUFFER_SIZE < 1024 := by
        unfold WRAPDEC EV_BUFFER_SIZE; omega
      have e : ∀ j, (WRAPDEC curEOR EV_BUFFER_SIZE + 1024 * j - j) % 1024
          = (curEOR + 1024 * (j + 1) - (j + 1)) % 1024 := by
        intro j
        unfold WRAPDEC EV_BUFFER_SIZE; omega
      have hstep : scanTrailer s a b (n + 1) curEOR
          = scanTrailer s a b n (WRAPDEC curEOR EV_BUFFER_SIZE) := by
        have h9 : 9 ≤ n + 1 := by omega
        simp [scanTrailer, EV_MIN_SIZE, h9, h0]
      rw [hstep, ← e k]
      apply ih n _ hdec (by omega)
      · intro j hj
        rw [e j]
        exact hno (j + 1) (by omega)
      · rw [e k]
        exact ht

theorem scanStart_lt (s : DaqState) (hread : s.buffEvRead < 1024) : scanStart s < 1024 := by
  unfold scanStart WRAPINC EV_BUFFER_SIZE
  split_ifs
  · omega
  · exact hread

/-- A call that reaches the accept body returns what the accept body returns
for the scan start, the accepted header and the trailer end. -/
theorem CheckEventPackets_accepts (s : DaqState) (k i : Nat) (hread : s.buffEvRead < 1024)
    (hacc : acceptsAt s k i) :
    CheckEventPackets s
      = acceptHeader { s with buffEvWriteLast := s.buffEvWrite } (scanStart s)
          (probeAt (scanStart s) (eorAt s k) i) (eorAt s k) := by
  obtain ⟨⟨hnew, hne, hfree⟩, hspan, hk, hnotr, htr, hi, hnoh, hh⟩ := hacc
  have h999 : EV_DUMP_SIZE = 999 := by decide
  rw [h999] at hspan
  unfold EV_MIN_SIZE at hk hi
  unfold PACKET_EVENT_SIZE at hfree
  unfold EV_BUFFER_SIZE at hspan hk
  have hstart := scanStart_lt s hread
  have hdec : WRAPDEC s.buffEvWrite 1024 < 1024 := by
    unfold WRAPDEC; omega
  rw [CheckEventPackets_scan s hnew hne hfree hspan]
  exact (scanTrailer_first { s with buffEvWriteLast := s.buffEvWrite } (scanStart s) (scanStart s)
      k _ _ hdec hk hnotr htr).trans
    (trailerFound_first { s with buffEvWriteLast := s.buffEvWrite } (scanStart s) (scanStart s)
      (eorAt s k) i hstart hi hnoh hh)

/-- C22 (amended): take a call of `CheckEventPackets` that passes the entry
test with fewer unread bytes than the dump threshold and finds its first
trailer from the back on pass `k`, ending at `eorAt s k`.  The probe visits the
candidates `probeAt .. i` while `3 i + 9` does not exceed the search bound.  A
candidate passes the code's tests exactly when it carries a header byte (0xDB
with implied length 9, or 0xDC with implied length = length byte at header+3
plus 9), its implied length is at most the byte distance from the candidate to
the trailer end (inclusive) and at least that distance minus 2, and the two
bytes after the header are `00 FF`.  The first candidate in probe order that
passes is the one accepted: the call returns what the accept body returns for
it.  When none passes, the call returns 0, queues nothing and changes only
`buffEvWriteLast`, which every scan sets to `buffEvWrite`. -/
theorem C22_header_acceptance (s : DaqState) (k : Nat) (hread : s.buffEvRead < 1024)
    (hentry : s.buffEvWriteLast ≠ s.buffEvWrite ∧ s.buffEvRead ≠ s.buffEvWrite ∧
      WRAPINC s.packetEvTail PACKET_EVENT_SIZE ≠ s.packetEvHead)
    (hspan : ACTIVELEN (scanStart s) s.buffEvWrite EV_BUFFER_SIZE < EV_DUMP_SIZE)
    (hk : k + EV_MIN_SIZE ≤ ACTIVELEN (scanStart s) s.buffEvWrite EV_BUFFER_SIZE)
    (hnotr : ∀ j, j < k → ¬ trailerAt s (eorAt s j))
    (htr : trailerAt s (eorAt s k)) :
    (∀ i, 3 * i + 9 ≤ (probeStart (scanStart s) (eorAt s k)).1 →
      (headerMatches s (probeExp (scanStart s) (eorAt s k) i)
          (probeAt (scanStart s) (eorAt s k) i) ↔
        fitsSpan s.buffEv (probeAt (scanStart s) (eorAt s k) i) (eorAt s k))) ∧
    (∀ i, 3 * i + 9 ≤ (probeStart (scanStart s) (eorAt s k)).1 →
      (∀ j, j < i → ¬ fitsSpan s.buffEv (probeAt (scanStart s) (eorAt s k) j) (eorAt s k)) →
      fitsSpan s.buffEv (probeAt (scanStart s) (eorAt s k) i) (eorAt s k) →
      CheckEventPackets s
        = acceptHeader { s with buffEvWriteLast := s.buffEvWrite } (scanStart s)
            (probeAt (scanStart s) (eorAt s k) i) (eorAt s k)) ∧
    ((∀ j, 3 * j + 9 ≤ (probeStart (scanStart s) (eorAt s k)).1 →
        ¬ fitsSpan s.buffEv (probeAt (scanStart s) (eorAt s k) j) (eorAt s k)) →
      CheckEventPackets s = (0, { s with buffEvWriteLast := s.buffEvWrite }) ∧
      (CheckEventPackets s).2.packetEvTail = s.packetEvTail ∧
      (CheckEventPackets s).2.packetEv = s.packetEv ∧
      (CheckEventPackets s).2.buffEvRead = s.buffEvRead) := by
  have hstart := scanStart_lt s hread
  have he : eorAt s k < 1024 := by
    unfold eorAt EV_BUFFER_SIZE
    exact Nat.mod_lt _ (by decide)
  have hiff := fun i hi => headerMatches_iff_fits s (scanStart s) (eorAt s k) i hstart he hi
  refine ⟨hiff, ?_, ?_⟩
  · intro i hi hno hacc
    apply CheckEventPackets_accepts s k i hread
    refine ⟨hentry, hspan, hk, hnotr, htr, hi, ?_, (hiff i hi).2 hacc⟩
    intro j hj hm
    exact hno j hj ((hiff j (by omega)).1 hm)
  · intro hno
    have hcall : CheckEventPackets s = (0, { s with buffEvWriteLast := s.buffEvWrite }) := by
      obtain ⟨hnew, hne, hfree⟩ := hentry
      have h999 : EV_DUMP_SIZE = 999 := by decide
      rw [h999] at hspan
      unfold EV_MIN_SIZE at hk
      unfold PACKET_EVENT_SIZE at hfree
      unfold EV_BUFFER_SIZE at hspan hk
      have hdec : WRAPDEC s.buffEvWrite 1024 < 1024 := by
        unfold WRAPDEC; omega
      rw [CheckEventPackets_scan s hnew hne hfree hspan]
      exact (scanTrailer_first { s with buffEvWriteLast := s.buffEvWrite } (scanStart s)
          (scanStart s) k _ _ hdec hk hnotr htr).trans
        (trailerFound_none { s with buffEvWriteLast := s.buffEvWrite } (scanStart s)
          (scanStart s) (eorAt s k) hstart
          (fun j hj hm => hno j hj ((hiff j hj).1 hm)))
    rw [hcall]
    exact ⟨rfl, rfl, rfl, rfl⟩

/-- Three bytes that are no header, then a 9-byte variable-type packet ending
at index 11: the trailer is found on the first pass, the candidate at index 0
is passed over and the candidate one probe step on is accepted.  Nine bytes
whose header implies 10: no candidate passes, and the call returns 0 with only
`buffEvWriteLast` changed. -/
theorem C22_header_acceptance_witness :
    CheckEventPackets exactState
      = acceptHeader { exactState with buffEvWriteLast := exactState.buffEvWrite }
          (scanStart exactState)
          (probeAt (scanStart exactState) (eorAt exactState 0) 1) (eorAt exactState 0) ∧
    CheckEventPackets overlongState
      = (0, { overlongState with buffEvWriteLast := overlongState.buffEvWrite }) :=
  ⟨(C22_header_acceptance exactState 0 (by decide) (by decide) (by decide) (by decide)
      (fun j hj => absurd hj (Nat.not_lt_zero j)) (by decide)).2.1 1 (by decide)
      (by decide) (by decide),
    ((C22_header_acceptance overlongState 0 (by decide) (by decide) (by decide) (by decide)
      (fun j hj => absurd hj (Nat.not_lt_zero j)) (by decide)).2.2
      (fun j hj => by
        have hb : (probeStart (scanStart overlongState) (eorAt overlongState 0)).1 = 9 := by
          decide
        rw [hb] at hj
        have hj0 : j = 0 := by omega
        subst hj0
        decide)).1⟩

/-- The accepted header lies `d` bytes past the scan start, at least 9 bytes
before the end of the span. -/
theorem probeAt_offset (cur e i : Nat) (hr : cur < 1024)
    (hi : 3 * i + 9 ≤ (probeStart cur e).1) :
    ∃ d, d + 9 ≤ ACTIVELEN cur e 1024 + 1 ∧ probeAt cur e i = (cur + d) % 1024 := by
  obtain ⟨_, _, h3, h4⟩ := probeStart_bounds cur e hr
  obtain ⟨h5, _⟩ := h4 (by omega)
  refine ⟨ACTIVELEN cur e 1024 + 1 - (probeStart cur e).1 + 3 * i, by omega, ?_⟩
  unfold probeAt EV_BUFFER_SIZE
  generalize (probeStart cur e).1 = x at *
  generalize (probeStart cur e).2 = y at *
  generalize ACTIVELEN cur e 1024 = A at *
  omega

/-- What the accept body queues, for a header `p`, scan start `a` and trailer
end `e`, when the queue had a free slot on entry. -/
theorem acceptHeader_queue (s : DaqState) (a p e : Nat)
    (hfree : WRAPINC s.packetEvTail 16 ≠ s.packetEvHead) :
    (acceptHeader s a p e).1 ≤ 2 ∧
    (acceptHeader s a p e).2.packetEvTail = (s.packetEvTail + (acceptHeader s a p e).1) % 16 ∧
    (acceptHeader s a p e).2.packetEvHead = s.packetEvHead ∧
    (p = a →
      (acceptHeader s a p e).1 = 1 ∧
      (acceptHeader s a p e).2.packetEv = Function.update s.packetEv s.packetEvTail ⟨a, e⟩) ∧
    (p ≠ a → (s.packetEvTail + 2) % 16 ≠ s.packetEvHead →
      (acceptHeader s a p e).1 = 2 ∧
      (acceptHeader s a p e).2.packetEv
        = Function.update (Function.update s.packetEv s.packetEvTail ⟨a, (p + 1023) % 1024⟩)
            ((s.packetEvTail + 1) % 16) ⟨p, e⟩) ∧
    (p ≠ a → (s.packetEvTail + 2) % 16 = s.packetEvHead →
      (acceptHeader s a p e).1 = 1 ∧
      (acceptHeader s a p e).2.packetEv
        = Function.update s.packetEv s.packetEvTail ⟨a, (p + 1023) % 1024⟩) := by
  have e2 : ((s.packetEvTail + 1) % 16 + 1) % 16 = (s.packetEvTail + 2) % 16 := by omega
  unfold WRAPINC at hfree
  by_cases hpa : p = a
  · subst hpa
    simp [acceptHeader, enqueuePacketEv, WRAPINC, PACKET_EVENT_SIZE, hfree]
  · by_cases hroom : (s.packetEvTail + 2) % 16 = s.packetEvHead
    · simp [acceptHeader, enqueuePacketEv, WRAPINC, WRAPDEC, PACKET_EVENT_SIZE, EV_BUFFER_SIZE,
        hpa, hroom, e2]
    · simp [acceptHeader, enqueuePacketEv, WRAPINC, WRAPDEC, PACKET_EVENT_SIZE, EV_BUFFER_SIZE,
        hpa, hroom, e2]

/-- A ring index `p` that lies `d` bytes past `a`, no later than `e`, splits the
span `a..e` into the adjacent spans `a..p-1` and `p..e`. -/
theorem span_split (a e d p : Nat) (ha : a < 1024) (he : e < 1024)
    (hd : d + 9 ≤ ACTIVELEN a e 1024 + 1) (hp : p = (a + d) % 1024) (hne : p ≠ a) :
    ((p + 1023) % 1024 + 1) % 1024 = p ∧
    spanLength a ((p + 1023) % 1024) + spanLength p e = spanLength a e := by
  unfold spanLength EV_BUFFER_SIZE
  unfold ACTIVELEN at hd
  omega

/-- Counterexample to C21 as stated: with one queue slot free and three bytes
that are no header before the accepted header at index 3, the call queues the
dump `0..2` alone and returns 1; the accepted span `3..11` is in no queue
entry. -/
theorem C21_last_slot_dump_only :
    acceptsAt lastSlotState 0 1 ∧
    scanStart lastSlotState = 0 ∧ eorAt lastSlotState 0 = 11 ∧
    probeAt (scanStart lastSlotState) (eorAt lastSlotState 0) 1 = 3 ∧
    (CheckEventPackets lastSlotState).1 = 1 ∧
    (CheckEventPackets lastSlotState).2.packetEvTail = 1 ∧
    (CheckEventPackets lastSlotState).2.packetEv 0 = ⟨0, 2⟩ ∧
    (∀ j, j < 16 → (CheckEventPackets lastSlotState).2.packetEv j ≠ ⟨3, 11⟩) := by
  decide

/-- C21 (amended): whenever `CheckEventPackets` accepts a header it enqueues at
most two PacketEvents and returns their number.  When the header is the scan
start, the span [header, trailer end] is enqueued as the real packet.  When
the header lies past the scan start, the unclaimed bytes [scan start,
header - 1] are enqueued first as a dump packet; the real packet [header,
trailer end] is enqueued right after it if a queue slot is still free then,
and is not enqueued otherwise.  The dump span and the real span are adjacent
and together count every byte from the scan start to the trailer end. -/
theorem C21_accept_enqueues (s : DaqState) (k i : Nat) (hread : s.buffEvRead < 1024)
    (hacc : acceptsAt s k i) :
    (CheckEventPackets s).1 ≤ 2 ∧
    (CheckEventPackets s).2.packetEvTail = (s.packetEvTail + (CheckEventPackets s).1) % 16 ∧
    (CheckEventPackets s).2.packetEvHead = s.packetEvHead ∧
    (probeAt (scanStart s) (eorAt s k) i = scanStart s →
      (CheckEventPackets s).1 = 1 ∧
      (CheckEventPackets s).2.packetEv
        = Function.update s.packetEv s.packetEvTail ⟨scanStart s, eorAt s k⟩) ∧
    (probeAt (scanStart s) (eorAt s k) i ≠ scanStart s →
      (s.packetEvTail + 2) % 16 ≠ s.packetEvHead →
      (CheckEventPackets s).1 = 2 ∧
      (CheckEventPackets s).2.packetEv
        = Function.update
            (Function.update s.packetEv s.packetEvTail
              ⟨scanStart s, (probeAt (scanStart s) (eorAt s k) i + 1023) % 1024⟩)
            ((s.packetEvTail + 1) % 16) ⟨probeAt (scanStart s) (eorAt s k) i, eorAt s k⟩) ∧
    (probeAt (scanStart s) (eorAt s k) i ≠ scanStart s →
      (s.packetEvTail + 2) % 16 = s.packetEvHead →
      (CheckEventPackets s).1 = 1 ∧
      (CheckEventPackets s).2.packetEv
        = Function.update s.packetEv s.packetEvTail
            ⟨scanStart s, (probeAt (scanStart s) (eorAt s k) i + 1023) % 1024⟩) ∧
    (probeAt (scanStart s) (eorAt s k) i ≠ scanStart s →
      ((probeAt (scanStart s) (eorAt s k) i + 1023) % 1024 + 1) % 1024
        = probeAt (scanStart s) (eorAt s k) i ∧
      spanLength (scanStart s) ((probeAt (scanStart s) (eorAt s k) i + 1023) % 1024)
          + spanLength (probeAt (scanStart s) (eorAt s k) i) (eorAt s k)
        = spanLength (scanStart s) (eorAt s k)) := by
  have hpath := CheckEventPackets_accepts s k i hread hacc
  have hstart := scanStart_lt s hread
  obtain ⟨⟨_, _, hfree⟩, _, _, _, _, hi, _, _⟩ := hacc
  unfold EV_MIN_SIZE at hi
  unfold PACKET_EVENT_SIZE at hfree
  obtain ⟨d, hd, hp⟩ := probeAt_offset (scanStart s) (eorAt s k) i hstart hi
  have he : eorAt s k < 1024 := by
    unfold eorAt EV_BUFFER_SIZE
    omega
  rw [hpath]
  obtain ⟨q1, q2, q3, q4, q5, q6⟩ :=
    acceptHeader_queue { s with buffEvWriteLast := s.buffEvWrite } (scanStart s)
      (probeAt (scanStart s) (eorAt s k) i) (eorAt s k) hfree
  exact ⟨q1, q2, q3, q4, q5, q6, fun hne => span_split _ _ d _ hstart he hd hp hne⟩

/-- Three bytes that are no header, then a 9-byte packet, with an empty queue:
the dump `0..2` and the packet `3..11` are queued in that order; the two spans
are adjacent and count the 12 bytes from the scan start to the trailer end. -/
theorem C21_accept_enqueues_witness :
    (CheckEventPackets junkThenPacket).1 = 2 ∧
    (CheckEventPackets junkThenPacket).2.packetEv
      = Function.update
          (Function.update junkThenPacket.packetEv junkThenPacket.packetEvTail
            ⟨scanStart junkThenPacket,
              (probeAt (scanStart junkThenPacket) (eorAt junkThenPacket 0) 1 + 1023) % 1024⟩)
          ((junkThenPacket.packetEvTail + 1) % 16)
          ⟨probeAt (scanStart junkThenPacket) (eorAt junkThenPacket 0) 1, eorAt junkThenPacket 0⟩ :=
  (C21_accept_enqueues junkThenPacket 0 1 (by decide) (by decide)).2.2.2.2.1
    (by decide) (by decide)

/-! ### Per-source state of the command parser -/

/-- C32: for every byte and every pair of distinct sources `i`, `j`, a call of
`ParseCmdInputByte` for source `i` leaves the parser state of source `j`
(`commandStatusC[j]`, `commandLenC[j]`, `cmdRxC[j]`), its queue cursors
(`writeBuffCmd[j]`, `readBuffCmd[j]`) and every entry of `buffCmd[j]`
unchanged. -/
theorem C32_sources_independent (tempRx i j : Nat) (s : CmdState) (hij : i ≠ j) :
    (ParseCmdInputByte tempRx i s).2.commandStatusC j = s.commandStatusC j ∧
    (ParseCmdInputByte tempRx i s).2.commandLenC j = s.commandLenC j ∧
    (ParseCmdInputByte tempRx i s).2.cmdRxC j = s.cmdRxC j ∧
    (ParseCmdInputByte tempRx i s).2.writeBuffCmd j = s.writeBuffCmd j ∧
    (ParseCmdInputByte tempRx i s).2.readBuffCmd j = s.readBuffCmd j ∧
    (∀ k, (ParseCmdInputByte tempRx i s).2.buffCmd j k = s.buffCmd j k) := by
  have hji : j ≠ i := fun h => hij h.symm
  unfold ParseCmdInputByte
  cases s.commandStatusC i <;> dsimp only <;> split_ifs <;>
    simp [Function.update_noteq hji]

/-- A DLE byte for source 0 while source 1 is in the middle of a frame of its
own: the call leaves the state of source 1 alone. -/
theorem C32_sources_independent_witness :
    (ParseCmdInputByte 0x10 0 midFrame).2.commandStatusC 1 = midFrame.commandStatusC 1 ∧
    (ParseCmdInputByte 0x10 0 midFrame).2.commandLenC 1 = midFrame.commandLenC 1 ∧
    (ParseCmdInputByte 0x10 0 midFrame).2.cmdRxC 1 = midFrame.cmdRxC 1 ∧
    (ParseCmdInputByte 0x10 0 midFrame).2.writeBuffCmd 1 = midFrame.writeBuffCmd 1 ∧
    (ParseCmdInputByte 0x10 0 midFrame).2.readBuffCmd 1 = midFrame.readBuffCmd 1 ∧
    (∀ k, (ParseCmdInputByte 0x10 0 midFrame).2.buffCmd 1 k = midFrame.buffCmd 1 k) :=
  C32_sources_independent 0x10 0 1 midFrame (by decide)

/-! ### Housekeeping cadence -/

theorem baroTick_fields (s : TickState) (h5 : s.hkSecs = 5) :
    (baroTick s).hkSecs = 5 ∧
    (baroTick s).cntSecs
      = (if s.cntSecs % 20 = 0 ∧ 235 ≤ s.cntSecs then 1 else (s.cntSecs + 1) % 256) ∧
    (baroTick s).hkReq = (if s.cntSecs % 20 = 0 then TRUE else s.hkReq) := by
  have h20 : (s.hkSecs * 4) % 256 = 20 := by rw [h5]
  unfold baroTick
  dsimp only
  rw [h20]
  by_cases h0 : s.cntSecs % 20 = 0
  · have h0s : 0 = s.cntSecs % 20 := h0.symm
    by_cases h235 : 235 ≤ s.cntSecs
    · have hle : 255 - s.cntSecs ≤ 20 := by omega
      rw [if_pos h0s, if_pos hle, if_pos ⟨h0, h235⟩, if_pos h0]
      exact ⟨h5, rfl, rfl⟩
    · have hle : ¬ 255 - s.cntSecs ≤ 20 := by omega
      have hb : ¬ (s.cntSecs % 20 = 0 ∧ 235 ≤ s.cntSecs) := fun h => h235 h.2
      rw [if_pos h0s, if_neg hle, if_neg hb, if_pos h0]
      exact ⟨h5, rfl, rfl⟩
  · have h0s : ¬ 0 = s.cntSecs % 20 := fun h => h0 h.symm
    have hb : ¬ (s.cntSecs % 20 = 0 ∧ 235 ≤ s.cntSecs) := fun h => h0 h.1
    rw [if_neg h0s, if_neg hb, if_neg h0]
    exact ⟨h5, rfl, rfl⟩

theorem baroRun_counter (taken : Nat → Bool) (h : Nat) :
    ∀ n, (baroRun taken n ⟨0, 5, h⟩).hkSecs = 5 ∧
      ((n = 0 ∧ (baroRun taken n ⟨0, 5, h⟩).cntSecs = 0) ∨
       (0 < n ∧ (baroRun taken n ⟨0, 5, h⟩).cntSecs = (n - 1) % 240 + 1)) := by
  intro n
  induction n with
  | zero => exact ⟨rfl, Or.inl ⟨rfl, rfl⟩⟩
  | succ n ih =>
    obtain ⟨h5, hc⟩ := ih
    obtain ⟨t5, tc, _⟩ := baroTick_fields (baroRun taken n ⟨0, 5, h⟩) h5
    have key : (baroTick (baroRun taken n ⟨0, 5, h⟩)).cntSecs = (n + 1 - 1) % 240 + 1 := by
      rw [tc]
      generalize (baroRun taken n ⟨0, 5, h⟩).cntSecs = c at hc
      split_ifs <;> omega
    unfold baroRun
    split_ifs
    · exact ⟨t5, Or.inr ⟨Nat.succ_pos n, key⟩⟩
    · exact ⟨t5, Or.inr ⟨Nat.succ_pos n, key⟩⟩

/-- C35: with `hkSecs = 5` and `cntSecs` starting at 0, whatever the request
flag was and whenever the main loop took the requests in between, tick `n`
raises `hkReq` exactly when `n` is a multiple of 20, for every `n`: on such a
tick the flag is `TRUE` afterwards, on any other tick the flag is left as it
was.  The counter never exceeds 240, and the reset to 1 at 240 keeps the
distance between two requests at 20 ticks. -/
theorem C35_request_every_20_ticks (taken : Nat → Bool) (h n : Nat) :
    (n % 20 = 0 → (baroTick (baroRun taken n ⟨0, 5, h⟩)).hkReq = TRUE) ∧
    (n % 20 ≠ 0 →
      (baroTick (baroRun taken n ⟨0, 5, h⟩)).hkReq = (baroRun taken n ⟨0, 5, h⟩).hkReq) ∧
    (baroRun taken n ⟨0, 5, h⟩).cntSecs ≤ 240 := by
  obtain ⟨h5, hc⟩ := baroRun_counter taken h n
  obtain ⟨_, _, tr⟩ := baroTick_fields (baroRun taken n ⟨0, 5, h⟩) h5
  rw [tr]
  generalize (baroRun taken n ⟨0, 5, h⟩).cntSecs = c at hc
  refine ⟨?_, ?_, ?_⟩
  · intro hn
    rw [if_pos (by omega)]
  · intro hn
    rw [if_neg (by omega)]
  · omega

/-- Ticks 240 and 260, on either side of the counter reset, raise the request;
ticks 241 and 259 leave the flag as it was. -/
theorem C35_request_every_20_ticks_witness :
    (baroTick (baroRun (fun _ => true) 240 ⟨0, 5, FALSE⟩)).hkReq = TRUE ∧
    (baroTick (baroRun (fun _ => true) 260 ⟨0, 5, FALSE⟩)).hkReq = TRUE ∧
    (baroTick (baroRun (fun _ => true) 241 ⟨0, 5, FALSE⟩)).hkReq
      = (baroRun (fun _ => true) 241 ⟨0, 5, FALSE⟩).hkReq ∧
    (baroTick (baroRun (fun _ => true) 259 ⟨0, 5, FALSE⟩)).hkReq
      = (baroRun (fun _ => true) 259 ⟨0, 5, FALSE⟩).hkReq :=
  ⟨(C35_request_every_20_ticks (fun _ => true) FALSE 240).1 (by decide),
    (C35_request_every_20_ticks (fun _ => true) FALSE 260).1 (by decide),
    (C35_request_every_20_ticks (fun _ => true) FALSE 241).2.1 (by decide),
    (C35_request_every_20_ticks (fun _ => true) FALSE 259).2.1 (by decide)⟩

/-! ### Event receiver -/

/-- What a run of stores does to the write position, the read cursor and the
ring contents, for the bytes `bs` in arrival order. -/
theorem evStore_foldl (s : DaqState) (w0 : Nat) (hr : s.buffEvRead < 1024) (hw : w0 < 1024) :
    ∀ bs : List Nat,
      (bs.foldl evStore (s, w0)).2 = (w0 + bs.length) % 1024 ∧
      (ACTIVELEN s.buffEvRead w0 1024 + bs.length < 1024 →
        (bs.foldl evStore (s, w0)).1.buffEvRead = s.buffEvRead) ∧
      (1024 ≤ ACTIVELEN s.buffEvRead w0 1024 + bs.length →
        (bs.foldl evStore (s, w0)).1.buffEvRead = ((w0 + bs.length) % 1024 + 1) % 1024) ∧
      (∀ j, j < bs.length → j < 1024 →
        (bs.foldl evStore (s, w0)).1.buffEv ((w0 + bs.length + 1023 * (j + 1)) % 1024)
          = bs.getD (bs.length - 1 - j) 0) ∧
      (bs.foldl evStore (s, w0)).1.buffEvWrite = s.buffEvWrite := by
  intro bs
  induction bs using List.reverseRecOn with
  | nil =>
    refine ⟨by simp; omega, fun _ => rfl, ?_, ?_, rfl⟩
    · intro h
      have := @ACTIVELEN_lt 1024 s.buffEvRead w0 (by omega)
      simp at h
      omega
    · intro j hj
      simp at hj
  | append_singleton bs b ih =>
    obtain ⟨h1, h2, h3, h4, h5⟩ := ih
    rw [List.foldl_append]
    simp only [List.foldl_cons, List.foldl_nil, List.length_append, List.length_singleton]
    generalize bs.foldl evStore (s, w0) = r at h1 h2 h3 h4 h5
    have hA : ACTIVELEN s.buffEvRead w0 1024 = (1024 - s.buffEvRead + w0) % 1024 := rfl
    rw [hA] at h2 h3 ⊢
    have hw2 : (evStore r b).2 = (w0 + (bs.length + 1)) % 1024 := by
      unfold evStore WRAPINC EV_BUFFER_SIZE
      dsimp only
      split_ifs <;> simp only [] <;> omega
    have hbuf : (evStore r b).1.buffEv = Function.update r.1.buffEv r.2 b := by
      unfold evStore
      dsimp only
      split_ifs <;> rfl
    have hwr : (evStore r b).1.buffEvWrite = r.1.buffEvWrite := by
      unfold evStore
      dsimp only
      split_ifs <;> rfl
    have hrd : (evStore r b).1.buffEvRead
        = if (r.2 + 1) % 1024 = r.1.buffEvRead then ((r.2 + 1) % 1024 + 1) % 1024
          else r.1.buffEvRead := by
      unfold evStore WRAPINC EV_BUFFER_SIZE
      dsimp only
      split_ifs <;> rfl
    refine ⟨hw2, ?_, ?_, ?_, hwr.trans h5⟩
    · intro hlt
      rw [hrd, h2 (by omega), h1]
      rw [if_neg (by omega)]
    · intro hge
      rw [hrd, h1]
      by_cases hlt : (1024 - s.buffEvRead + w0) % 1024 + bs.length < 1024
      · rw [h2 hlt, if_pos (by omega)]
        omega
      · rw [h3 (by omega), if_pos (by omega)]
        omega
    · intro j hj hj2
      rw [hbuf]
      by_cases hj0 : j = 0
      · subst hj0
        have e1 : (w0 + (bs.length + 1) + 1023 * (0 + 1)) % 1024 = r.2 := by
          rw [h1]; omega
        rw [e1, Function.update_same]
        have e2 : bs.length + 1 - 1 - 0 = bs.length := by omega
        rw [e2, List.getD_append_right _ _ _ _ (Nat.le_refl _)]
        simp
      · have e1 : (w0 + (bs.length + 1) + 1023 * (j + 1)) % 1024
            = (w0 + bs.length + 1023 * (j - 1 + 1)) % 1024 := by omega
        have hne : (w0 + bs.length + 1023 * (j - 1 + 1)) % 1024 ≠ r.2 := by
          rw [h1]; omega
        rw [e1, Function.update_noteq hne, h4 (j - 1) (by omega) (by omega)]
        have e2 : bs.length + 1 - 1 - j = bs.length - 1 - (j - 1) := by omega
        rw [e2, List.getD_append _ _ _ _ (by omega)]

/-- C31: when `ISRReadEv` finds the receive buffer not empty and appends the
`k = 1 + |rest|` bytes it hands out to a ring holding `a` bytes, the write
cursor advances by `k` (mod 1024), the ring then holds `min (a + k) 1023`
bytes, the read cursor stays when `a + k < 1024` and otherwise ends one past
the new write cursor, the most recent `min k 1024` bytes sit in arrival order
just before the new write cursor (the `j`-th most recent at `write - 1 - j`),
and the read cursor differs from the write cursor afterwards. -/
theorem C31_discard_oldest (notEmpty : Nat) (hw : EvRxHw) (s : DaqState)
    (hst : notEmpty &&& hw.status ≠ 0)
    (hr : s.buffEvRead < 1024) (hwr : s.buffEvWrite < 1024) :
    (ISRReadEv notEmpty hw s).buffEvWrite = (s.buffEvWrite + (hw.rest.length + 1)) % 1024 ∧
    ACTIVELEN (ISRReadEv notEmpty hw s).buffEvRead (ISRReadEv notEmpty hw s).buffEvWrite 1024
      = min (ACTIVELEN s.buffEvRead s.buffEvWrite 1024 + (hw.rest.length + 1)) 1023 ∧
    (ACTIVELEN s.buffEvRead s.buffEvWrite 1024 + (hw.rest.length + 1) < 1024 →
      (ISRReadEv notEmpty hw s).buffEvRead = s.buffEvRead) ∧
    (1024 ≤ ACTIVELEN s.buffEvRead s.buffEvWrite 1024 + (hw.rest.length + 1) →
      (ISRReadEv notEmpty hw s).buffEvRead
        = ((ISRReadEv notEmpty hw s).buffEvWrite + 1) % 1024) ∧
    (∀ j, j < min (hw.rest.length + 1) 1024 →
      (ISRReadEv notEmpty hw s).buffEv
          (((ISRReadEv notEmpty hw s).buffEvWrite + 1023 * (j + 1)) % 1024)
        = (hw.first :: hw.rest).getD (hw.rest.length - j) 0) ∧
    (ISRReadEv notEmpty hw s).buffEvRead ≠ (ISRReadEv notEmpty hw s).buffEvWrite := by
  obtain ⟨h1, h2, h3, h4, _⟩ := evStore_foldl s s.buffEvWrite hr hwr (hw.first :: hw.rest)
  have hcond : 0 ≠ notEmpty &&& hw.status := fun h => hst h.symm
  have hrun : ISRReadEv notEmpty hw s
      = { ((hw.first :: hw.rest).foldl evStore (s, s.buffEvWrite)).1 with
          buffEvWrite := ((hw.first :: hw.rest).foldl evStore (s, s.buffEvWrite)).2 } := by
    unfold ISRReadEv
    rw [if_pos hcond]
    rfl
  rw [hrun]
  simp only [List.length_cons] at h1 h2 h3 h4
  generalize (hw.first :: hw.rest).foldl evStore (s, s.buffEvWrite) = r at h1 h2 h3 h4
  show r.2 = _ ∧ ACTIVELEN r.1.buffEvRead r.2 1024 = _ ∧ (_ → r.1.buffEvRead = _) ∧
    (_ → r.1.buffEvRead = (r.2 + 1) % 1024) ∧
    (∀ j, _ → r.1.buffEv ((r.2 + 1023 * (j + 1)) % 1024) = _) ∧ r.1.buffEvRead ≠ r.2
  have hA : ACTIVELEN s.buffEvRead s.buffEvWrite 1024
      = (1024 - s.buffEvRead + s.buffEvWrite) % 1024 := rfl
  have hA2 : ACTIVELEN r.1.buffEvRead r.2 1024 = (1024 - r.1.buffEvRead + r.2) % 1024 := rfl
  rw [hA] at h2 h3 ⊢
  rw [hA2, h1]
  refine ⟨rfl, ?_, h2, ?_, ?_, ?_⟩
  · by_cases hlt : (1024 - s.buffEvRead + s.buffEvWrite) % 1024 + (hw.rest.length + 1) < 1024
    · rw [h2 hlt]
      omega
    · rw [h3 (by omega)]
      omega
  · intro hge
    exact h3 hge
  · intro j hj
    have e1 : ((s.buffEvWrite + (hw.rest.length + 1)) % 1024 + 1023 * (j + 1)) % 1024
        = (s.buffEvWrite + (hw.rest.length + 1) + 1023 * (j + 1)) % 1024 := by omega
    rw [e1, h4 j (by omega) (by omega)]
    rfl
  · by_cases hlt : (1024 - s.buffEvRead + s.buffEvWrite) % 1024 + (hw.rest.length + 1) < 1024
    · rw [h2 hlt]
      omega
    · rw [h3 (by omega)]
      omega

/-- Three bytes arriving at a ring that holds 1022: the write cursor goes from
3 to 6, the read cursor is pushed from 5 to 7, the ring holds 1023 bytes, and
the three bytes sit at indices 3, 4, 5. -/
theorem C31_discard_oldest_witness :
    (ISRReadEv 0x08 threeBytes nearlyFull).buffEvWrite = 6 ∧
    (ISRReadEv 0x08 threeBytes nearlyFull).buffEvRead = 7 ∧
    ACTIVELEN (ISRReadEv 0x08 threeBytes nearlyFull).buffEvRead
        (ISRReadEv 0x08 threeBytes nearlyFull).buffEvWrite 1024 = 1023 ∧
    (ISRReadEv 0x08 threeBytes nearlyFull).buffEv 5 = 0xA3 ∧
    (ISRReadEv 0x08 threeBytes nearlyFull).buffEv 3 = 0xA1 ∧
    (ISRReadEv 0x08 threeBytes nearlyFull).buffEvRead
      ≠ (ISRReadEv 0x08 threeBytes nearlyFull).buffEvWrite :=
  have h := C31_discard_oldest 0x08 threeBytes nearlyFull (by decide) (by decide) (by decide)
  ⟨h.1, by decide, h.2.1, h.2.2.2.2.1 0 (by decide), h.2.2.2.2.1 2 (by decide), h.2.2.2.2.2⟩

/-! ### Address field of continuation entries, header cursor -/

theorem setHK_read (s : HkState) (off v : Nat) :
    (setHK s off v).daq.buffHKRead = s.daq.buffHKRead := rfl

theorem hkFinish_read (c : CyConsts) (cmd : CmdState) (hw : HkHw) (s : HkState) :
    (hkFinish c cmd hw s).daq.buffHKRead = s.daq.buffHKRead := by
  have hd : ∀ x : HkState, (hkDieTemp c hw x).daq.buffHKRead = x.daq.buffHKRead := by
    intro x
    unfold hkDieTemp
    split_ifs <;> simp only [setHK, missInc]
  have hf : ∀ x : HkState, (hkFrameCounts x).daq.buffHKRead = x.daq.buffHKRead := by
    intro x
    simp only [hkFrameCounts, setHK]
  have hb : ∀ x : HkState, (hkBusy x).daq.buffHKRead = x.daq.buffHKRead := by
    intro x
    unfold hkBusy
    split_ifs <;> rfl
  have hs : (hkStatistics cmd s).daq.buffHKRead = s.daq.buffHKRead := by
    simp only [hkStatistics, setHK]
  simp only [hkFinish, setHK]
  rw [hd, hf, hb, hs]

theorem hkCheckEntry_cursors (s : HkState) :
    (hkCheckEntry s).1.daq.buffHKRead = s.daq.buffHKRead ∧
    (hkCheckEntry s).1.daq.buffHKWrite = s.daq.buffHKWrite := by
  unfold hkCheckEntry
  dsimp only
  split_ifs <;> simp only [missInc, setHK, zeroHK, and_self]

/-- A call of `CheckHKBuffer` that returns 1 has moved `buffHKWrite` to the
other record and left `buffHKRead` alone. -/
theorem hkCheckLoop_done_cursors (c : CyConsts) (cmd : CmdState) (hw : HkHw) :
    ∀ (fuel : Nat) (s : HkState), (hkCheckLoop c cmd hw fuel s).1 = 1 →
      (hkCheckLoop c cmd hw fuel s).2.daq.buffHKRead = s.daq.buffHKRead ∧
      (hkCheckLoop c cmd hw fuel s).2.daq.buffHKWrite
        = WRAPINC s.daq.buffHKWrite HK_BUFFER_PACKETS := by
  intro fuel
  induction fuel with
  | zero =>
    intro s h
    have h0 : (0 : Nat) = 1 := h
    exact absurd h0 (by decide)
  | succ fuel ih =>
    intro s
    obtain ⟨e1, e2⟩ := hkCheckEntry_cursors s
    unfold hkCheckLoop
    dsimp only
    split_ifs with h14 hgo
    · intro _
      obtain ⟨f1, _⟩ := hkFinish_fields c cmd hw (hkCheckEntry s).1
      exact ⟨(hkFinish_read c cmd hw _).trans e1, by rw [f1, e2]⟩
    · intro h
      obtain ⟨i1, i2⟩ := ih (hkCheckEntry s).1 h
      exact ⟨i1.trans e1, by rw [i2, e2]⟩
    · intro h
      exact absurd h (by decide)

theorem CheckHKBuffer_done_cursors (c : CyConsts) (cmd : CmdState) (hw : HkHw) (s : HkState)
    (h1 : (CheckHKBuffer c cmd hw s).1 = 1) :
    (CheckHKBuffer c cmd hw s).2.daq.buffHKRead = s.daq.buffHKRead ∧
    (CheckHKBuffer c cmd hw s).2.daq.buffHKWrite = (s.daq.buffHKWrite + 1) % 2 := by
  unfold CheckHKBuffer at h1 ⊢
  split_ifs at h1 ⊢ with hc hr
  exact hkCheckLoop_done_cursors c cmd hw _ s h1

/-- C40 fails when the previous record has not been drained: with
`buffHKRead = 0` and `buffHKWrite = 1` a call that closes the record returns 1
and moves `buffHKWrite` to 0 without looking at `buffHKRead`, so the two
cursors are equal afterwards and the multiplexer sees an empty record queue. -/
theorem C40_undrained_record_lost :
    undrainedCycle.daq.buffHKRead ≠ undrainedCycle.daq.buffHKWrite ∧
    (CheckHKBuffer psocConsts CmdState.init ⟨0, 0⟩ undrainedCycle).1 = 1 ∧
    (CheckHKBuffer psocConsts CmdState.init ⟨0, 0⟩ undrainedCycle).2.daq.buffHKRead
      = (CheckHKBuffer psocConsts CmdState.init ⟨0, 0⟩ undrainedCycle).2.daq.buffHKWrite := by
  have h1 : (CheckHKBuffer psocConsts CmdState.init ⟨0, 0⟩ undrainedCycle).1 = 1 := by
    rw [hkCheck_unavailable psocConsts CmdState.init ⟨0, 0⟩ undrainedCycle rfl rfl]
  obtain ⟨hr, hw⟩ := CheckHKBuffer_done_cursors psocConsts CmdState.init ⟨0, 0⟩ undrainedCycle h1
  refine ⟨by decide, h1, ?_⟩
  rw [hr, hw]
  rfl

/-! ### Variable-type round trip -/

/-- Counterexample to C34 as stated: the unread span is exactly one
variable-type packet with n = 0 and T = 9 from the read cursor on and the
packet queue is empty, but no byte arrived since the last scan
(`buffEvWriteLast = buffEvWrite`); the call returns 0 and queues nothing. -/
theorem C34_no_new_bytes_no_packet :
    scannedPacket.buffEvRead = 0 ∧ scannedPacket.buffEvWrite = 9 ∧
    scannedPacket.packetEvHead = scannedPacket.packetEvTail ∧
    (List.range 9).map scannedPacket.buffEv
      = [0xDC, 0x00, 0xFF, 0x00, 0x05, 0x05, 0xFF, 0x00, 0xFF] ∧
    scannedPacket.buffEvWriteLast = scannedPacket.buffEvWrite ∧
    (CheckEventPackets scannedPacket).1 = 0 ∧
    (CheckEventPackets scannedPacket).2.packetEvTail = scannedPacket.packetEvTail := by
  decide

/-- C34 (amended): for every length byte n <= 255 and every total length T, a
multiple of 3 with n + 9 <= T <= n + 11, when the unread span is exactly T
bytes from the read cursor `r` on, with `DC 00 FF` at `r`, n at `r + 3` and
`FF 00 FF` as the last three bytes, the packet queue is empty and bytes have
arrived since the last scan, `CheckEventPackets` returns 1 and enqueues exactly
one PacketEvent, header `r` and EOR `(r + T - 1) mod 1024`. -/
theorem C34_variable_round_trip (s : DaqState) (r n T : Nat)
    (hr : r < 1024) (hn : n ≤ 255) (hT3 : T % 3 = 0) (hlo : n + 9 ≤ T) (hhi : T ≤ n + 11)
    (hread : s.buffEvRead = r) (hwrite : s.buffEvWrite = (r + T) % 1024)
    (hnew : s.buffEvWriteLast ≠ s.buffEvWrite) (hempty : s.packetEvHead = s.packetEvTail)
    (b0 : s.buffEv r = 0xDC) (b1 : s.buffEv ((r + 1) % 1024) = 0x00)
    (b2 : s.buffEv ((r + 2) % 1024) = 0xFF) (b3 : s.buffEv ((r + 3) % 1024) = n)
    (t0 : s.buffEv ((r + (T - 3)) % 1024) = 0xFF) (t1 : s.buffEv ((r + (T - 2)) % 1024) = 0x00)
    (t2 : s.buffEv ((r + (T - 1)) % 1024) = 0xFF) :
    (CheckEventPackets s).1 = 1 ∧
    (CheckEventPackets s).2.packetEv s.packetEvTail = ⟨r, (r + (T - 1)) % 1024⟩ ∧
    (CheckEventPackets s).2.packetEvTail = WRAPINC s.packetEvTail 16 ∧
    (CheckEventPackets s).2.packetEvHead = s.packetEvHead ∧
    (∀ k, k ≠ s.packetEvTail → (CheckEventPackets s).2.packetEv k = s.packetEv k) := by
  have hT264 : T ≤ 264 := by omega
  obtain ⟨m, hm⟩ : ∃ m, T = m + 1 := ⟨T - 1, by omega⟩
  have hlenA : ACTIVELEN r ((r + (T - 1)) % 1024) 1024 = T - 1 := ACTIVELEN_add_mod hr (by omega)
  have e1 : WRAPDEC ((r + (T - 1)) % 1024) 1024 = (r + (T - 2)) % 1024 := by
    unfold WRAPDEC; omega
  have e2 : WRAPDEC ((r + (T - 2)) % 1024) 1024 = (r + (T - 3)) % 1024 := by
    unfold WRAPDEC; omega
  have i1 : WRAPINC r 1024 = (r + 1) % 1024 := rfl
  have i2 : WRAPINC ((r + 1) % 1024) 1024 = (r + 2) % 1024 := by unfold WRAPINC; omega
  have i3 : WRAP3INC r 1024 = (r + 3) % 1024 := rfl
  have hscan : CheckEventPackets s
      = (1, enqueuePacketEv { s with buffEvWriteLast := s.buffEvWrite } r
          ((r + (T - 1)) % 1024)) := by
    rw [CheckEventPackets_span s r T hr (by omega) (by omega) hread hwrite hnew hempty]
    have ht : trailerAt { s with buffEvWriteLast := s.buffEvWrite } ((r + (T - 1)) % 1024) := by
      simp [trailerAt, frame00FF, EOR_HEAD, EV_BUFFER_SIZE, e1, e2, t0, t1, t2]
    have hmt : headerMatches { s with buffEvWriteLast := s.buffEvWrite } T r := by
      refine ⟨Or.inl b0, ?_, ?_, ?_⟩
      · show T - 2 ≤ calcBytes _ r ∧ T ≥ calcBytes _ r
        have hc : calcBytes { s with buffEvWriteLast := s.buffEvWrite } r = n + 9 := by
          simp [calcBytes, EVVAR_HEAD, EV_BUFFER_SIZE, b0, i3, b3]
        rw [hc]
        omega
      · show frame00FF 0 = s.buffEv (WRAPINC r 1024)
        rw [i1, b1]
        rfl
      · show frame00FF 1 = s.buffEv (WRAPINC (WRAPINC r 1024) 1024)
        rw [i1, i2, b2]
        rfl
    have hfree : WRAPINC s.packetEvTail 16 ≠ s.packetEvHead := by
      rw [hempty]
      exact enqueue_room_of_empty _
    subst hm
    rw [scanTrailer_hit _ r r m _ (by omega) ht,
      trailerFound_aligned _ r r _ (m + 1) (by rw [hlenA]; omega) hT3 hT264,
      probeHeaders_accept _ r _ m (m + 1) r (by omega) hmt,
      acceptHeader_at_start { s with buffEvWriteLast := s.buffEvWrite } r _ hfree]
  rw [hscan]
  refine ⟨rfl, ?_, rfl, rfl, ?_⟩
  · simp [enqueuePacketEv]
  · intro k hk
    simp [enqueuePacketEv, Function.update_noteq hk]

/-- The 12-byte packet `DC 00 FF 01 AA 00 00 00 00 FF 00 FF` (n = 1, T = 12),
written across the end of the ring from index 1020, is recovered as the span
1020..7. -/
theorem C34_variable_round_trip_witness :
    (CheckEventPackets (ringWith 1020
        [0xDC, 0x00, 0xFF, 0x01, 0xAA, 0x00, 0x00, 0x00, 0x00, 0xFF, 0x00, 0xFF])).1 = 1 ∧
    (CheckEventPackets (ringWith 1020
        [0xDC, 0x00, 0xFF, 0x01, 0xAA, 0x00, 0x00, 0x00, 0x00, 0xFF, 0x00, 0xFF])).2.packetEv 0
      = ⟨1020, 7⟩ :=
  have h := C34_variable_round_trip
    (ringWith 1020 [0xDC, 0x00, 0xFF, 0x01, 0xAA, 0x00, 0x00, 0x00, 0x00, 0xFF, 0x00, 0xFF])
    1020 1 12 (by decide) (by decide) (by decide) (by decide) (by decide) rfl rfl
    (by decide) rfl (by decide) (by decide) (by decide) (by decide) (by decide) (by decide)
    (by decide)
  ⟨h.1, h.2.1⟩

/-! ### Outcomes of `CheckEventPackets` -/

/-- A call of `CheckEventPackets` ends in one of four ways: the entry test
fails, the scan finds nothing to accept, the span is dumped whole, or the accept
body is reached on some pass `k` of the trailer search and pass `i` of the
header probe. -/
theorem CheckEventPackets_cases (s : DaqState) (hread : s.buffEvRead < 1024) :
    CheckEventPackets s = (0, s) ∨
    CheckEventPackets s = (0, { s with buffEvWriteLast := s.buffEvWrite }) ∨
    (WRAPINC s.packetEvTail 16 ≠ s.packetEvHead ∧
      999 ≤ ACTIVELEN (scanStart s) s.buffEvWrite 1024 ∧
      CheckEventPackets s
        = (1, enqueuePacketEv { s with buffEvWriteLast := s.buffEvWrite } (scanStart s)
            ((scanStart s + 998) % 1024))) ∨
    ∃ k i, acceptsAt s k i := by
  have h999 : EV_DUMP_SIZE = 999 := by decide
  have hstart := scanStart_lt s hread
  by_cases hg : s.buffEvWriteLast ≠ s.buffEvWrite ∧ s.buffEvRead ≠ s.buffEvWrite ∧
      WRAPINC s.packetEvTail PACKET_EVENT_SIZE ≠ s.packetEvHead
  · obtain ⟨hnew, hne, hfree⟩ := hg
    by_cases hspan : 999 ≤ ACTIVELEN (scanStart s) s.buffEvWrite 1024
    · right; right; left
      refine ⟨hfree, hspan, ?_⟩
      unfold PACKET_EVENT_SIZE at hfree
      simp [CheckEventPackets, hnew, hne, hfree, PACKET_EVENT_SIZE, h999, EV_BUFFER_SIZE,
        hspan, WRAP]
    · have hlt : ACTIVELEN (scanStart s) s.buffEvWrite 1024 < 999 := by omega
      have hdec : WRAPDEC s.buffEvWrite 1024 < 1024 := by
        unfold WRAPDEC; omega
      have hscan := CheckEventPackets_scan s hnew hne hfree hlt
      by_cases hex : ∃ k, k + 9 ≤ ACTIVELEN (scanStart s) s.buffEvWrite 1024 ∧
          trailerAt s (eorAt s k)
      · have hk := Nat.find_spec hex
        have hkmin : ∀ j, j < Nat.find hex → ¬ trailerAt s (eorAt s j) := by
          intro j hj ht
          exact Nat.find_min hex hj ⟨by omega, ht⟩
        by_cases hex2 : ∃ i, 3 * i + 9 ≤ (probeStart (scanStart s) (eorAt s (Nat.find hex))).1 ∧
            headerMatches s (probeExp (scanStart s) (eorAt s (Nat.find hex)) i)
              (probeAt (scanStart s) (eorAt s (Nat.find hex)) i)
        · have hi := Nat.find_spec hex2
          have himin : ∀ j, j < Nat.find hex2 →
              ¬ headerMatches s (probeExp (scanStart s) (eorAt s (Nat.find hex)) j)
                (probeAt (scanStart s) (eorAt s (Nat.find hex)) j) := by
            intro j hj hm
            exact Nat.find_min hex2 hj ⟨by omega, hm⟩
          right; right; right
          exact ⟨Nat.find hex, Nat.find hex2, ⟨hnew, hne, hfree⟩,
            by rw [h999]; exact hlt, hk.1, hkmin, hk.2, hi.1, himin, hi.2⟩
        · right; left
          rw [hscan]
          refine (scanTrailer_first { s with buffEvWriteLast := s.buffEvWrite } (scanStart s)
            (scanStart s) (Nat.find hex) _ _ hdec hk.1 hkmin hk.2).trans ?_
          apply trailerFound_none { s with buffEvWriteLast := s.buffEvWrite } (scanStart s)
            (scanStart s) _ hstart
          intro j hj hm
          exact hex2 ⟨j, hj, hm⟩
      · right; left
        rw [hscan]
        apply scanTrailer_none { s with buffEvWriteLast := s.buffEvWrite } (scanStart s)
          (scanStart s) _ _ hdec
        intro j hj ht
        exact hex ⟨j, hj, ht⟩
  · left
    simp only [CheckEventPackets, if_neg hg]

/-- The trailer end found on pass `k` lies `k + 1` bytes before the write
cursor, inside the unread span. -/
theorem eorAt_offset (s : DaqState) (k : Nat)
    (hk : k + 9 ≤ ACTIVELEN (scanStart s) s.buffEvWrite 1024) :
    eorAt s k < 1024 ∧
    ACTIVELEN (scanStart s) (eorAt s k) 1024 + 1 + k
      = ACTIVELEN (scanStart s) s.buffEvWrite 1024 := by
  unfold eorAt WRAPDEC EV_BUFFER_SIZE
  unfold ACTIVELEN at hk ⊢
  generalize scanStart s = a at *
  generalize s.buffEvWrite = w at *
  omega

/-- The arithmetic of a header `d` bytes past the scan start `a`, for a trailer
end `e` that lies `m` bytes past `a` with `d + 9 <= m + 1`. -/
theorem inside_arith (a e p d : Nat) (ha : a < 1024)
    (hd : d + 9 ≤ ACTIVELEN a e 1024 + 1) (hp : p = (a + d) % 1024) :
    ACTIVELEN a p 1024 = d ∧ ACTIVELEN a p 1024 + (ACTIVELEN p e 1024 + 1) = ACTIVELEN a e 1024 + 1 ∧
    (p ≠ a → ACTIVELEN a a 1024 + (ACTIVELEN a ((p + 1023) % 1024) 1024 + 1) = d) := by
  unfold ACTIVELEN at hd ⊢
  omega

/-- What reaching the accept body says about the accepted span: it has the
shape of a packet and lies inside the unread span, `d` bytes past the scan
start. -/
theorem acceptsAt_shape (s : DaqState) (k i : Nat) (hread : s.buffEvRead < 1024)
    (hacc : acceptsAt s k i) :
    wellShaped s.buffEv (probeAt (scanStart s) (eorAt s k) i) (eorAt s k) ∧
    insideUnread s (probeAt (scanStart s) (eorAt s k) i) (eorAt s k) ∧
    (probeAt (scanStart s) (eorAt s k) i ≠ scanStart s →
      insideUnread s (scanStart s) ((probeAt (scanStart s) (eorAt s k) i + 1023) % 1024)) := by
  have hstart := scanStart_lt s hread
  obtain ⟨_, _, hk, _, htr, hi, _, hh⟩ := hacc
  unfold EV_MIN_SIZE at hk hi
  unfold EV_BUFFER_SIZE at hk
  obtain ⟨he, hoff⟩ := eorAt_offset s k hk
  obtain ⟨d, hd, hp⟩ := probeAt_offset (scanStart s) (eorAt s k) i hstart hi
  obtain ⟨a1, a2, a3⟩ := inside_arith (scanStart s) (eorAt s k) _ d hstart hd hp
  have hdist := probe_distance (scanStart s) (eorAt s k) i hstart he hi
  obtain ⟨_, b2, _, b4⟩ := probeStart_bounds (scanStart s) (eorAt s k) hstart
  obtain ⟨_, b5⟩ := b4 (by omega)
  have hfit := (headerMatches_iff_fits s (scanStart s) (eorAt s k) i hstart he hi).1 hh
  obtain ⟨f1, _, _, f4, f5⟩ := hfit
  obtain ⟨t1, t2, t3⟩ := htr
  have hplt : probeAt (scanStart s) (eorAt s k) i < 1024 := by
    rw [hp]; omega
  have hs : spanLength (probeAt (scanStart s) (eorAt s k) i) (eorAt s k)
      = ACTIVELEN (probeAt (scanStart s) (eorAt s k) i) (eorAt s k) 1024 + 1 := by
    unfold spanLength ACTIVELEN EV_BUFFER_SIZE
    omega
  have hlen : ACTIVELEN (probeAt (scanStart s) (eorAt s k) i) (eorAt s k) 1024 + 1
      = (probeStart (scanStart s) (eorAt s k)).1 - 3 * i := hs.symm.trans (hdist.trans rfl)
  have e3 : WRAPDEC (WRAPDEC (eorAt s k) EV_BUFFER_SIZE) EV_BUFFER_SIZE
      = (eorAt s k + EV_BUFFER_SIZE - 2) % EV_BUFFER_SIZE := by
    unfold WRAPDEC EV_BUFFER_SIZE
    omega
  have e4 : WRAPDEC (eorAt s k) EV_BUFFER_SIZE
      = (eorAt s k + EV_BUFFER_SIZE - 1) % EV_BUFFER_SIZE := by
    unfold WRAPDEC EV_BUFFER_SIZE
    omega
  refine ⟨⟨f1, f4, f5, ?_, ?_, t1.symm, ?_, ?_, ?_⟩, ?_, ?_⟩
  · rw [← e3]
    exact t3.symm
  · rw [← e4]
    exact t2.symm
  · show (ACTIVELEN _ _ 1024 + 1) % 3 = 0
    rw [hlen]; omega
  · show 9 ≤ ACTIVELEN _ _ 1024 + 1
    rw [hlen]; omega
  · show ACTIVELEN _ _ 1024 + 1 ≤ 264
    rw [hlen]; omega
  · show ACTIVELEN _ _ 1024 + (ACTIVELEN _ _ 1024 + 1) ≤ ACTIVELEN _ _ 1024
    omega
  · intro hne
    show ACTIVELEN _ _ 1024 + (ACTIVELEN _ _ 1024 + 1) ≤ ACTIVELEN _ _ 1024
    have := a3 hne
    omega

/-- C38: a call of `CheckEventPackets` enqueues nothing, or one dump span, or
one accepted packet, or a dump span followed by an accepted packet.  Every
accepted packet `header..EOR` is well-shaped: the byte at `header` is 0xDB or
0xDC, the next two bytes are 00 FF, the three bytes ending at `EOR` are
FF 00 FF, and the length `ACTIVELEN(header, EOR, 1024) + 1` is a multiple of 3
between 9 and 264.  Every enqueued span, dump or packet, lies inside the unread
span from the scan start up to the write cursor. -/
theorem C38_enqueued_spans (s : DaqState) (hread : s.buffEvRead < 1024) :
    ((CheckEventPackets s).1 = 0 ∧
      (CheckEventPackets s).2.packetEv = s.packetEv ∧
      (CheckEventPackets s).2.packetEvTail = s.packetEvTail) ∨
    (∃ d, insideUnread s (scanStart s) d ∧
      (CheckEventPackets s).1 = 1 ∧
      (CheckEventPackets s).2.packetEv
        = Function.update s.packetEv s.packetEvTail ⟨scanStart s, d⟩ ∧
      (CheckEventPackets s).2.packetEvTail = (s.packetEvTail + 1) % 16) ∨
    (∃ e, wellShaped s.buffEv (scanStart s) e ∧ insideUnread s (scanStart s) e ∧
      (CheckEventPackets s).1 = 1 ∧
      (CheckEventPackets s).2.packetEv
        = Function.update s.packetEv s.packetEvTail ⟨scanStart s, e⟩ ∧
      (CheckEventPackets s).2.packetEvTail = (s.packetEvTail + 1) % 16) ∨
    (∃ p e, wellShaped s.buffEv p e ∧ insideUnread s p e ∧
      insideUnread s (scanStart s) ((p + 1023) % 1024) ∧
      (CheckEventPackets s).1 = 2 ∧
      (CheckEventPackets s).2.packetEv
        = Function.update
            (Function.update s.packetEv s.packetEvTail ⟨scanStart s, (p + 1023) % 1024⟩)
            ((s.packetEvTail + 1) % 16) ⟨p, e⟩ ∧
      (CheckEventPackets s).2.packetEvTail = (s.packetEvTail + 2) % 16) := by
  have hstart := scanStart_lt s hread
  rcases CheckEventPackets_cases s hread with h | h | ⟨_, hspan, h⟩ | ⟨k, i, hacc⟩
  · left
    rw [h]
    exact ⟨rfl, rfl, rfl⟩
  · left
    rw [h]
    exact ⟨rfl, rfl, rfl⟩
  · right; left
    rw [h]
    refine ⟨(scanStart s + 998) % 1024, ?_, rfl, rfl, rfl⟩
    have h1 : ACTIVELEN (scanStart s) ((scanStart s + 998) % 1024) 1024 = 998 :=
      ACTIVELEN_add_mod hstart (by omega)
    have h0 : ACTIVELEN (scanStart s) (scanStart s) 1024 = 0 := by
      unfold ACTIVELEN
      omega
    show ACTIVELEN _ _ 1024 + (ACTIVELEN _ _ 1024 + 1) ≤ ACTIVELEN _ _ 1024
    rw [h0, h1]
    omega
  · obtain ⟨w1, w2, w3⟩ := acceptsAt_shape s k i hread hacc
    have hfree : WRAPINC s.packetEvTail 16 ≠ s.packetEvHead := hacc.1.2.2
    rw [CheckEventPackets_accepts s k i hread hacc]
    obtain ⟨_, q2, _, q4, q5, q6⟩ :=
      acceptHeader_queue { s with buffEvWriteLast := s.buffEvWrite } (scanStart s)
        (probeAt (scanStart s) (eorAt s k) i) (eorAt s k) hfree
    by_cases hpa : probeAt (scanStart s) (eorAt s k) i = scanStart s
    · right; right; left
      obtain ⟨r1, r2⟩ := q4 hpa
      rw [hpa] at w1 w2
      refine ⟨eorAt s k, w1, w2, r1, r2, ?_⟩
      rw [q2, r1]
    · by_cases hroom : (s.packetEvTail + 2) % 16 = s.packetEvHead
      · right; left
        obtain ⟨r1, r2⟩ := q6 hpa hroom
        refine ⟨_, w3 hpa, r1, r2, ?_⟩
        rw [q2, r1]
      · right; right; right
        obtain ⟨r1, r2⟩ := q5 hpa hroom
        refine ⟨_, _, w1, w2, w3 hpa, r1, r2, ?_⟩
        rw [q2, r1]

/-- Three bytes that are no header, then a 9-byte packet (indices 3..11): the
packet span is well-shaped, and both it and the dump `0..2` lie inside the 12
unread bytes. -/
theorem C38_enqueued_spans_witness :
    (((CheckEventPackets junkThenPacket).1 = 0 ∧
      (CheckEventPackets junkThenPacket).2.packetEv = junkThenPacket.packetEv ∧
      (CheckEventPackets junkThenPacket).2.packetEvTail = junkThenPacket.packetEvTail) ∨
    (∃ d, insideUnread junkThenPacket (scanStart junkThenPacket) d ∧
      (CheckEventPackets junkThenPacket).1 = 1 ∧
      (CheckEventPackets junkThenPacket).2.packetEv
        = Function.update junkThenPacket.packetEv junkThenPacket.packetEvTail
            ⟨scanStart junkThenPacket, d⟩ ∧
      (CheckEventPackets junkThenPacket).2.packetEvTail
        = (junkThenPacket.packetEvTail + 1) % 16) ∨
    (∃ e, wellShaped junkThenPacket.buffEv (scanStart junkThenPacket) e ∧
      insideUnread junkThenPacket (scanStart junkThenPacket) e ∧
      (CheckEventPackets junkThenPacket).1 = 1 ∧
      (CheckEventPackets junkThenPacket).2.packetEv
        = Function.update junkThenPacket.packetEv junkThenPacket.packetEvTail
            ⟨scanStart junkThenPacket, e⟩ ∧
      (CheckEventPackets junkThenPacket).2.packetEvTail
        = (junkThenPacket.packetEvTail + 1) % 16) ∨
    (∃ p e, wellShaped junkThenPacket.buffEv p e ∧ insideUnread junkThenPacket p e ∧
      insideUnread junkThenPacket (scanStart junkThenPacket) ((p + 1023) % 1024) ∧
      (CheckEventPackets junkThenPacket).1 = 2 ∧
      (CheckEventPackets junkThenPacket).2.packetEv
        = Function.update
            (Function.update junkThenPacket.packetEv junkThenPacket.packetEvTail
              ⟨scanStart junkThenPacket, (p + 1023) % 1024⟩)
            ((junkThenPacket.packetEvTail + 1) % 16) ⟨p, e⟩ ∧
      (CheckEventPackets junkThenPacket).2.packetEvTail
        = (junkThenPacket.packetEvTail + 2) % 16)) ∧
    (CheckEventPackets junkThenPacket).1 = 2 ∧
    wellShaped junkThenPacket.buffEv 3 11 ∧ insideUnread junkThenPacket 3 11 ∧
    insideUnread junkThenPacket 0 2 :=
  ⟨C38_enqueued_spans junkThenPacket (by decide), by decide, by decide, by decide, by decide⟩

/-! ### Queue accounting of the scanner -/

/-- Cursor arithmetic of a 16-entry queue with a free slot after the tail. -/
theorem queue_room (h t : Nat) (hh : h < 16) (hfree : (t + 1) % 16 ≠ h) :
    ACTIVELEN h ((t + 1) % 16) 16 = ACTIVELEN h t 16 + 1 ∧
    ((t + 2) % 16 ≠ h → ACTIVELEN h ((t + 2) % 16) 16 = ACTIVELEN h t 16 + 2) := by
  unfold ACTIVELEN
  omega

/-- C39: for cursors in range, `CheckEventPackets` returns 0, 1 or 2, the
number of entries it enqueued: `packetEvTail` advances by the return value
(mod 16), `packetEvHead` is unchanged, the occupancy
`ACTIVELEN(packetEvHead, packetEvTail, 16)` grows by exactly the return value
(so the tail never reaches the head and at most 15 entries are held), entries
other than the ones at the old tail and, for a return value of 2, the one after
it are unchanged, and with `WRAPINC(packetEvTail) = packetEvHead` on entry the
call returns 0 and changes nothing. -/
theorem C39_return_counts_enqueued (s : DaqState) (hread : s.buffEvRead < 1024)
    (hh : s.packetEvHead < 16) (ht : s.packetEvTail < 16) :
    (CheckEventPackets s).1 ≤ 2 ∧
    (CheckEventPackets s).2.packetEvTail = (s.packetEvTail + (CheckEventPackets s).1) % 16 ∧
    (CheckEventPackets s).2.packetEvHead = s.packetEvHead ∧
    ACTIVELEN s.packetEvHead (CheckEventPackets s).2.packetEvTail 16
      = ACTIVELEN s.packetEvHead s.packetEvTail 16 + (CheckEventPackets s).1 ∧
    ACTIVELEN s.packetEvHead (CheckEventPackets s).2.packetEvTail 16 ≤ 15 ∧
    (∀ j, (∀ m, m < (CheckEventPackets s).1 → j ≠ (s.packetEvTail + m) % 16) →
      (CheckEventPackets s).2.packetEv j = s.packetEv j) ∧
    (WRAPINC s.packetEvTail 16 = s.packetEvHead → CheckEventPackets s = (0, s)) := by
  have h15 : ∀ x, ACTIVELEN s.packetEvHead x 16 ≤ 15 := by
    intro x
    have := @ACTIVELEN_lt 16 s.packetEvHead x (by omega)
    omega
  have hguard : WRAPINC s.packetEvTail 16 = s.packetEvHead → CheckEventPackets s = (0, s) := by
    intro hfull
    have hg : ¬ (s.buffEvWriteLast ≠ s.buffEvWrite ∧ s.buffEvRead ≠ s.buffEvWrite ∧
        WRAPINC s.packetEvTail PACKET_EVENT_SIZE ≠ s.packetEvHead) := fun h => h.2.2 hfull
    simp only [CheckEventPackets, if_neg hg]
  have hmain : (CheckEventPackets s).1 ≤ 2 ∧
      (CheckEventPackets s).2.packetEvTail = (s.packetEvTail + (CheckEventPackets s).1) % 16 ∧
      (CheckEventPackets s).2.packetEvHead = s.packetEvHead ∧
      ACTIVELEN s.packetEvHead (CheckEventPackets s).2.packetEvTail 16
        = ACTIVELEN s.packetEvHead s.packetEvTail 16 + (CheckEventPackets s).1 ∧
      (∀ j, (∀ m, m < (CheckEventPackets s).1 → j ≠ (s.packetEvTail + m) % 16) →
        (CheckEventPackets s).2.packetEv j = s.packetEv j) := by
    have hzero : ∀ t : DaqState, t.packetEv = s.packetEv → t.packetEvTail = s.packetEvTail →
        t.packetEvHead = s.packetEvHead → CheckEventPackets s = (0, t) →
        (CheckEventPackets s).1 ≤ 2 ∧
        (CheckEventPackets s).2.packetEvTail = (s.packetEvTail + (CheckEventPackets s).1) % 16 ∧
        (CheckEventPackets s).2.packetEvHead = s.packetEvHead ∧
        ACTIVELEN s.packetEvHead (CheckEventPackets s).2.packetEvTail 16
          = ACTIVELEN s.packetEvHead s.packetEvTail 16 + (CheckEventPackets s).1 ∧
        (∀ j, (∀ m, m < (CheckEventPackets s).1 → j ≠ (s.packetEvTail + m) % 16) →
          (CheckEventPackets s).2.packetEv j = s.packetEv j) := by
      intro t e1 e2 e3 h
      rw [h]
      refine ⟨Nat.zero_le 2, ?_, e3, ?_, ?_⟩
      · show t.packetEvTail = (s.packetEvTail + 0) % 16
        rw [e2]; omega
      · show ACTIVELEN s.packetEvHead t.packetEvTail 16 = _ + 0
        rw [e2]; rfl
      · intro j _
        show t.packetEv j = s.packetEv j
        rw [e1]
    rcases CheckEventPackets_cases s hread with h | h | ⟨hfree, _, h⟩ | ⟨k, i, hacc⟩
    · exact hzero s rfl rfl rfl h
    · exact hzero { s with buffEvWriteLast := s.buffEvWrite } rfl rfl rfl h
    · obtain ⟨o1, _⟩ := queue_room s.packetEvHead s.packetEvTail hh hfree
      rw [h]
      refine ⟨Nat.le_succ 1, rfl, rfl, o1, ?_⟩
      intro j hj
      have hj0 := hj 0 Nat.one_pos
      have hne : j ≠ s.packetEvTail := by
        intro e; apply hj0; rw [e]; omega
      show Function.update s.packetEv s.packetEvTail _ j = _
      rw [Function.update_noteq hne]
    · have hfree : WRAPINC s.packetEvTail 16 ≠ s.packetEvHead := hacc.1.2.2
      obtain ⟨o1, o2⟩ := queue_room s.packetEvHead s.packetEvTail hh hfree
      rw [CheckEventPackets_accepts s k i hread hacc]
      obtain ⟨q1, q2, q3, q4, q5, q6⟩ :=
        acceptHeader_queue { s with buffEvWriteLast := s.buffEvWrite } (scanStart s)
          (probeAt (scanStart s) (eorAt s k) i) (eorAt s k) hfree
      refine ⟨q1, q2, q3, ?_, ?_⟩
      · rw [q2]
        by_cases hpa : probeAt (scanStart s) (eorAt s k) i = scanStart s
        · rw [(q4 hpa).1]; exact o1
        · by_cases hroom : (s.packetEvTail + 2) % 16 = s.packetEvHead
          · rw [(q6 hpa hroom).1]; exact o1
          · rw [(q5 hpa hroom).1]; exact o2 hroom
      · intro j hj
        by_cases hpa : probeAt (scanStart s) (eorAt s k) i = scanStart s
        · obtain ⟨r1, r2⟩ := q4 hpa
          rw [r1] at hj
          have hj0 := hj 0 Nat.one_pos
          have hne : j ≠ s.packetEvTail := by
            intro e; apply hj0; rw [e]; omega
          rw [r2]
          exact Function.update_noteq hne _ _
        · by_cases hroom : (s.packetEvTail + 2) % 16 = s.packetEvHead
          · obtain ⟨r1, r2⟩ := q6 hpa hroom
            rw [r1] at hj
            have hj0 := hj 0 Nat.one_pos
            have hne : j ≠ s.packetEvTail := by
              intro e; apply hj0; rw [e]; omega
            rw [r2]
            exact Function.update_noteq hne _ _
          · obtain ⟨r1, r2⟩ := q5 hpa hroom
            rw [r1] at hj
            have hj0 := hj 0 (by omega)
            have hj1 := hj 1 (by omega)
            have hne : j ≠ s.packetEvTail := by
              intro e; apply hj0; rw [e]; omega
            rw [r2, Function.update_noteq hj1]
            exact Function.update_noteq hne _ _
  obtain ⟨m1, m2, m3, m4, m5⟩ := hmain
  exact ⟨m1, m2, m3, m4, h15 _, m5, hguard⟩

/-- With an empty queue the junk-then-packet span gives two entries and the
occupancy goes from 0 to 2; with a single free slot it gives one; with no free
slot the call returns 0. -/
theorem C39_return_counts_enqueued_witness :
    ((CheckEventPackets junkThenPacket).1 ≤ 2 ∧
      (CheckEventPackets junkThenPacket).2.packetEvTail
        = (junkThenPacket.packetEvTail + (CheckEventPackets junkThenPacket).1) % 16 ∧
      (CheckEventPackets junkThenPacket).2.packetEvHead = junkThenPacket.packetEvHead ∧
      ACTIVELEN junkThenPacket.packetEvHead (CheckEventPackets junkThenPacket).2.packetEvTail 16
        = ACTIVELEN junkThenPacket.packetEvHead junkThenPacket.packetEvTail 16
          + (CheckEventPackets junkThenPacket).1) ∧
    (CheckEventPackets junkThenPacket).1 = 2 ∧
    (CheckEventPackets lastSlotState).1 = 1 ∧
    ACTIVELEN lastSlotState.packetEvHead (CheckEventPackets lastSlotState).2.packetEvTail 16
      = 15 :=
  have h := C39_return_counts_enqueued junkThenPacket (by decide) (by decide) (by decide)
  have h2 := C39_return_counts_enqueued lastSlotState (by decide) (by decide) (by decide)
  ⟨⟨h.1, h.2.1, h.2.2.1, h.2.2.2.1⟩, by decide, by decide, by decide⟩

/-! ### Packets of any length through the multiplexer -/

end MainDaq
